import Mathlib

/-!
Verification of the memtrack-utils heap-trace post-processing core.

The development shallowly embeds the Rust sources (interpret.rs, parser.rs,
output.rs, resolver.rs, pipe_io.rs).  All text is modelled at the byte level:
a Rust `String` is a `List Nat` of its UTF-8 bytes, a trace file is a flat
byte list, and lines are recovered exactly as `BufRead::lines` does.
Machine-integer arithmetic on the u64/usize counters is modelled with an
explicit wrap at 2^64.  External components (the addr2line debug-info
loader and the demangler) are parameters of the embedding (`LoaderEnv`).
-/

set_option maxHeartbeats 1000000

namespace Memtrack

/-- A byte string (UTF-8 bytes of a Rust `String`, or raw file bytes). -/

abbrev Bytes := List Nat

/-- 2^64, the modulus of `u64`/`usize` arithmetic. -/

def U64 : Nat := 18446744073709551616

/-- Wrapping `u64` addition (release-mode Rust semantics). -/

def add64 (a b : Nat) : Nat := (a + b) % U64

/-- Wrapping `u64` subtraction (release-mode Rust semantics). -/

def sub64 (a b : Nat) : Nat := (a + U64 - b % U64) % U64

/-! ### Whitespace tokenization (Rust `str::split_whitespace` at byte level) -/

/-- ASCII whitespace bytes (space, tab, LF, VT, FF, CR). -/

def isWsByte (b : Nat) : Bool := b == 32 || b == 9 || b == 10 || b == 11 || b == 12 || b == 13

/-- A byte that is not whitespace and not a newline/CR. -/

def CleanByte (b : Nat) : Prop := b ≠ 10 ∧ b ≠ 13

instance (b : Nat) : Decidable (CleanByte b) :=
  inferInstanceAs (Decidable (b ≠ 10 ∧ b ≠ 13))

/-- A line that contains no newline or carriage return. -/

def CleanLine (l : Bytes) : Prop := ∀ b ∈ l, CleanByte b

/-- A token: nonempty, no whitespace bytes at all. -/

def CleanTok (t : Bytes) : Prop := t ≠ [] ∧ ∀ b ∈ t, isWsByte b = false

def splitWsAux : Bytes → Bytes → List Bytes
  | [], acc => if acc.isEmpty then [] else [acc.reverse]
  | b :: rest, acc =>
    if isWsByte b then
      if acc.isEmpty then splitWsAux rest [] else acc.reverse :: splitWsAux rest []
    else splitWsAux rest (b :: acc)

/-- `split_whitespace` on a byte list. -/

def splitWs (l : Bytes) : List Bytes := splitWsAux l []

/-! ### Line splitting (Rust `BufRead::lines` at byte level) -/

def splitNlAux : Bytes → Bytes → List Bytes
  | [], acc => [acc.reverse]
  | b :: rest, acc =>
    if b = 10 then acc.reverse :: splitNlAux rest [] else splitNlAux rest (b :: acc)

/-- Strip one trailing CR, as `BufRead::lines` does. -/

def stripCr (l : Bytes) : Bytes := if l.getLast? = some 13 then l.dropLast else l

/-- The line list that Rust `BufRead::lines` yields for a byte stream. -/

def rustLines (bytes : Bytes) : List Bytes :=
  let ls := (splitNlAux bytes []).map stripCr
  if ls.getLast? = some [] then ls.dropLast else ls

/-! ### Lowercase hexadecimal formatting (Rust `{:x}`) and `from_str_radix(_, 16)` -/

/-- The ASCII byte of a single lowercase hex digit. -/

def hexDigitByte (n : Nat) : Nat := if n < 10 then 48 + n else 87 + n

/-- Fuel-driven digit recursion for `{:x}`; with fuel at least `n` the fuel
never runs out, since `n / 16 < n` strictly decreases. -/

def toHexAux : Nat → Nat → Bytes
  | 0, n => [hexDigitByte n]
  | fuel + 1, n =>
    if _h : n < 16 then [hexDigitByte n]
    else toHexAux fuel (n / 16) ++ [hexDigitByte (n % 16)]

/-- Bytes of `format!("{:x}", n)` (lowercase, no leading zeros, `"0"` for 0). -/

def toHex (n : Nat) : Bytes := toHexAux n n

def toDecAux : Nat → Nat → Bytes
  | 0, n => [48 + n]
  | fuel + 1, n =>
    if _h : n < 10 then [48 + n]
    else toDecAux fuel (n / 10) ++ [48 + n % 10]

/-- Bytes of `format!("{}", n)` (decimal). -/

def toDec (n : Nat) : Bytes := toDecAux n n

/-- Numeric value of one hex-digit byte, accepting `0-9a-fA-F`. -/

def hexVal (b : Nat) : Option Nat :=
  if 48 ≤ b ∧ b ≤ 57 then some (b - 48)
  else if 97 ≤ b ∧ b ≤ 102 then some (b - 87)
  else if 65 ≤ b ∧ b ≤ 70 then some (b - 55)
  else none

def parseHexCore : Bytes → Nat → Option Nat
  | [], acc => some acc
  | b :: rest, acc =>
    match hexVal b with
    | some d => parseHexCore rest (16 * acc + d)
    | none => none

/-- `T::from_str_radix(tok, 16)` for an unsigned type with 2^w = `bound`:
digits only, nonempty, value below the bound (Rust errors on overflow). -/

def parseHex (bound : Nat) : Bytes → Option Nat
  | [] => none
  | b :: rest =>
    match parseHexCore (b :: rest) 0 with
    | some v => if v < bound then some v else none
    | none => none

/-! ### The Parser / Aggregator (parser.rs) -/

/-- 2^32, the modulus of `u32` (line numbers). -/

def U32 : Nat := 4294967296

/-- `parser::Error`, with Rust panics (out-of-bounds `Vec` indexing / slicing)
modelled as a separate `panicIndex` outcome. -/

inductive ParseErr where
  | invalidFormat : ParseErr
  | internal : String → ParseErr
  | panicIndex : ParseErr
deriving DecidableEq, Repr

/-- `parser::Frame` (and the identical `output::Frame`). -/

inductive Frame where
  | single (function_idx : Nat) : Frame
  | multiple (function_idx file_idx line_number : Nat) : Frame
deriving DecidableEq, Repr

structure Trace where
  ip_idx : Nat
  parent_idx : Nat
deriving DecidableEq, Repr

structure InstructionPointer where
  ip : Nat
  module_idx : Nat
  frame : Frame
  inlined : List Frame
deriving DecidableEq, Repr

structure AllocationData where
  allocations : Nat
  temporary : Nat
  leaked : Nat
  peak : Nat
deriving DecidableEq, Repr

def AllocationData.default : AllocationData := ⟨0, 0, 0, 0⟩

structure AllocationInfo where
  allocation_idx : Nat
  size : Nat
deriving DecidableEq, Repr

structure Allocation where
  trace_idx : Nat
  data : AllocationData
deriving DecidableEq, Repr

structure AccumulatedData where
  strings : List Bytes
  traces : List Trace
  instruction_pointers : List InstructionPointer
  allocation_indices : List (Nat × Nat)
  allocation_infos : List AllocationInfo
  allocations : List Allocation
  total : AllocationData
  duration : Nat
  peak_rss : Nat
  page_size : Nat
  pages : Nat
deriving DecidableEq, Repr

def AccumulatedData.init : AccumulatedData :=
  { strings := [], traces := [], instruction_pointers := [], allocation_indices := [],
    allocation_infos := [], allocations := [], total := AllocationData.default,
    duration := 0, peak_rss := 0, page_size := 0, pages := 0 }

/-- `Parser` state: the accumulated data plus `last_ptr`. -/

structure Parser where
  data : AccumulatedData
  last_ptr : Nat
deriving DecidableEq, Repr

def Parser.init : Parser := ⟨AccumulatedData.init, 0⟩

/-- `Parser::add_allocation`. -/

def Parser.add_allocation (st : Parser) (trace_idx : Nat) : Nat × Parser :=
  match st.data.allocation_indices.lookup trace_idx with
  | some idx => (idx, st)
  | none =>
    let idx := st.data.allocations.length
    (idx, { st with data := { st.data with
        allocation_indices := st.data.allocation_indices ++ [(trace_idx, idx)],
        allocations := st.data.allocations ++ [⟨trace_idx, AllocationData.default⟩] } })

/-- `Parser::parse_frame`, iterated over the whole remaining token stream
(the `while let Some(frame) = ...` loop).  Note there is no lookahead:
any token after `function_idx` is committed to as `file_idx`. -/

def parse_frames : List Bytes → Except ParseErr (List Frame)
  | [] => Except.ok []
  | [f] =>
    match parseHex U64 f with
    | some fi => Except.ok [Frame.single fi]
    | none => Except.error ParseErr.invalidFormat
  | f :: fv :: rest =>
    match parseHex U64 f with
    | none => Except.error ParseErr.invalidFormat
    | some fi =>
      match parseHex U64 fv with
      | none => Except.error ParseErr.invalidFormat
      | some file_idx =>
        match rest with
        | [] => Except.error ParseErr.invalidFormat
        | ln :: rest2 =>
          match parseHex U32 ln with
          | none => Except.error ParseErr.invalidFormat
          | some line_number =>
            match parse_frames rest2 with
            | Except.ok more => Except.ok (Frame.multiple fi file_idx line_number :: more)
            | Except.error e => Except.error e

/-- `Parser::parse_line`. -/

def Parser.parse_line (st : Parser) (line : Bytes) : Except ParseErr Parser :=
  match splitWs line with
  | [] => Except.ok st
  | first :: rest =>
    if first = [115] then  -- "s"
      match rest with
      | [] => Except.error ParseErr.invalidFormat
      | lenTok :: _ =>
        match parseHex U64 lenTok with
        | none => Except.error ParseErr.invalidFormat
        | some strLen =>
          if strLen ≤ line.length then
            Except.ok { st with data := { st.data with
              strings := st.data.strings ++ [line.drop (line.length - strLen)] } }
          else Except.error ParseErr.panicIndex
    else if first = [116] then  -- "t"
      match rest with
      | ipTok :: parentTok :: _ =>
        match parseHex U64 ipTok, parseHex U64 parentTok with
        | some ip_idx, some parent_idx =>
          Except.ok { st with data := { st.data with
            traces := st.data.traces ++ [⟨ip_idx, parent_idx⟩] } }
        | _, _ => Except.error ParseErr.invalidFormat
      | _ => Except.error ParseErr.invalidFormat
    else if first = [105] then  -- "i"
      match rest with
      | ipTok :: modTok :: frameToks =>
        match parseHex U64 ipTok, parseHex U64 modTok with
        | some ip, some module_idx =>
          (match parse_frames frameToks with
          | Except.error e => Except.error e
          | Except.ok [] => Except.error ParseErr.invalidFormat
          | Except.ok (f :: inl) =>
            Except.ok { st with data := { st.data with
              instruction_pointers := st.data.instruction_pointers ++ [⟨ip, module_idx, f, inl⟩] } })
        | _, _ => Except.error ParseErr.invalidFormat
      | _ => Except.error ParseErr.invalidFormat
    else if first = [97] then  -- "a"
      match rest with
      | sizeTok :: traceTok :: _ =>
        match parseHex U64 sizeTok, parseHex U64 traceTok with
        | some size, some trace_idx =>
          let (allocation_idx, st') := st.add_allocation trace_idx
          Except.ok { st' with data := { st'.data with
            allocation_infos := st'.data.allocation_infos ++ [⟨allocation_idx, size⟩] } }
        | _, _ => Except.error ParseErr.invalidFormat
      | _ => Except.error ParseErr.invalidFormat
    else if first = [43] then  -- "+"
      match rest with
      | [] => Except.error ParseErr.invalidFormat
      | idxTok :: _ =>
        match parseHex U64 idxTok with
        | none => Except.error ParseErr.invalidFormat
        | some infoIdx =>
          match st.data.allocation_infos.get? infoIdx with
          | none => Except.error ParseErr.panicIndex
          | some info =>
            match st.data.allocations.get? info.allocation_idx with
            | none => Except.error (ParseErr.internal "allocation not found")
            | some alloc =>
              let aLeaked := add64 alloc.data.leaked info.size
              let aPeak := if aLeaked > alloc.data.peak then aLeaked else alloc.data.peak
              let alloc' : Allocation := { alloc with data := { alloc.data with
                leaked := aLeaked, peak := aPeak,
                allocations := add64 alloc.data.allocations 1 } }
              let tLeaked := add64 st.data.total.leaked info.size
              let tPeak := if tLeaked > st.data.total.peak then tLeaked else st.data.total.peak
              Except.ok { st with
                last_ptr := info.allocation_idx,
                data := { st.data with
                  allocations := st.data.allocations.set info.allocation_idx alloc',
                  total := { st.data.total with
                    leaked := tLeaked,
                    allocations := add64 st.data.total.allocations 1,
                    peak := tPeak } } }
    else if first = [45] then  -- "-"
      match rest with
      | [] => Except.error ParseErr.invalidFormat
      | idxTok :: _ =>
        match parseHex U64 idxTok with
        | none => Except.error ParseErr.invalidFormat
        | some infoIdx =>
          match st.data.allocation_infos.get? infoIdx with
          | none => Except.error ParseErr.panicIndex
          | some info =>
            match st.data.allocations.get? info.allocation_idx with
            | none => Except.error (ParseErr.internal "allocation not found")
            | some alloc =>
              let tLeaked := sub64 st.data.total.leaked info.size
              let temporary := st.last_ptr == info.allocation_idx
              let tTemp := if temporary then add64 st.data.total.temporary 1
                           else st.data.total.temporary
              let alloc' : Allocation := { alloc with data := { alloc.data with
                leaked := sub64 alloc.data.leaked info.size,
                temporary := if temporary then add64 alloc.data.temporary 1
                             else alloc.data.temporary } }
              Except.ok { st with
                last_ptr := 0,
                data := { st.data with
                  allocations := st.data.allocations.set info.allocation_idx alloc',
                  total := { st.data.total with leaked := tLeaked, temporary := tTemp } } }
    else if first = [99] then  -- "c"
      match rest with
      | tsTok :: _ =>
        match parseHex U64 tsTok with
        | some ts => Except.ok { st with data := { st.data with duration := ts } }
        | none => Except.error ParseErr.invalidFormat
      | _ => Except.error ParseErr.invalidFormat
    else if first = [82] then  -- "R"
      match rest with
      | rssTok :: _ =>
        match parseHex U64 rssTok with
        | some rss =>
          Except.ok { st with data := { st.data with
            peak_rss := if rss > st.data.peak_rss then rss else st.data.peak_rss } }
        | none => Except.error ParseErr.invalidFormat
      | _ => Except.error ParseErr.invalidFormat
    else if first = [73] then  -- "I"
      match rest with
      | sizeTok :: pagesTok :: _ =>
        match parseHex U64 sizeTok, parseHex U64 pagesTok with
        | some sz, some pg =>
          Except.ok { st with data := { st.data with page_size := sz, pages := pg } }
        | _, _ => Except.error ParseErr.invalidFormat
      | _ => Except.error ParseErr.invalidFormat
    else
      Except.ok st  -- "#" comments and unknown first tokens are ignored

/-- Folding `parse_line` over a list of lines (the loop in `parse_file`). -/

def Parser.parse_lines (st : Parser) : List Bytes → Except ParseErr Parser
  | [] => Except.ok st
  | l :: ls =>
    match st.parse_line l with
    | Except.ok st' => st'.parse_lines ls
    | Except.error e => Except.error e

/-- `Parser::parse_file` over the raw bytes of the trace file. -/

def parse_file (bytes : Bytes) : Except ParseErr AccumulatedData :=
  match Parser.init.parse_lines (rustLines bytes) with
  | Except.ok st => Except.ok st.data
  | Except.error e => Except.error e

/-! ### The Output writer (output.rs): one byte line per `writeln!` -/

/-- `writeln!(buf, "TAG {tok} {tok} …")`: the tag byte, then each token
preceded by one space. -/

def tagLine (tag : Nat) (toks : List Bytes) : Bytes :=
  tag :: (toks.map (fun t => 32 :: t)).flatten

/-- The tokens `write_instruction` emits for one frame. -/

def frameToks : Frame → List Bytes
  | Frame.single f => [toHex f]
  | Frame.multiple f fi ln => [toHex f, toHex fi, toHex ln]

/-- The `i` line of `Output::write_instruction`. -/

def instruction_line (ip module_idx : Nat) (frames : List Frame) : Bytes :=
  tagLine 105 ([toHex ip, toHex module_idx] ++ frames.flatMap frameToks)

/-- The `s` line of `Output::write_string`. -/

def string_line (value : Bytes) : Bytes :=
  tagLine 115 [toHex value.length, value]

/-! ### The Symbol Resolver (resolver.rs) -/

structure Location where
  function_name : Bytes
  file_name : Option Bytes
  line_number : Option Nat
deriving DecidableEq, Repr

structure LookupResult where
  module_id : Nat
  locations : List Location
deriving DecidableEq, Repr

/-- `resolver::Module`. -/

structure RModule where
  id : Nat
  start_address : Nat
  end_address : Nat
  path : Bytes
deriving DecidableEq, Repr

/-- `Module::new(id, path, start_address, size)`: `end = start + size`. -/

def RModule.new (id : Nat) (path : Bytes) (start_address size : Nat) : RModule :=
  ⟨id, start_address, start_address + size, path⟩

/-- The external `addr2line::Loader` plus demangler, abstracted:
`loader_ok path` is whether `Loader::new(path)` succeeds, and
`find_locations path ip` is the location list `Module::lookup` builds from
`find_frames` (inlined chain, demangled) with the `find_symbol` fallback. -/

structure LoaderEnv where
  loader_ok : Bytes → Bool
  find_locations : Bytes → Nat → List Location

/-- The `rangemap::RangeMap<u64, Module>`: disjoint half-open ranges. -/

abbrev RangeMap := List (Nat × Nat × RModule)

/-- Point query `map.get(&ip)`. -/

def rangeGet (m : RangeMap) (ip : Nat) : Option RModule :=
  match m.find? (fun r => decide (r.1 ≤ ip ∧ ip < r.2.1)) with
  | some r => some r.2.2
  | none => none

/-- `map.insert(s..e, v)`: overlapping parts of existing ranges are replaced. -/

def rangeInsert (m : RangeMap) (s e : Nat) (v : RModule) : RangeMap :=
  (m.flatMap (fun r =>
    (if r.1 < min r.2.1 s then [(r.1, min r.2.1 s, r.2.2)] else []) ++
    (if max r.1 e < r.2.1 then [(max r.1 e, r.2.1, r.2.2)] else []))) ++ [(s, e, v)]

/-- `HashMap::insert` on an association list: replace or append. -/

def assocInsert {α : Type} (l : List (Nat × α)) (k : Nat) (v : α) : List (Nat × α) :=
  if l.any (fun p => p.1 == k) then l.map (fun p => if p.1 == k then (k, v) else p)
  else l ++ [(k, v)]

inductive ResolverErr where
  | moduleNotFound : ResolverErr
deriving DecidableEq, Repr

structure Resolver where
  modules : RangeMap
  cached : List (Nat × LookupResult)
  loaders : List (Nat × Bytes)
deriving Repr

def Resolver.new : Resolver := ⟨[], [], []⟩

/-- `Resolver::add_module(id, file_path, start_address, size)`. -/

def Resolver.add_module (r : Resolver) (env : LoaderEnv) (id : Nat) (file_path : Bytes)
    (start_address size : Nat) : Except ResolverErr Resolver :=
  let module := RModule.new id file_path start_address size
  if env.loader_ok file_path then
    Except.ok { r with
      loaders := assocInsert r.loaders start_address file_path,
      modules := rangeInsert r.modules module.start_address module.end_address module }
  else Except.error ResolverErr.moduleNotFound

/-- `Resolver::lookup` (mutates the cache). -/

def Resolver.lookup (r : Resolver) (env : LoaderEnv) (ip : Nat) :
    Option LookupResult × Resolver :=
  match r.cached.lookup ip with
  | some res => (some res, r)
  | none =>
    match rangeGet r.modules ip with
    | none => (none, r)
    | some module =>
      match r.loaders.lookup module.start_address with
      | none => (none, r)
      | some loaderPath =>
        let res : LookupResult := ⟨module.id, env.find_locations loaderPath ip⟩
        (some res, { r with cached := assocInsert r.cached ip res })

/-! ### The Interpreter (interpret.rs) -/

/-- `PAGE_SIZE = u16::MAX as u64 / 4`. -/

def PAGE_SIZE : Nat := 16383

structure SplitPointer where
  big : Nat
  small : Nat
deriving DecidableEq, Repr

def SplitPointer.new (ptr : Nat) : SplitPointer := ⟨ptr / PAGE_SIZE, ptr % PAGE_SIZE⟩

/-- A bucket of the split-pointer table: two parallel sequences. -/

structure Indices where
  small_ptr_parts : List Nat
  allocation_indices : List Nat
deriving DecidableEq, Repr

def Indices.default : Indices := ⟨[], []⟩

structure MemStats where
  allocations : Nat
  leaked_allocations : Nat
  tmp_allocations : Nat
deriving DecidableEq, Repr

def MemStats.default : MemStats := ⟨0, 0, 0⟩

/-- `Iterator::position`: index of the first element satisfying `p`. -/

def position {α : Type} (p : α → Bool) : List α → Option Nat
  | [] => none
  | a :: t => if p a then some 0 else (position p t).map (· + 1)

/-- `Vec::swap_remove(i)`: replace element `i` with the last one and pop. -/

def swapRemove {α : Type} (l : List α) (i : Nat) : List α :=
  match l.getLast? with
  | none => l
  | some x => (l.set i x).dropLast

/-- `IndexMap::swap_remove(&k)` on an association list. -/

def assocSwapRemove {α : Type} (l : List (Nat × α)) (k : Nat) : List (Nat × α) :=
  match position (fun p => p.1 == k) l with
  | none => l
  | some i => swapRemove l i

/-- `IndexMap::entry(k).or_default()` followed by an in-place update. -/

def assocUpdate {α : Type} (l : List (Nat × α)) (k : Nat) (d : α) (f : α → α) :
    List (Nat × α) :=
  if l.any (fun p => p.1 == k) then
    l.map (fun p => if p.1 == k then (k, f p.2) else p)
  else l ++ [(k, f d)]

structure Interpreter where
  output : List Bytes
  strings : List Bytes
  frames : List Nat
  pointers : List (Nat × Indices)
  allocation_info : List (Nat × Nat)
  resolver : Resolver
  stats : MemStats
  last_ptr : Nat
deriving Repr

def Interpreter.init : Interpreter :=
  { output := [], strings := [], frames := [], pointers := [], allocation_info := [],
    resolver := Resolver.new, stats := MemStats.default, last_ptr := 0 }

inductive InterpErr where
  | resolverFailed : ResolverErr → InterpErr
  | custom : String → InterpErr
deriving DecidableEq, Repr

/-- The in-bucket part of `Interpreter::add_pointer`: overwrite the
allocation index if `small` is present, else push onto both sequences. -/

def bucketAdd (ind : Indices) (small allocation_idx : Nat) : Indices :=
  match position (fun i => i == small) ind.small_ptr_parts with
  | none => ⟨ind.small_ptr_parts ++ [small], ind.allocation_indices ++ [allocation_idx]⟩
  | some idx => ⟨ind.small_ptr_parts, ind.allocation_indices.set idx allocation_idx⟩

/-- `Interpreter::add_pointer`. -/

def Interpreter.add_pointer (st : Interpreter) (ptr allocation_idx : Nat) : Interpreter :=
  let pointer := SplitPointer.new ptr
  let newPointers :=
    assocUpdate st.pointers pointer.big Indices.default
      (fun ind => bucketAdd ind pointer.small allocation_idx)
  { st with pointers := newPointers }

/-- `Interpreter::take_pointer`.  (The source indexes
`allocation_indices[idx]` with `idx` from the parallel `small_ptr_parts`
scan; the parallel-length invariant makes `getD _ 0` exact.) -/

def Interpreter.take_pointer (st : Interpreter) (ptr : Nat) : Option Nat × Interpreter :=
  let pointer := SplitPointer.new ptr
  match st.pointers.lookup pointer.big with
  | none => (none, st)
  | some ind =>
    match position (fun i => i == pointer.small) ind.small_ptr_parts with
    | none => (none, st)
    | some idx =>
      let allocation_idx := ind.allocation_indices.getD idx 0
      let ind' : Indices :=
        ⟨swapRemove ind.small_ptr_parts idx, swapRemove ind.allocation_indices idx⟩
      if ind'.allocation_indices.isEmpty then
        (some allocation_idx, { st with pointers := assocSwapRemove st.pointers pointer.big })
      else
        let newPointers :=
          st.pointers.map (fun p => if p.1 == pointer.big then (pointer.big, ind') else p)
        (some allocation_idx, { st with pointers := newPointers })

/-- `Interpreter::write_string`: intern, emitting one `s` line on first sight;
returns the stable 1-based index. -/

def Interpreter.write_string (st : Interpreter) (value : Bytes) : Nat × Interpreter :=
  match position (fun s => s == value) st.strings with
  | some id => (id + 1, st)
  | none =>
    (st.strings.length + 1,
     { st with strings := st.strings ++ [value],
               output := st.output ++ [string_line value] })

/-- `Interpreter::add_alloc`: intern the `(size, trace_idx)` signature,
emitting one `a` line on first sight; returns the 0-based index. -/

def Interpreter.add_alloc (st : Interpreter) (size parent_idx : Nat) : Nat × Interpreter :=
  match position (fun p => p == (size, parent_idx)) st.allocation_info with
  | some idx => (idx, st)
  | none =>
    (st.allocation_info.length,
     { st with allocation_info := st.allocation_info ++ [(size, parent_idx)],
               output := st.output ++ [tagLine 97 [toHex size, toHex parent_idx]] })

/-- The frame-building loop inside `Interpreter::add_frame`. -/

def Interpreter.build_frames (st : Interpreter) :
    List Location → Except InterpErr (List Frame × Interpreter)
  | [] => Except.ok ([], st)
  | location :: rest =>
    let (function_idx, st1) := st.write_string location.function_name
    match location.file_name with
    | some file =>
      let (file_idx, st2) := st1.write_string file
      match location.line_number with
      | none => Except.error (InterpErr.custom "empty line number")
      | some line_number =>
        match st2.build_frames rest with
        | Except.ok (more, st3) =>
          Except.ok (Frame.multiple function_idx file_idx line_number :: more, st3)
        | Except.error e => Except.error e
    | none =>
      match st1.build_frames rest with
      | Except.ok (more, st2) => Except.ok (Frame.single function_idx :: more, st2)
      | Except.error e => Except.error e

/-- `Interpreter::add_frame`. -/

def Interpreter.add_frame (st : Interpreter) (env : LoaderEnv) (ip : Nat) :
    Except InterpErr (Nat × Interpreter) :=
  match position (fun f => f == ip) st.frames with
  | some id => Except.ok (id + 1, st)
  | none =>
    let id := st.frames.length
    let st0 := { st with frames := st.frames ++ [ip] }
    let (res, resolver') := st0.resolver.lookup env ip
    let st1 := { st0 with resolver := resolver' }
    match res with
    | none => Except.error (InterpErr.custom "ip locations not found")
    | some result =>
      match st1.build_frames result.locations with
      | Except.error e => Except.error e
      | Except.ok (frames, st2) =>
        Except.ok (id + 1,
          { st2 with output := st2.output ++ [instruction_line ip result.module_id frames] })

/-- `pipe_io::Record`. -/

inductive Record where
  | version (v : Nat)
  | exec (cmd : Bytes)
  | image (name : Bytes) (start_address size : Nat)
  | pageInfo (size pages : Nat)
  | trace (ip parent_idx : Nat)
  | alloc (ptr size parent_idx : Nat)
  | free (ptr : Nat)
  | duration (d : Nat)
  | rss (r : Nat)
deriving DecidableEq, Repr

/-- `Interpreter::handle_record`. -/

def Interpreter.handle_record (st : Interpreter) (env : LoaderEnv) :
    Record → Except InterpErr Interpreter
  | Record.version v =>
    Except.ok { st with output := st.output ++ [tagLine 118 [toHex v, toHex 3]] }
  | Record.exec cmd =>
    Except.ok { st with output := st.output ++ [tagLine 88 [cmd]] }
  | Record.image name start_address size =>
    let (module_id, st1) := st.write_string name
    match st1.resolver.add_module env module_id name start_address
        (start_address + size) with
    | Except.ok r' => Except.ok { st1 with resolver := r' }
    | Except.error _ => Except.ok st1
  | Record.pageInfo size pages =>
    Except.ok { st with output := st.output ++ [tagLine 73 [toHex size, toHex pages]] }
  | Record.trace ip parent_idx =>
    match st.add_frame env ip with
    | Except.error e => Except.error e
    | Except.ok (ip_id, st1) =>
      Except.ok { st1 with output := st1.output ++ [tagLine 116 [toHex ip_id, toHex parent_idx]] }
  | Record.alloc ptr size parent_idx =>
    let st1 := { st with stats := { st.stats with
      allocations := add64 st.stats.allocations 1,
      leaked_allocations := add64 st.stats.leaked_allocations 1 } }
    let (idx, st2) := st1.add_alloc size parent_idx
    let st3 := st2.add_pointer ptr idx
    let st4 := { st3 with last_ptr := ptr }
    Except.ok { st4 with output := st4.output ++ [tagLine 43 [toHex idx]] }
  | Record.free ptr =>
    let temporary := st.last_ptr == ptr
    let st1 := { st with last_ptr := 0 }
    match st1.take_pointer ptr with
    | (none, st2) => Except.ok st2
    | (some allocation_idx, st2) =>
      let st3 := { st2 with output := st2.output ++ [tagLine 45 [toHex allocation_idx]] }
      Except.ok { st3 with stats := { st3.stats with
        tmp_allocations := if temporary then add64 st3.stats.tmp_allocations 1
                           else st3.stats.tmp_allocations,
        leaked_allocations := sub64 st3.stats.leaked_allocations 1 } }
  | Record.duration d =>
    Except.ok { st with output := st.output ++ [tagLine 99 [toHex d]] }
  | Record.rss r =>
    Except.ok { st with output := st.output ++ [tagLine 82 [toHex r]] }

/-- The record-consuming loop of `Interpreter::exec`. -/

def Interpreter.run (st : Interpreter) (env : LoaderEnv) :
    List Record → Except InterpErr Interpreter
  | [] => Except.ok st
  | r :: rs =>
    match st.handle_record env r with
    | Except.ok st' => st'.run env rs
    | Except.error e => Except.error e

/-- `Interpreter::write_comments`: the final `""` line and the two
`# strings: N` / `# ips: N` comment lines (decimal counts). -/

def Interpreter.write_comments (st : Interpreter) : Interpreter :=
  { st with output := st.output ++
      [[],
       tagLine 35 [[115, 116, 114, 105, 110, 103, 115, 58, 32] ++ toDec st.strings.length],
       tagLine 35 [[105, 112, 115, 58, 32] ++ toDec st.frames.length]] }

/-- `Interpreter::exec` without the process/FIFO plumbing: consume all
records, then append the trailing comments. -/

def exec_records (env : LoaderEnv) (records : List Record) : Except InterpErr Interpreter :=
  match Interpreter.init.run env records with
  | Except.ok st => Except.ok st.write_comments
  | Except.error e => Except.error e

/-- The bytes of the produced trace file: each line plus `\n`. -/

def fileBytes (st : Interpreter) : Bytes := (st.output.map (· ++ [10])).flatten

/-- The whole pipeline: interpret the record stream, then re-parse the
emitted textual trace. -/

def pipeline (env : LoaderEnv) (records : List Record) :
    Except InterpErr (Except ParseErr AccumulatedData) :=
  match exec_records env records with
  | Except.ok st => Except.ok (parse_file (fileBytes st))
  | Except.error e => Except.error e

/-! ### Abstraction of the split-pointer table as a finite map -/

/-- Well-formedness of one bucket: distinct small parts, parallel lengths. -/
def BucketWF (ind : Indices) : Prop :=
  ind.small_ptr_parts.Nodup ∧
  ind.small_ptr_parts.length = ind.allocation_indices.length

/-- Well-formedness of the whole table: distinct bucket keys, valid buckets. -/
def TableWF (t : List (Nat × Indices)) : Prop :=
  (t.map Prod.fst).Nodup ∧ ∀ p ∈ t, BucketWF p.2

/-- The partial map `small ↦ allocation index` a bucket realizes. -/
def bucketMap (ind : Indices) (small : Nat) : Option Nat :=
  match position (fun i => i == small) ind.small_ptr_parts with
  | none => none
  | some idx => ind.allocation_indices[idx]?

/-- The partial map `ptr ↦ allocation index` the split table realizes. -/
def tableMap (t : List (Nat × Indices)) (ptr : Nat) : Option Nat :=
  match t.lookup (SplitPointer.new ptr).big with
  | none => none
  | some ind => bucketMap ind (SplitPointer.new ptr).small

/-- An abstract pointer-table operation (claim C6). -/
inductive PtrOp where
  | add (ptr allocation_idx : Nat) : PtrOp
  | take (ptr : Nat) : PtrOp
deriving DecidableEq, Repr

/-- Run a sequence of `add_pointer`/`take_pointer` operations. -/
def runPtrOps : Interpreter → List PtrOp → Interpreter
  | st, [] => st
  | st, PtrOp.add p i :: ops => runPtrOps (st.add_pointer p i) ops
  | st, PtrOp.take p :: ops => runPtrOps (st.take_pointer p).2 ops

/-- The naive finite-map semantics of one pointer operation. -/
def specPtrStep (m : Nat → Option Nat) : PtrOp → Nat → Option Nat
  | PtrOp.add p i => fun q => if q = p then some i else m q
  | PtrOp.take p => fun q => if q = p then none else m q

/-- The naive finite-map semantics of an operation sequence from empty. -/
def specPtrMap (ops : List PtrOp) : Nat → Option Nat :=
  ops.foldl specPtrStep (fun _ => none)

/-- Numeric bounds under which an emitted frame's tokens re-parse: `usize`
indices below 2^64 and a `u32` line number. -/
def FrameBounds : Frame → Prop
  | Frame.single function_idx => function_idx < U64
  | Frame.multiple function_idx file_idx line_number =>
      function_idx < U64 ∧ file_idx < U64 ∧ line_number < U32

/-- Whether a frame carries file and line (the `Multiple` arity). -/
def Frame.isMultiple : Frame → Bool
  | Frame.single _ => false
  | Frame.multiple _ _ _ => true

instance (f : Frame) : Decidable (FrameBounds f) := by
  cases f with
  | single fi => exact inferInstanceAs (Decidable (fi < U64))
  | multiple a b c => exact inferInstanceAs (Decidable (a < U64 ∧ b < U64 ∧ c < U32))

/-! ### The pipe reader (pipe_io.rs) -/

/-- The fixed internal buffer length of `PipeReader` (`buf: [u8; 1024]`). -/
def PIPE_BUF_LEN : Nat := 1024

inductive ReadErr where
  | panicSliceOutOfRange : ReadErr
  | ioError : ReadErr
deriving DecidableEq, Repr

/-- `PipeReader::read_record` up to deserialization: read the little-endian
u16 length prefix, take the slice `self.buf[..len]` of the fixed 1024-byte
buffer (a Rust panic if `len > 1024`), and fill it with `read_exact`.
The `bincode` decode of the returned payload bytes is external.
`none` models end of stream at the length prefix. -/
def read_record_frame (input : Bytes) : Option (Except ReadErr Bytes) :=
  match input with
  | b0 :: b1 :: rest =>
    let len := b0 + 256 * b1
    if len ≤ PIPE_BUF_LEN then
      if rest.length < len then some (Except.error ReadErr.ioError)
      else some (Except.ok (rest.take len))
    else some (Except.error ReadErr.panicSliceOutOfRange)
  | _ => none

/-! ### C2: two models of the temporary-classification rule -/

/-- A trivial loader environment (loaders always open, no locations): enough
for record streams that never need symbol resolution. -/

def envTrivial : LoaderEnv := ⟨fun _ => true, fun _ _ => []⟩

/-- Does a record touch the pointer table / `last_ptr` / the allocation
stats?  Only `Alloc` and `Free` do. -/

def Record.touchesPtr : Record → Bool
  | Record.alloc _ _ _ => true
  | Record.free _ => true
  | _ => false

/-- The classification rule exactly as claim C2 words it (spec-modelled, for
refutation): a `Free` is temporary iff its `ptr` equals the `ptr` of the
immediately preceding `Alloc` with no intervening `Alloc`/`Free`, and the
remembered pointer is reset by ANY other event as well. -/

def claimTemporaryCount : Option Nat → List Record → Nat
  | _, [] => 0
  | _, Record.alloc ptr _ _ :: rs => claimTemporaryCount (some ptr) rs
  | last, Record.free ptr :: rs =>
    (if last = some ptr then 1 else 0) + claimTemporaryCount none rs
  | _, _ :: rs => claimTemporaryCount none rs

/-- The rule the Interpreter actually implements: `last_ptr` holds the
pointer of the most recent `Alloc`; every `Free` (matching or not) resets it
to `0`; NO other record touches it.  A `Free` bumps `tmp_allocations` iff
its pointer is live in the split-pointer table AND equals `last_ptr`. -/

def specTmpCount : Nat → List Nat → List Record → Nat
  | _, _, [] => 0
  | _, live, Record.alloc ptr _ _ :: rs =>
    specTmpCount ptr (List.insert ptr live) rs
  | lp, live, Record.free ptr :: rs =>
    (if ptr ∈ live ∧ lp = ptr then 1 else 0) + specTmpCount 0 (live.erase ptr) rs
  | lp, live, _ :: rs => specTmpCount lp live rs

/-- The record stream of the C2 counterexample: two allocations sharing one
`(size, trace)` signature, then a free of the first pointer. -/

def c2recs : List Record :=
  [Record.alloc 100 8 1, Record.alloc 200 8 1, Record.free 100]

/-! ### C4: the leaked/peak timeline and the no-wrap side condition -/

/-- No-wrap side condition for one line: a `+` line must not overflow
`total.leaked` (u64 wrap) and a `-` line must not underflow it.  All other
lines are unconditionally safe. -/

def lineSafe (st : Parser) (line : Bytes) : Bool :=
  match splitWs line with
  | first :: idxTok :: _ =>
    if first = [43] then
      match parseHex U64 idxTok with
      | some infoIdx =>
        match st.data.allocation_infos.get? infoIdx with
        | some info => st.data.total.leaked + info.size < U64
        | none => true
      | none => true
    else if first = [45] then
      match parseHex U64 idxTok with
      | some infoIdx =>
        match st.data.allocation_infos.get? infoIdx with
        | some info => info.size ≤ st.data.total.leaked
        | none => true
      | none => true
    else true
  | _ => true

def linesSafe (st : Parser) : List Bytes → Bool
  | [] => true
  | l :: ls =>
    lineSafe st l &&
      match st.parse_line l with
      | Except.ok st2 => linesSafe st2 ls
      | Except.error _ => true

/-- The value of `total.leaked` after each successfully parsed line. -/

def leakedTimeline (st : Parser) : List Bytes → List Nat
  | [] => []
  | l :: ls =>
    match st.parse_line l with
    | Except.ok st2 => st2.data.total.leaked :: leakedTimeline st2 ls
    | Except.error _ => []

/-- The lines of the C4 witness trace: `a 8 1`, `+ 0`, `- 0`, `+ 0`. -/

def c4lines : List Bytes :=
  [[97, 32, 56, 32, 49], [43, 32, 48], [45, 32, 48], [43, 32, 48]]

/-! ### C1: balanced-allocation conservation over the pipeline -/

/-- Remove the first binding of key `k` from an association list. -/

def removeKey : List (Nat × Nat) → Nat → List (Nat × Nat)
  | [], _ => []
  | q :: A, k => if q.1 = k then A else q :: removeKey A k

/-- Sum of the values of an association list (`ptr → size`). -/

def sumVals : List (Nat × Nat) → Nat
  | [] => 0
  | q :: A => q.2 + sumVals A

/-- The live `ptr → size` map after a record stream. -/

def liveAfter : List (Nat × Nat) → List Record → List (Nat × Nat)
  | A, [] => A
  | A, Record.alloc ptr size _ :: rs => liveAfter ((ptr, size) :: A) rs
  | A, Record.free ptr :: rs => liveAfter (removeKey A ptr) rs
  | A, _ :: rs => liveAfter A rs

/-- Number of `Alloc` records (= number of `+` lines the Interpreter emits). -/

def countAllocs : List Record → Nat
  | [] => 0
  | Record.alloc _ _ _ :: rs => 1 + countAllocs rs
  | _ :: rs => countAllocs rs

/-- Total of all `Alloc` sizes in a stream. -/

def sizeSum : List Record → Nat
  | [] => 0
  | Record.alloc _ size _ :: rs => size + sizeSum rs
  | _ :: rs => sizeSum rs

/-- Well-formedness of a record stream against the live map `A`:
numeric fields below `2^64`, record strings free of `\n`/`\r` and of
u64-overflowing lengths, every `Alloc` fresh, every `Free` of a live
pointer, and no `Trace` records (their `i`-line round-trip is broken — see
C5). -/

def recsOk : List (Nat × Nat) → List Record → Bool
  | _, [] => true
  | A, Record.version v :: rs => decide (v < U64) && recsOk A rs
  | A, Record.exec cmd :: rs =>
    decide (¬ 10 ∈ cmd) && decide (¬ 13 ∈ cmd) && recsOk A rs
  | A, Record.image name _ _ :: rs =>
    decide (¬ 10 ∈ name) && decide (¬ 13 ∈ name) &&
      decide (name.length < U64) && recsOk A rs
  | _, Record.trace _ _ :: _ => false
  | A, Record.pageInfo s g :: rs =>
    decide (s < U64) && decide (g < U64) && recsOk A rs
  | A, Record.alloc ptr size parent :: rs =>
    decide (size < U64) && decide (parent < U64) && (A.lookup ptr == none) &&
      recsOk ((ptr, size) :: A) rs
  | A, Record.free ptr :: rs => (A.lookup ptr).isSome && recsOk (removeKey A ptr) rs
  | A, Record.duration d :: rs => decide (d < U64) && recsOk A rs
  | A, Record.rss r :: rs => decide (r < U64) && recsOk A rs

/-- The simulation relation between an Interpreter state, a Parser state and
the live map: the two allocation-signature tables agree in length and sizes,
every parser-side `allocation_idx` (in the infos and the index cache) is a
valid index into `allocations`, the split-pointer table is well-formed and
maps exactly the live pointers to info indices carrying their sizes, and
`total.leaked` is the total live size. -/

def SimRel (st : Interpreter) (p : Parser) (A : List (Nat × Nat)) : Prop :=
  p.data.allocation_infos.length = st.allocation_info.length ∧
  (∀ i, (p.data.allocation_infos.get? i).map AllocationInfo.size =
    (st.allocation_info.get? i).map Prod.fst) ∧
  (∀ info ∈ p.data.allocation_infos, info.allocation_idx < p.data.allocations.length) ∧
  (∀ q ∈ p.data.allocation_indices, q.2 < p.data.allocations.length) ∧
  TableWF st.pointers ∧
  (∀ ptr, match tableMap st.pointers ptr, A.lookup ptr with
    | some idx, some s => (st.allocation_info.get? idx).map Prod.fst = some s
    | none, none => True
    | _, _ => False) ∧
  p.data.total.leaked = sumVals A

/-- The records of the C1 counterexample: the traced instruction pointer
resolves to two inlined frames BOTH lacking file/line info, the free is
balanced — yet the emitted `i` line cannot be re-parsed. -/

def c1recs : List Record :=
  [Record.image [109] 4096 4096, Record.trace 4200 0,
   Record.alloc 7 8 1, Record.free 7]

/-- The environment of the C1 counterexample: loaders always open and every
lookup yields two function-only locations. -/

def env2 : LoaderEnv :=
  ⟨fun _ => true, fun _ _ => [⟨[102], none, none⟩, ⟨[103], none, none⟩]⟩

/-! ## Helper lemmas and claim theorems -/

theorem U64_eq : U64 = 2 ^ 64 := by decide

theorem add64_eq (a b : Nat) (h : a + b < U64) : add64 a b = a + b := by
  simp [add64, Nat.mod_eq_of_lt h]

theorem sub64_eq (a b : Nat) (hba : b ≤ a) (ha : a < U64) : sub64 a b = a - b := by
  have hb : b % U64 = b := Nat.mod_eq_of_lt (lt_of_le_of_lt hba ha)
  have h1 : a + U64 - b = (a - b) + U64 := by omega
  have h2 : (a - b) < U64 := by omega
  simp [sub64, hb, h1, Nat.add_mod_right, Nat.mod_eq_of_lt h2]

theorem splitWsAux_notWs (t : Bytes) (ht : ∀ b ∈ t, isWsByte b = false) :
    ∀ acc l, splitWsAux (t ++ l) acc = splitWsAux l (t.reverse ++ acc) := by
  induction t with
  | nil => intro acc l; simp
  | cons b rest ih =>
    intro acc l
    have hb : isWsByte b = false := ht b (by simp)
    simp only [List.cons_append, splitWsAux, hb, Bool.false_eq_true, if_false]
    rw [List.append_eq, ih (fun x hx => ht x (by simp [hx])) (b :: acc) l]
    simp

theorem splitWs_tok_space (t : Bytes) (ht : CleanTok t) (rest : Bytes) :
    splitWs (t ++ 32 :: rest) = t :: splitWs rest := by
  unfold splitWs
  rw [splitWsAux_notWs t ht.2 [] (32 :: rest), List.append_nil]
  have hrev : t.reverse.isEmpty = false := by simp [ht.1]
  simp [splitWsAux, hrev, isWsByte]

theorem splitWs_tok_last (t : Bytes) (ht : CleanTok t) : splitWs t = [t] := by
  unfold splitWs
  have h := splitWsAux_notWs t ht.2 [] []
  rw [List.append_nil] at h
  rw [h]
  have hrev : t.reverse.isEmpty = false := by simp [ht.1]
  simp [splitWsAux, hrev]

theorem splitNlAux_clean (l : Bytes) (hl : CleanLine l) :
    ∀ acc rest, splitNlAux (l ++ 10 :: rest) acc = (acc.reverse ++ l) :: splitNlAux rest [] := by
  induction l with
  | nil => intro acc rest; simp [splitNlAux]
  | cons b bs ih =>
    intro acc rest
    have hb : b ≠ 10 := (hl b (by simp)).1
    simp only [List.cons_append, splitNlAux, hb, if_false]
    rw [List.append_eq, ih (fun x hx => hl x (by simp [hx])) (b :: acc) rest]
    simp

theorem stripCr_clean (l : Bytes) (hl : CleanLine l) : stripCr l = l := by
  unfold stripCr
  cases hlast : l.getLast? with
  | none => simp
  | some b =>
    obtain ⟨ys, hys⟩ := List.getLast?_eq_some_iff.mp hlast
    have hmem : b ∈ l := by rw [hys]; simp
    have : b ≠ 13 := (hl b hmem).2
    simp [this]

theorem splitNlAux_flatten (L : List Bytes) (hL : ∀ l ∈ L, CleanLine l) :
    splitNlAux (List.flatten (L.map (· ++ [10]))) [] = L ++ [[]] := by
  induction L with
  | nil => simp [splitNlAux]
  | cons l L' ih =>
    have hjoin : List.flatten ((l :: L').map (· ++ [10])) =
        l ++ 10 :: List.flatten (L'.map (· ++ [10])) := by
      simp
    rw [hjoin, splitNlAux_clean l (hL l (by simp)) [] _]
    rw [ih (fun x hx => hL x (by simp [hx]))]
    simp

theorem rustLines_flatten (L : List Bytes) (hL : ∀ l ∈ L, CleanLine l) :
    rustLines (List.flatten (L.map (· ++ [10]))) = L := by
  unfold rustLines
  rw [splitNlAux_flatten L hL]
  have hmap : (L ++ [[]]).map stripCr = L ++ [[]] := by
    rw [List.map_append]
    have h1 : L.map stripCr = L :=
      (List.map_congr_left (fun l hl => stripCr_clean l (hL l hl))).trans (List.map_id L)
    rw [h1]
    rfl
  rw [hmap]
  simp [List.getLast?_concat, List.dropLast_concat]

theorem hexVal_hexDigitByte (n : Nat) (h : n < 16) : hexVal (hexDigitByte n) = some n := by
  rcases Nat.lt_or_ge n 10 with h10 | h10
  · rw [show hexDigitByte n = 48 + n from if_pos h10]
    unfold hexVal
    rw [if_pos (by omega)]
    congr 1
    omega
  · rw [show hexDigitByte n = 87 + n from if_neg (by omega)]
    unfold hexVal
    rw [if_neg (by omega), if_pos (by omega)]
    congr 1
    omega

theorem toHexAux_congr (fuel : Nat) : ∀ fuel2 n, n ≤ fuel → n ≤ fuel2 →
    toHexAux fuel n = toHexAux fuel2 n := by
  induction fuel with
  | zero =>
    intro fuel2 n h h2
    have hn : n = 0 := by omega
    subst hn
    cases fuel2 with
    | zero => rfl
    | succ f2 => simp [toHexAux]
  | succ f ih =>
    intro fuel2 n h h2
    by_cases h16 : n < 16
    · cases fuel2 with
      | zero =>
        have hn : n = 0 := by omega
        subst hn
        simp [toHexAux]
      | succ f2 => simp [toHexAux, h16]
    · cases fuel2 with
      | zero => omega
      | succ f2 =>
        show toHexAux (f + 1) n = toHexAux (f2 + 1) n
        simp only [toHexAux, dif_neg h16]
        have hdiv := Nat.div_lt_self (show 0 < n by omega) (show 1 < 16 by omega)
        rw [ih f2 (n / 16) (by omega) (by omega)]

/-- The recursion equation of the Rust `{:x}` digit loop. -/
theorem toHex_eq (n : Nat) : toHex n =
    if _h : n < 16 then [hexDigitByte n]
    else toHex (n / 16) ++ [hexDigitByte (n % 16)] := by
  by_cases h16 : n < 16
  · rw [dif_pos h16]
    cases n with
    | zero => rfl
    | succ k => show toHexAux (k + 1) (k + 1) = _; simp [toHexAux, h16]
  · rw [dif_neg h16]
    cases n with
    | zero => omega
    | succ k =>
      show toHexAux (k + 1) (k + 1) = toHexAux ((k + 1) / 16) ((k + 1) / 16) ++ _
      simp only [toHexAux, dif_neg h16]
      have hdiv := Nat.div_lt_self (show 0 < k + 1 by omega) (show 1 < 16 by omega)
      rw [toHexAux_congr k ((k + 1) / 16) ((k + 1) / 16) (by omega) le_rfl]

theorem toDecAux_congr (fuel : Nat) : ∀ fuel2 n, n ≤ fuel → n ≤ fuel2 →
    toDecAux fuel n = toDecAux fuel2 n := by
  induction fuel with
  | zero =>
    intro fuel2 n h h2
    have hn : n = 0 := by omega
    subst hn
    cases fuel2 with
    | zero => rfl
    | succ f2 => simp [toDecAux]
  | succ f ih =>
    intro fuel2 n h h2
    by_cases h10 : n < 10
    · cases fuel2 with
      | zero =>
        have hn : n = 0 := by omega
        subst hn
        simp [toDecAux]
      | succ f2 => simp [toDecAux, h10]
    · cases fuel2 with
      | zero => omega
      | succ f2 =>
        show toDecAux (f + 1) n = toDecAux (f2 + 1) n
        simp only [toDecAux, dif_neg h10]
        have hdiv := Nat.div_lt_self (show 0 < n by omega) (show 1 < 10 by omega)
        rw [ih f2 (n / 10) (by omega) (by omega)]

/-- The recursion equation of the Rust `{}` digit loop. -/
theorem toDec_eq (n : Nat) : toDec n =
    if _h : n < 10 then [48 + n]
    else toDec (n / 10) ++ [48 + n % 10] := by
  by_cases h10 : n < 10
  · rw [dif_pos h10]
    cases n with
    | zero => rfl
    | succ k => show toDecAux (k + 1) (k + 1) = _; simp [toDecAux, h10]
  · rw [dif_neg h10]
    cases n with
    | zero => omega
    | succ k =>
      show toDecAux (k + 1) (k + 1) = toDecAux ((k + 1) / 10) ((k + 1) / 10) ++ _
      simp only [toDecAux, dif_neg h10]
      have hdiv := Nat.div_lt_self (show 0 < k + 1 by omega) (show 1 < 10 by omega)
      rw [toDecAux_congr k ((k + 1) / 10) ((k + 1) / 10) (by omega) le_rfl]

theorem toHex_ne_nil (n : Nat) : toHex n ≠ [] := by
  rw [toHex_eq]
  split
  · simp
  · simp

theorem toHex_mem (n : Nat) : ∀ b ∈ toHex n, (48 ≤ b ∧ b ≤ 57) ∨ (97 ≤ b ∧ b ≤ 102) := by
  induction n using Nat.strong_induction_on with
  | _ n ih =>
    intro b hb
    rw [toHex_eq] at hb
    by_cases h : n < 16
    · rw [dif_pos h] at hb
      simp only [List.mem_singleton] at hb
      subst hb
      unfold hexDigitByte
      split <;> omega
    · rw [dif_neg h] at hb
      rcases List.mem_append.mp hb with h1 | h1
      · exact ih (n / 16) (Nat.div_lt_self (by omega) (by omega)) b h1
      · simp only [List.mem_singleton] at h1
        subst h1
        unfold hexDigitByte
        have := Nat.mod_lt n (y := 16) (by omega)
        split <;> omega

theorem toHex_cleanTok (n : Nat) : CleanTok (toHex n) := by
  refine ⟨toHex_ne_nil n, fun b hb => ?_⟩
  rcases toHex_mem n b hb with h | h <;>
    simp only [isWsByte] <;>
    simp only [Bool.or_eq_false_iff, beq_eq_false_iff_ne, ne_eq] <;>
    omega

theorem toHex_cleanLine (n : Nat) : CleanLine (toHex n) := by
  intro b hb
  rcases toHex_mem n b hb with h | h <;> exact ⟨by omega, by omega⟩

theorem parseHexCore_append (xs ys : Bytes) (acc : Nat) :
    parseHexCore (xs ++ ys) acc =
      match parseHexCore xs acc with
      | some a => parseHexCore ys a
      | none => none := by
  induction xs generalizing acc with
  | nil => simp [parseHexCore]
  | cons b rest ih =>
    simp only [List.cons_append, parseHexCore]
    cases hexVal b with
    | some d => exact ih (16 * acc + d)
    | none => rfl

theorem parseHexCore_toHex (n : Nat) :
    ∀ acc, parseHexCore (toHex n) acc = some (acc * 16 ^ (toHex n).length + n) := by
  induction n using Nat.strong_induction_on with
  | _ n ih =>
    intro acc
    rw [toHex_eq]
    by_cases h : n < 16
    · rw [dif_pos h]
      simp [parseHexCore, hexVal_hexDigitByte n h]
      ring
    · rw [dif_neg h]
      rw [parseHexCore_append]
      rw [ih (n / 16) (Nat.div_lt_self (by omega) (by omega)) acc]
      have hmod : n % 16 < 16 := Nat.mod_lt n (by omega)
      simp [parseHexCore, hexVal_hexDigitByte _ hmod]
      have hdm : 16 * (n / 16) + n % 16 = n := Nat.div_add_mod n 16
      rw [pow_succ]
      have hre : acc * (16 ^ (toHex (n / 16)).length * 16) =
          acc * 16 ^ (toHex (n / 16)).length * 16 := by ring
      rw [hre]
      generalize acc * 16 ^ (toHex (n / 16)).length = A
      omega

theorem parseHex_toHex (bound n : Nat) (h : n < bound) : parseHex bound (toHex n) = some n := by
  have hne := toHex_ne_nil n
  have hcore := parseHexCore_toHex n 0
  simp only [Nat.zero_mul, Nat.zero_add] at hcore
  cases htok : toHex n with
  | nil => exact absurd htok hne
  | cons b rest =>
    rw [htok] at hcore
    simp [parseHex, hcore, h]

theorem toDec_mem (n : Nat) : ∀ b ∈ toDec n, 48 ≤ b ∧ b ≤ 57 := by
  induction n using Nat.strong_induction_on with
  | _ n ih =>
    intro b hb
    rw [toDec_eq] at hb
    by_cases h : n < 10
    · rw [dif_pos h] at hb
      simp only [List.mem_singleton] at hb
      omega
    · rw [dif_neg h] at hb
      rcases List.mem_append.mp hb with h1 | h1
      · exact ih (n / 10) (Nat.div_lt_self (by omega) (by omega)) b h1
      · simp only [List.mem_singleton] at h1
        have := Nat.mod_lt n (y := 10) (by omega)
        omega

theorem toDec_cleanLine (n : Nat) : CleanLine (toDec n) := by
  intro b hb
  have := toDec_mem n b hb
  exact ⟨by omega, by omega⟩

theorem parse_lines_append (st : Parser) (l1 l2 : List Bytes) :
    st.parse_lines (l1 ++ l2) =
      match st.parse_lines l1 with
      | Except.ok st' => st'.parse_lines l2
      | Except.error e => Except.error e := by
  induction l1 generalizing st with
  | nil => simp [Parser.parse_lines]
  | cons l ls ih =>
    simp only [List.cons_append, Parser.parse_lines]
    cases st.parse_line l with
    | ok st' => exact ih st'
    | error e => rfl

theorem position_eq_none {α : Type} (p : α → Bool) (l : List α) :
    position p l = none ↔ ∀ a ∈ l, p a = false := by
  induction l with
  | nil => simp [position]
  | cons a t ih =>
    simp only [position]
    by_cases h : p a
    · simp [h]
    · simp [h, ih]

theorem position_some_lt {α : Type} {p : α → Bool} {l : List α} {j : Nat}
    (h : position p l = some j) : j < l.length := by
  induction l generalizing j with
  | nil => simp [position] at h
  | cons a t ih =>
    simp only [position] at h
    by_cases ha : p a
    · rw [if_pos ha] at h
      cases h
      simp
    · simp [ha] at h
      obtain ⟨j', hj', rfl⟩ := h
      have := ih hj'
      simp only [List.length_cons]
      omega

theorem position_some_get {α : Type} {p : α → Bool} {l : List α} {j : Nat}
    (h : position p l = some j) : ∃ a, l[j]? = some a ∧ p a = true := by
  induction l generalizing j with
  | nil => simp [position] at h
  | cons a t ih =>
    simp only [position] at h
    by_cases ha : p a
    · rw [if_pos ha] at h
      cases h
      exact ⟨a, by simp, ha⟩
    · simp [ha] at h
      obtain ⟨j', hj', rfl⟩ := h
      simpa using ih hj'

theorem position_some_before {α : Type} {p : α → Bool} {l : List α} {j : Nat}
    (h : position p l = some j) :
    ∀ k, k < j → ∀ a, l[k]? = some a → p a = false := by
  induction l generalizing j with
  | nil => simp [position] at h
  | cons a t ih =>
    simp only [position] at h
    by_cases ha : p a
    · simp [ha] at h
      omega
    · simp [ha] at h
      obtain ⟨j', hj', rfl⟩ := h
      intro k hk b hb
      cases k with
      | zero =>
        simp at hb
        subst hb
        simpa using ha
      | succ k' =>
        simp at hb
        exact ih hj' k' (by omega) b hb

theorem position_eq_some_of {α : Type} {p : α → Bool} {l : List α} {j : Nat} {a : α}
    (hj : l[j]? = some a) (hpa : p a = true)
    (hbefore : ∀ k, k < j → ∀ b, l[k]? = some b → p b = false) :
    position p l = some j := by
  induction l generalizing j with
  | nil => simp at hj
  | cons x t ih =>
    cases j with
    | zero =>
      simp at hj
      subst hj
      simp [position, hpa]
    | succ j' =>
      simp at hj
      have hx : p x = false := hbefore 0 (by omega) x (by simp)
      simp only [position, hx]
      rw [ih hj (fun k hk b hb => hbefore (k + 1) (by omega) b (by simpa using hb))]
      simp

theorem length_swapRemove {α : Type} (l : List α) (i : Nat) :
    (swapRemove l i).length = l.length - 1 := by
  unfold swapRemove
  cases hlast : l.getLast? with
  | none =>
    have : l = [] := by
      cases l with
      | nil => rfl
      | cons a t => simp [List.getLast?_eq_getElem?] at hlast
    simp [this]
  | some x => simp [List.length_dropLast, List.length_set]

theorem swapRemove_getElem? {α : Type} (l : List α) (i j : Nat) (hi : i < l.length)
    (hj : j < l.length - 1) :
    (swapRemove l i)[j]? = if j = i then l[l.length - 1]? else l[j]? := by
  have hlast : l.getLast? = some l[l.length - 1] :=
    (List.getLast?_eq_getElem? l).trans (List.getElem?_eq_getElem (by omega))
  unfold swapRemove
  rw [hlast, List.getElem?_dropLast, List.length_set, if_pos hj, List.getElem?_set]
  by_cases hij : i = j
  · rw [if_pos hij, if_pos (by omega), if_pos hij.symm]
    exact (List.getElem?_eq_getElem (by omega)).symm
  · rw [if_neg hij, if_neg (fun h => hij h.symm)]

theorem mem_swapRemove {α : Type} {l : List α} {i : Nat} {a : α}
    (h : a ∈ swapRemove l i) : a ∈ l := by
  unfold swapRemove at h
  cases hlast : l.getLast? with
  | none =>
    rw [hlast] at h
    exact h
  | some x =>
    rw [hlast] at h
    have h1 : a ∈ l.set i x := (List.dropLast_sublist _).mem h
    rcases List.mem_or_eq_of_mem_set h1 with h2 | h2
    · exact h2
    · subst h2
      obtain ⟨ys, hys⟩ := List.getLast?_eq_some_iff.mp hlast
      rw [hys]
      simp

theorem nodup_swapRemove {α : Type} (l : List α) (hnd : l.Nodup) (i : Nat) :
    (swapRemove l i).Nodup := by
  by_cases hi : i < l.length
  · have hlen : (swapRemove l i).length = l.length - 1 := length_swapRemove l i
    rw [List.nodup_iff_injective_get]
    intro ⟨j, hj⟩ ⟨k, hk⟩ hjk
    rw [hlen] at hj hk
    have hgj := swapRemove_getElem? l i j hi hj
    have hgk := swapRemove_getElem? l i k hi hk
    have hj' : (swapRemove l i)[j]? = some ((swapRemove l i).get ⟨j, by omega⟩) := by
      rw [List.getElem?_eq_getElem (by omega)]
      rfl
    have hk' : (swapRemove l i)[k]? = some ((swapRemove l i).get ⟨k, by omega⟩) := by
      rw [List.getElem?_eq_getElem (by omega)]
      rfl
    rw [hj', hjk] at hgj
    rw [hk'] at hgk
    have heq : (if j = i then l[l.length - 1]? else l[j]?) =
        (if k = i then l[l.length - 1]? else l[k]?) := by rw [← hgj, ← hgk]
    by_cases hji : j = i <;> by_cases hki : k = i
    · simp [hji, hki]
    · exfalso
      rw [if_pos hji, if_neg hki] at heq
      rw [List.getElem?_eq_getElem (show l.length - 1 < l.length by omega),
        List.getElem?_eq_getElem (show k < l.length by omega)] at heq
      have := (hnd.getElem_inj_iff).mp (Option.some.inj heq)
      omega
    · exfalso
      rw [if_neg hji, if_pos hki] at heq
      rw [List.getElem?_eq_getElem (show j < l.length by omega),
        List.getElem?_eq_getElem (show l.length - 1 < l.length by omega)] at heq
      have := (hnd.getElem_inj_iff).mp (Option.some.inj heq)
      omega
    · rw [if_neg hji, if_neg hki] at heq
      rw [List.getElem?_eq_getElem (show j < l.length by omega),
        List.getElem?_eq_getElem (show k < l.length by omega)] at heq
      have := (hnd.getElem_inj_iff).mp (Option.some.inj heq)
      simpa using this
  · unfold swapRemove
    cases hlast : l.getLast? with
    | none => exact hnd
    | some x =>
      show ((l.set i x).dropLast).Nodup
      rw [List.set_eq_of_length_le (by omega)]
      exact hnd.sublist (List.dropLast_sublist l)

theorem beqNat_comm (a b : Nat) : (a == b) = (b == a) := by
  by_cases h : a = b
  · simp [h]
  · simp [h, Ne.symm h]

theorem zip_getElem? {α β : Type} (as : List α) (bs : List β) (i : Nat) :
    (as.zip bs)[i]? =
      match as[i]?, bs[i]? with
      | some a, some b => some (a, b)
      | _, _ => none := by
  rw [List.zip_eq_zipWith, List.getElem?_zipWith]
  rfl

theorem map_swapRemove {α β : Type} (f : α → β) (l : List α) (i : Nat) :
    (swapRemove l i).map f = swapRemove (l.map f) i := by
  unfold swapRemove
  rw [List.getLast?_map]
  cases l.getLast? with
  | none => rfl
  | some x =>
    show ((l.set i x).dropLast).map f = ((l.map f).set i (f x)).dropLast
    rw [← List.map_set, List.map_dropLast]

theorem zip_swapRemove {α β : Type} (as : List α) (bs : List β)
    (hlen : as.length = bs.length) (i : Nat) (hi : i < as.length) :
    (swapRemove as i).zip (swapRemove bs i) = swapRemove (as.zip bs) i := by
  have hzlen : (as.zip bs).length = as.length := by
    rw [List.length_zip, hlen]
    simp
  apply List.ext_getElem?
  intro j
  rw [zip_getElem?]
  by_cases hj : j < as.length - 1
  · rw [swapRemove_getElem? as i j hi hj,
      swapRemove_getElem? bs i j (by omega) (by omega),
      swapRemove_getElem? (as.zip bs) i j (by omega) (by omega), hzlen]
    by_cases hji : j = i
    · rw [if_pos hji, if_pos hji, if_pos hji, zip_getElem?, ← hlen]
    · rw [if_neg hji, if_neg hji, if_neg hji, zip_getElem?]
  · have h1 : (swapRemove as i).length ≤ j := by rw [length_swapRemove]; omega
    have h2 : (swapRemove bs i).length ≤ j := by rw [length_swapRemove]; omega
    have h3 : (swapRemove (as.zip bs) i).length ≤ j := by rw [length_swapRemove, hzlen]; omega
    rw [List.getElem?_eq_none h1, List.getElem?_eq_none h3]

theorem position_zip_fst {β : Type} (q : Nat) :
    ∀ (as : List Nat) (bs : List β), as.length = bs.length →
      position (fun i => i == q) as = position (fun a => a.1 == q) (as.zip bs) := by
  intro as
  induction as with
  | nil => intro bs h; simp [position]
  | cons a t ih =>
    intro bs h
    cases bs with
    | nil => simp at h
    | cons b bt =>
      simp only [List.zip_cons_cons, position]
      by_cases ha : (a == q) = true
      · rw [if_pos ha, if_pos ha]
      · rw [if_neg ha, if_neg ha, ih bt (by simpa using h), List.zip_eq_zipWith]

theorem lookup_eq_findPair {β : Type} (l : List (Nat × β)) (q : Nat) :
    l.lookup q =
      match position (fun a => a.1 == q) l with
      | none => none
      | some j => (l[j]?).map Prod.snd := by
  induction l with
  | nil => simp [position]
  | cons p t ih =>
    obtain ⟨a, b⟩ := p
    rw [List.lookup_cons]
    simp only [position]
    by_cases ha : a = q
    · subst ha
      rw [if_pos (by simp)]
      simp
    · rw [if_neg (by simp [ha])]
      have hq : (q == a) = false := by simp [Ne.symm ha]
      rw [hq]
      rw [ih]
      cases position (fun a => a.1 == q) t with
      | none => rfl
      | some j => simp

theorem bucketMap_eq_findPair (ind : Indices)
    (hlen : ind.small_ptr_parts.length = ind.allocation_indices.length) (q : Nat) :
    bucketMap ind q =
      match position (fun a => a.1 == q) (ind.small_ptr_parts.zip ind.allocation_indices) with
      | none => none
      | some j => ((ind.small_ptr_parts.zip ind.allocation_indices)[j]?).map Prod.snd := by
  unfold bucketMap
  rw [position_zip_fst q ind.small_ptr_parts ind.allocation_indices hlen]
  cases hpos : position (fun a => a.1 == q) (ind.small_ptr_parts.zip ind.allocation_indices) with
  | none => rfl
  | some j =>
    have hj : j < (ind.small_ptr_parts.zip ind.allocation_indices).length := position_some_lt hpos
    rw [List.length_zip] at hj
    show ind.allocation_indices[j]? =
      ((ind.small_ptr_parts.zip ind.allocation_indices)[j]?).map Prod.snd
    rw [zip_getElem?,
      List.getElem?_eq_getElem (l := ind.small_ptr_parts) (by omega),
      List.getElem?_eq_getElem (l := ind.allocation_indices) (by omega)]
    simp

theorem keys_getElem_inj {β : Type} {l : List (Nat × β)} (hnd : (l.map Prod.fst).Nodup)
    {j k : Nat} (hj : j < l.length) (hk : k < l.length)
    (h : (l.get ⟨j, hj⟩).1 = (l.get ⟨k, hk⟩).1) : j = k := by
  have hj2 : j < (l.map Prod.fst).length := by simpa using hj
  have hk2 : k < (l.map Prod.fst).length := by simpa using hk
  have hmap : (l.map Prod.fst).get ⟨j, hj2⟩ = (l.map Prod.fst).get ⟨k, hk2⟩ := by
    simpa using h
  exact hnd.getElem_inj_iff.mp hmap

theorem findPair_swapRemove {β : Type} {l : List (Nat × β)} (hnd : (l.map Prod.fst).Nodup)
    {i : Nat} {pr : Nat × β} (hpr : l[i]? = some pr) (q : Nat) :
    (match position (fun a => a.1 == q) (swapRemove l i) with
     | none => none
     | some j => ((swapRemove l i)[j]?).map Prod.snd) =
    (if q = pr.1 then none
     else
       match position (fun a => a.1 == q) l with
       | none => none
       | some j => (l[j]?).map Prod.snd) := by
  obtain ⟨hi, hpri⟩ := List.getElem?_eq_some_iff.mp hpr
  have helem : ∀ j, j < l.length - 1 →
      (swapRemove l i)[j]? = if j = i then l[l.length - 1]? else l[j]? :=
    fun j hj => swapRemove_getElem? l i j hi hj
  have hinj : ∀ j k, (hj : j < l.length) → (hk : k < l.length) →
      (l.get ⟨j, hj⟩).1 = (l.get ⟨k, hk⟩).1 → j = k :=
    fun j k hj hk h => keys_getElem_inj hnd hj hk h
  by_cases hq : q = pr.1
  · rw [if_pos hq]
    have hnone : position (fun a => a.1 == q) (swapRemove l i) = none := by
      rw [position_eq_none]
      intro a ha
      obtain ⟨j, hj⟩ := List.mem_iff_getElem?.mp ha
      have hjlt : j < l.length - 1 := by
        have h1 := (List.getElem?_eq_some_iff.mp hj).1
        have h2 := length_swapRemove l i
        omega
      rw [helem j hjlt] at hj
      simp only [beq_eq_false_iff_ne, ne_eq]
      intro hkey
      by_cases hji : j = i
      · rw [if_pos hji] at hj
        obtain ⟨h1, h2⟩ := List.getElem?_eq_some_iff.mp hj
        have heq : (l.get ⟨l.length - 1, h1⟩).1 = (l.get ⟨i, hi⟩).1 := by
          show l[l.length - 1].1 = l[i].1
          rw [h2, hpri, hkey, hq]
        have := hinj _ _ h1 hi heq
        omega
      · rw [if_neg hji] at hj
        obtain ⟨h1, h2⟩ := List.getElem?_eq_some_iff.mp hj
        have heq : (l.get ⟨j, h1⟩).1 = (l.get ⟨i, hi⟩).1 := by
          show l[j].1 = l[i].1
          rw [h2, hpri, hkey, hq]
        exact hji (hinj _ _ h1 hi heq)
    rw [hnone]
  · rw [if_neg hq]
    cases hpos : position (fun a => a.1 == q) l with
    | none =>
      have hnone : position (fun a => a.1 == q) (swapRemove l i) = none := by
        rw [position_eq_none] at hpos ⊢
        intro a ha
        exact hpos a (mem_swapRemove ha)
      rw [hnone]
    | some j =>
      have hjlt : j < l.length := position_some_lt hpos
      obtain ⟨aj, haj, hkeyj⟩ := position_some_get hpos
      obtain ⟨hjlt', haj'⟩ := List.getElem?_eq_some_iff.mp haj
      have hkj : l[j].1 = q := by
        rw [haj']
        simpa using hkeyj
      have hji : j ≠ i := by
        intro h
        apply hq
        subst h
        rw [← hpri]
        exact hkj.symm
      by_cases hjn : j = l.length - 1
      · subst hjn
        have hin1 : i < l.length - 1 := by omega
        have hpos' : position (fun a => a.1 == q) (swapRemove l i) = some i := by
          apply position_eq_some_of (a := l[l.length - 1])
          · rw [helem i hin1, if_pos rfl]
            exact List.getElem?_eq_getElem (by omega)
          · simp [hkj]
          · intro k hk b hb
            rw [helem k (by omega), if_neg (by omega)] at hb
            obtain ⟨h1, h2⟩ := List.getElem?_eq_some_iff.mp hb
            simp only [beq_eq_false_iff_ne, ne_eq]
            intro hbq
            have heq : (l.get ⟨k, h1⟩).1 = (l.get ⟨l.length - 1, hjlt⟩).1 := by
              show l[k].1 = l[l.length - 1].1
              rw [h2, hbq, hkj]
            have := hinj _ _ h1 hjlt heq
            omega
        rw [hpos']
        show Option.map Prod.snd (swapRemove l i)[i]? = Option.map Prod.snd l[l.length - 1]?
        rw [helem i hin1, if_pos rfl]
      · have hjn1 : j < l.length - 1 := by omega
        have hpos' : position (fun a => a.1 == q) (swapRemove l i) = some j := by
          apply position_eq_some_of (a := l[j])
          · rw [helem j hjn1, if_neg hji]
            exact List.getElem?_eq_getElem (by omega)
          · simp [hkj]
          · intro k hk b hb
            rw [helem k (by omega)] at hb
            simp only [beq_eq_false_iff_ne, ne_eq]
            intro hbq
            by_cases hki : k = i
            · rw [if_pos hki] at hb
              obtain ⟨h1, h2⟩ := List.getElem?_eq_some_iff.mp hb
              have heq : (l.get ⟨l.length - 1, h1⟩).1 = (l.get ⟨j, hjlt⟩).1 := by
                show l[l.length - 1].1 = l[j].1
                rw [h2, hbq, hkj]
              have := hinj _ _ h1 hjlt heq
              omega
            · rw [if_neg hki] at hb
              obtain ⟨h1, h2⟩ := List.getElem?_eq_some_iff.mp hb
              have heq : (l.get ⟨k, h1⟩).1 = (l.get ⟨j, hjlt⟩).1 := by
                show l[k].1 = l[j].1
                rw [h2, hbq, hkj]
              have := hinj _ _ h1 hjlt heq
              omega
        rw [hpos']
        show Option.map Prod.snd (swapRemove l i)[j]? = Option.map Prod.snd l[j]?
        rw [helem j hjn1, if_neg hji]

theorem bucketAdd_wf (ind : Indices) (hwf : BucketWF ind) (s i : Nat) :
    BucketWF (bucketAdd ind s i) := by
  obtain ⟨hnd, hlen⟩ := hwf
  unfold bucketAdd
  cases hpos : position (fun x => x == s) ind.small_ptr_parts with
  | none =>
    have hs : s ∉ ind.small_ptr_parts := by
      intro hmem
      have := (position_eq_none _ _).mp hpos s hmem
      simp at this
    refine ⟨?_, by simp [hlen]⟩
    simp [List.nodup_append, hnd, hs]
  | some idx =>
    exact ⟨hnd, by simp [hlen]⟩

theorem bucketMap_bucketAdd (ind : Indices) (hwf : BucketWF ind) (s i q : Nat) :
    bucketMap (bucketAdd ind s i) q = if q = s then some i else bucketMap ind q := by
  obtain ⟨hnd, hlen⟩ := hwf
  unfold bucketAdd
  cases hpos : position (fun x => x == s) ind.small_ptr_parts with
  | none =>
    have hs : ∀ a ∈ ind.small_ptr_parts, (a == s) = false := (position_eq_none _ _).mp hpos
    unfold bucketMap
    by_cases hq : q = s
    · subst hq
      have hnew : position (fun x => x == q) (ind.small_ptr_parts ++ [q]) =
          some ind.small_ptr_parts.length := by
        apply position_eq_some_of (a := q)
        · rw [List.getElem?_append]
          rw [if_neg (by omega)]
          simp
        · simp
        · intro k hk b hb
          rw [List.getElem?_append, if_pos hk] at hb
          have := List.getElem?_eq_some_iff.mp hb
          exact hs b (by rw [← this.2]; exact List.getElem_mem _)
      rw [if_pos rfl, hnew]
      show (ind.allocation_indices ++ [i])[ind.small_ptr_parts.length]? = some i
      rw [List.getElem?_append, if_neg (by omega), hlen]
      simp
    · rw [if_neg hq]
      cases hposq : position (fun x => x == q) ind.small_ptr_parts with
      | none =>
        have hnone : position (fun x => x == q) (ind.small_ptr_parts ++ [s]) = none := by
          rw [position_eq_none]
          intro a ha
          rcases List.mem_append.mp ha with h | h
          · exact (position_eq_none _ _).mp hposq a h
          · simp only [List.mem_singleton] at h
            subst h
            simp [Ne.symm hq]
        rw [hnone]
      | some j =>
        have hj := position_some_lt hposq
        obtain ⟨b, hb, hbk⟩ := position_some_get hposq
        have hnew : position (fun x => x == q) (ind.small_ptr_parts ++ [s]) = some j := by
          apply position_eq_some_of (a := b)
          · rw [List.getElem?_append, if_pos hj]
            exact hb
          · exact hbk
          · intro k hk c hc
            rw [List.getElem?_append, if_pos (by omega)] at hc
            exact position_some_before hposq k hk c hc
        rw [hnew]
        show (ind.allocation_indices ++ [i])[j]? = ind.allocation_indices[j]?
        rw [List.getElem?_append, if_pos (by omega)]
  | some idx =>
    have hidx := position_some_lt hpos
    obtain ⟨a, ha, hak⟩ := position_some_get hpos
    obtain ⟨h1, h2⟩ := List.getElem?_eq_some_iff.mp ha
    unfold bucketMap
    by_cases hq : q = s
    · subst hq
      rw [if_pos rfl, hpos]
      show (ind.allocation_indices.set idx i)[idx]? = some i
      exact List.getElem?_set_self (by omega)
    · rw [if_neg hq]
      cases hposq : position (fun x => x == q) ind.small_ptr_parts with
      | none => rfl
      | some j =>
        have hjne : idx ≠ j := by
          intro h
          subst h
          obtain ⟨c, hc, hck⟩ := position_some_get hposq
          rw [ha] at hc
          cases hc
          apply hq
          have e1 : a = q := by simpa using hck
          have e2 : a = s := by simpa using hak
          rw [← e1, e2]
        show (ind.allocation_indices.set idx i)[j]? = ind.allocation_indices[j]?
        exact List.getElem?_set_ne hjne

theorem bucket_take_value (ind : Indices) (hwf : BucketWF ind) {s idx : Nat}
    (hpos : position (fun x => x == s) ind.small_ptr_parts = some idx) :
    bucketMap ind s = some (ind.allocation_indices.getD idx 0) := by
  obtain ⟨hnd, hlen⟩ := hwf
  have hidx := position_some_lt hpos
  unfold bucketMap
  rw [hpos]
  show ind.allocation_indices[idx]? = some (ind.allocation_indices.getD idx 0)
  rw [List.getD_eq_getElem _ _ (by omega : idx < ind.allocation_indices.length)]
  exact List.getElem?_eq_getElem _

theorem bucketMap_swapRemove (ind : Indices) (hwf : BucketWF ind) {s idx : Nat}
    (hpos : position (fun x => x == s) ind.small_ptr_parts = some idx) (q : Nat) :
    bucketMap ⟨swapRemove ind.small_ptr_parts idx, swapRemove ind.allocation_indices idx⟩ q =
      if q = s then none else bucketMap ind q := by
  obtain ⟨hnd, hlen⟩ := hwf
  have hidx : idx < ind.small_ptr_parts.length := position_some_lt hpos
  obtain ⟨a, ha, hkey⟩ := position_some_get hpos
  obtain ⟨h1, h2⟩ := List.getElem?_eq_some_iff.mp ha
  have has : ind.small_ptr_parts[idx] = s := by
    rw [h2]
    simpa using hkey
  have hzip_nd : ((ind.small_ptr_parts.zip ind.allocation_indices).map Prod.fst).Nodup := by
    rw [List.map_fst_zip _ _ (le_of_eq hlen)]
    exact hnd
  have hpr : (ind.small_ptr_parts.zip ind.allocation_indices)[idx]? =
      some (ind.small_ptr_parts[idx], ind.allocation_indices[idx]) := by
    rw [zip_getElem?, List.getElem?_eq_getElem hidx,
      List.getElem?_eq_getElem (show idx < ind.allocation_indices.length by omega)]
  have hmain := findPair_swapRemove hzip_nd hpr q
  rw [bucketMap_eq_findPair ind hlen q]
  rw [bucketMap_eq_findPair ⟨swapRemove ind.small_ptr_parts idx,
      swapRemove ind.allocation_indices idx⟩
    (by simp only [length_swapRemove]; omega) q]
  show (match position (fun a => a.1 == q)
      ((swapRemove ind.small_ptr_parts idx).zip (swapRemove ind.allocation_indices idx)) with
    | none => none
    | some j => (((swapRemove ind.small_ptr_parts idx).zip
        (swapRemove ind.allocation_indices idx))[j]?).map Prod.snd) = _
  rw [zip_swapRemove _ _ hlen idx hidx]
  simp only at hmain
  rw [has] at hmain
  exact hmain

theorem lookup_mem {β : Type} {l : List (Nat × β)} {q : Nat} {v : β}
    (h : l.lookup q = some v) : (q, v) ∈ l := by
  induction l with
  | nil => simp at h
  | cons p t ih =>
    obtain ⟨a, b⟩ := p
    rw [List.lookup_cons] at h
    by_cases hqa : q = a
    · subst hqa
      rw [show (q == q) = true by simp] at h
      cases h
      simp
    · rw [show (q == a) = false by simp [hqa]] at h
      exact List.mem_cons_of_mem _ (ih h)

theorem lookup_cons_eq {β : Type} {q a : Nat} (b : β) (t : List (Nat × β)) (h : q = a) :
    ((a, b) :: t).lookup q = some b := by
  rw [List.lookup_cons, show (q == a) = true by simp [h]]

theorem lookup_cons_ne {β : Type} {q a : Nat} (b : β) (t : List (Nat × β)) (h : ¬q = a) :
    ((a, b) :: t).lookup q = t.lookup q := by
  rw [List.lookup_cons, show (q == a) = false by simp [h]]

theorem lookup_mapReplace {β : Type} (l : List (Nat × β)) (k : Nat) (f : β → β) (q : Nat) :
    (l.map (fun p => if p.1 == k then (k, f p.2) else p)).lookup q =
      if q = k then (l.lookup k).map f else l.lookup q := by
  induction l with
  | nil =>
    by_cases hq : q = k <;> simp [hq, List.lookup]
  | cons p t ih =>
    obtain ⟨a, b⟩ := p
    simp only [List.map_cons]
    by_cases hak : a = k
    · subst hak
      rw [if_pos (show ((a, b).1 == a) = true from by simp)]
      by_cases hq : q = a
      · rw [lookup_cons_eq _ _ hq, if_pos hq, lookup_cons_eq (q := a) b t rfl]
        rfl
      · rw [lookup_cons_ne _ _ hq, ih, if_neg hq, if_neg hq, lookup_cons_ne _ _ hq]
    · rw [if_neg (show ¬((a, b).1 == k) = true from by simp [hak])]
      by_cases hq : q = a
      · have hqk : ¬q = k := fun h => hak ((hq.symm.trans h))
        rw [lookup_cons_eq _ _ hq, if_neg hqk, lookup_cons_eq _ _ hq]
      · rw [lookup_cons_ne _ _ hq, ih]
        by_cases hqk : q = k
        · rw [if_pos hqk, if_pos hqk, lookup_cons_ne (q := k) _ _ (fun h => hak h.symm)]
        · rw [if_neg hqk, if_neg hqk, lookup_cons_ne _ _ hq]

theorem lookup_append_single {β : Type} (l : List (Nat × β)) (k : Nat) (v : β) (q : Nat) :
    (l ++ [(k, v)]).lookup q =
      match l.lookup q with
      | some w => some w
      | none => if q = k then some v else none := by
  induction l with
  | nil =>
    by_cases hq : q = k
    · show ([(k, v)] : List (Nat × β)).lookup q = if q = k then some v else none
      rw [lookup_cons_eq _ _ hq, if_pos hq]
    · show ([(k, v)] : List (Nat × β)).lookup q = if q = k then some v else none
      rw [lookup_cons_ne _ _ hq, if_neg hq]
      rfl
  | cons p t ih =>
    obtain ⟨a, b⟩ := p
    show (((a, b) :: (t ++ [(k, v)])).lookup q) = _
    by_cases hq : q = a
    · rw [lookup_cons_eq _ _ hq, lookup_cons_eq _ _ hq]
    · rw [lookup_cons_ne _ _ hq, lookup_cons_ne _ _ hq]
      exact ih

theorem any_key_false_lookup {β : Type} (l : List (Nat × β)) (k : Nat)
    (h : l.any (fun p => p.1 == k) = false) : l.lookup k = none := by
  induction l with
  | nil => simp
  | cons p t ih =>
    obtain ⟨a, b⟩ := p
    simp only [List.any_cons, Bool.or_eq_false_iff] at h
    rw [List.lookup_cons]
    have : (k == a) = false := by
      have := h.1
      simp only [beq_eq_false_iff_ne, ne_eq] at this ⊢
      exact fun hh => this hh.symm
    rw [this]
    exact ih h.2

theorem any_key_true_lookup {β : Type} (l : List (Nat × β)) (k : Nat)
    (h : l.any (fun p => p.1 == k) = true) : ∃ v, l.lookup k = some v := by
  induction l with
  | nil => simp at h
  | cons p t ih =>
    obtain ⟨a, b⟩ := p
    simp only [List.any_cons, Bool.or_eq_true] at h
    rw [List.lookup_cons]
    by_cases hka : k = a
    · rw [show (k == a) = true by simp [hka]]
      exact ⟨b, rfl⟩
    · rw [show (k == a) = false by simp [hka]]
      rcases h with h | h
      · exfalso
        exact hka (by simpa using h : a = k).symm
      · exact ih h

theorem lookup_assocUpdate {β : Type} (l : List (Nat × β)) (k : Nat) (d : β) (f : β → β)
    (q : Nat) :
    (assocUpdate l k d f).lookup q =
      if q = k then some (f ((l.lookup k).getD d)) else l.lookup q := by
  unfold assocUpdate
  by_cases hany : l.any (fun p => p.1 == k) = true
  · rw [if_pos hany, lookup_mapReplace]
    obtain ⟨v, hv⟩ := any_key_true_lookup l k hany
    by_cases hq : q = k <;> simp [hq, hv]
  · rw [if_neg hany, lookup_append_single]
    have hfalse : l.any (fun p => p.1 == k) = false := by
      cases h : l.any (fun p => p.1 == k)
      · rfl
      · exact absurd h hany
    have hnone := any_key_false_lookup l k hfalse
    by_cases hq : q = k
    · subst hq
      rw [hnone]
      simp [hnone]
    · rw [if_neg hq, if_neg hq]
      cases hl : l.lookup q with
      | none => rfl
      | some w => rfl

theorem keys_mapReplace {β : Type} (l : List (Nat × β)) (k : Nat) (f : β → β) :
    ((l.map (fun p => if p.1 == k then (k, f p.2) else p)).map Prod.fst) = l.map Prod.fst := by
  induction l with
  | nil => rfl
  | cons p t ih =>
    obtain ⟨a, b⟩ := p
    simp only [List.map_cons]
    rw [ih]
    by_cases hak : a = k
    · rw [if_pos (show ((a, b).1 == k) = true from by simp [hak])]
      simp [hak]
    · rw [if_neg (show ¬((a, b).1 == k) = true from by simp [hak])]

theorem nodup_keys_assocUpdate {β : Type} (l : List (Nat × β)) (k : Nat) (d : β) (f : β → β)
    (hnd : (l.map Prod.fst).Nodup) : ((assocUpdate l k d f).map Prod.fst).Nodup := by
  unfold assocUpdate
  by_cases hany : l.any (fun p => p.1 == k) = true
  · rw [if_pos hany, keys_mapReplace]
    exact hnd
  · rw [if_neg hany]
    have hk : k ∉ l.map Prod.fst := by
      intro hmem
      obtain ⟨p, hp, hpk⟩ := List.mem_map.mp hmem
      have : l.any (fun p => p.1 == k) = true :=
        List.any_eq_true.mpr ⟨p, hp, by simp [hpk]⟩
      exact hany this
    simp [List.nodup_append, hnd, hk]

theorem mem_assocUpdate {β : Type} {l : List (Nat × β)} {k : Nat} {d : β} {f : β → β}
    {p : Nat × β} (hp : p ∈ assocUpdate l k d f) :
    p ∈ l ∨ p = (k, f d) ∨ ∃ v, (k, v) ∈ l ∧ p = (k, f v) := by
  unfold assocUpdate at hp
  by_cases hany : l.any (fun r => r.1 == k) = true
  · rw [if_pos hany] at hp
    obtain ⟨q, hq, hqp⟩ := List.mem_map.mp hp
    by_cases hqk : q.1 = k
    · right; right
      refine ⟨q.2, ?_, ?_⟩
      · have heq : (k, q.2) = q := by rw [← hqk]
        rw [heq]
        exact hq
      · rw [← hqp, if_pos (by simp [hqk])]
    · left
      rw [← hqp, if_neg (by simp [hqk])]
      exact hq
  · rw [if_neg hany] at hp
    rcases List.mem_append.mp hp with h | h
    · exact Or.inl h
    · simp only [List.mem_singleton] at h
      exact Or.inr (Or.inl h)

theorem lookup_assocSwapRemove {β : Type} (l : List (Nat × β))
    (hnd : (l.map Prod.fst).Nodup) {k : Nat} {v : β} (hv : l.lookup k = some v) (q : Nat) :
    (assocSwapRemove l k).lookup q = if q = k then none else l.lookup q := by
  unfold assocSwapRemove
  cases hpos : position (fun p => p.1 == k) l with
  | none =>
    exfalso
    rw [lookup_eq_findPair, hpos] at hv
    simp at hv
  | some i =>
    obtain ⟨pr, hpr, hprk⟩ := position_some_get hpos
    have hprk' : pr.1 = k := by simpa using hprk
    rw [lookup_eq_findPair (swapRemove l i) q, lookup_eq_findPair l q]
    have := findPair_swapRemove hnd hpr q
    rw [hprk'] at this
    exact this

theorem nodup_keys_assocSwapRemove {β : Type} (l : List (Nat × β))
    (hnd : (l.map Prod.fst).Nodup) (k : Nat) :
    ((assocSwapRemove l k).map Prod.fst).Nodup := by
  unfold assocSwapRemove
  cases hpos : position (fun p => p.1 == k) l with
  | none => exact hnd
  | some i =>
    rw [map_swapRemove]
    exact nodup_swapRemove _ hnd i

theorem mem_assocSwapRemove {β : Type} {l : List (Nat × β)} {k : Nat} {p : Nat × β}
    (hp : p ∈ assocSwapRemove l k) : p ∈ l := by
  unfold assocSwapRemove at hp
  cases hpos : position (fun r => r.1 == k) l with
  | none =>
    rw [hpos] at hp
    exact hp
  | some i =>
    rw [hpos] at hp
    exact mem_swapRemove hp

theorem lookup_mapReplaceConst {β : Type} (l : List (Nat × β)) (k : Nat) (v : β) (q : Nat) :
    (l.map (fun p => if p.1 == k then (k, v) else p)).lookup q =
      if q = k then (l.lookup k).map (fun _ => v) else l.lookup q :=
  lookup_mapReplace l k (fun _ => v) q

theorem keys_mapReplaceConst {β : Type} (l : List (Nat × β)) (k : Nat) (v : β) :
    ((l.map (fun p => if p.1 == k then (k, v) else p)).map Prod.fst) = l.map Prod.fst :=
  keys_mapReplace l k (fun _ => v)

theorem mem_mapReplaceConst {β : Type} {l : List (Nat × β)} {k : Nat} {v : β} {r : Nat × β}
    (hr : r ∈ l.map (fun p => if p.1 == k then (k, v) else p)) : r ∈ l ∨ r = (k, v) := by
  obtain ⟨s, hs, hsr⟩ := List.mem_map.mp hr
  by_cases h : (s.1 == k) = true
  · right
    rw [← hsr, if_pos h]
  · left
    rw [← hsr, if_neg h]
    exact hs

theorem splitPointer_inj {p q : Nat} (h : SplitPointer.new p = SplitPointer.new q) : p = q := by
  rw [SplitPointer.new, SplitPointer.new, SplitPointer.mk.injEq] at h
  obtain ⟨h1, h2⟩ := h
  unfold PAGE_SIZE at h1 h2
  have e1 : 16383 * (p / 16383) + p % 16383 = p := Nat.div_add_mod p 16383
  have e2 : 16383 * (q / 16383) + q % 16383 = q := Nat.div_add_mod q 16383
  omega

theorem splitPointer_eq_of (p q : Nat)
    (hb : (SplitPointer.new q).big = (SplitPointer.new p).big)
    (hs : (SplitPointer.new q).small = (SplitPointer.new p).small) : q = p := by
  apply splitPointer_inj
  cases hq : SplitPointer.new q
  cases hp : SplitPointer.new p
  rw [hq, hp] at hb hs
  simp at hb hs
  simp [hb, hs]

theorem default_bucket_wf : BucketWF Indices.default :=
  ⟨List.nodup_nil, rfl⟩

theorem bucketMap_default (q : Nat) : bucketMap Indices.default q = none := rfl

theorem TableWF_empty : TableWF [] := ⟨List.nodup_nil, by simp⟩

theorem add_pointer_frame (st : Interpreter) (p i : Nat) :
    st.add_pointer p i = { st with pointers := (st.add_pointer p i).pointers } := rfl

theorem add_pointer_wf (st : Interpreter) (p i : Nat) (hwf : TableWF st.pointers) :
    TableWF (st.add_pointer p i).pointers := by
  obtain ⟨hnd, hbk⟩ := hwf
  show TableWF (assocUpdate st.pointers (SplitPointer.new p).big Indices.default
    (fun ind => bucketAdd ind (SplitPointer.new p).small i))
  refine ⟨nodup_keys_assocUpdate _ _ _ _ hnd, ?_⟩
  intro r hr
  rcases mem_assocUpdate hr with h | h | ⟨v, hv, hpv⟩
  · exact hbk r h
  · rw [h]
    exact bucketAdd_wf Indices.default default_bucket_wf _ _
  · rw [hpv]
    exact bucketAdd_wf v (hbk (_, v) hv) _ _

theorem add_pointer_tableMap (st : Interpreter) (p i : Nat) (hwf : TableWF st.pointers)
    (q : Nat) :
    tableMap (st.add_pointer p i).pointers q =
      if q = p then some i else tableMap st.pointers q := by
  obtain ⟨hnd, hbk⟩ := hwf
  show tableMap (assocUpdate st.pointers (SplitPointer.new p).big Indices.default
    (fun ind => bucketAdd ind (SplitPointer.new p).small i)) q = _
  unfold tableMap
  rw [lookup_assocUpdate]
  by_cases hbig : (SplitPointer.new q).big = (SplitPointer.new p).big
  · rw [if_pos hbig]
    have hold : BucketWF ((st.pointers.lookup (SplitPointer.new p).big).getD Indices.default) := by
      cases hb : st.pointers.lookup (SplitPointer.new p).big with
      | none => exact default_bucket_wf
      | some ind => exact hbk _ (lookup_mem hb)
    show bucketMap (bucketAdd ((st.pointers.lookup (SplitPointer.new p).big).getD
        Indices.default) (SplitPointer.new p).small i) (SplitPointer.new q).small = _
    rw [bucketMap_bucketAdd _ hold]
    by_cases hq : q = p
    · subst hq
      rw [if_pos rfl, if_pos rfl]
    · have hsmall : (SplitPointer.new q).small ≠ (SplitPointer.new p).small :=
        fun hs => hq (splitPointer_eq_of p q hbig hs)
      rw [if_neg hsmall, if_neg hq, hbig]
      cases hb : st.pointers.lookup (SplitPointer.new p).big with
      | none => rfl
      | some ind => rfl
  · have hq : q ≠ p := fun h => hbig (by rw [h])
    rw [if_neg hbig, if_neg hq]

theorem take_pointer_spec (st : Interpreter) (p : Nat) (hwf : TableWF st.pointers) :
    (st.take_pointer p).1 = tableMap st.pointers p ∧
    TableWF (st.take_pointer p).2.pointers ∧
    (∀ q, tableMap (st.take_pointer p).2.pointers q =
      if q = p then none else tableMap st.pointers q) := by
  obtain ⟨hnd, hbk⟩ := hwf
  cases hB : st.pointers.lookup (SplitPointer.new p).big with
  | none =>
    have hchar : st.take_pointer p = (none, st) := by
      unfold Interpreter.take_pointer
      simp only [hB]
    have htm : tableMap st.pointers p = none := by
      unfold tableMap
      rw [hB]
    rw [hchar]
    refine ⟨htm.symm, ⟨hnd, hbk⟩, ?_⟩
    intro q
    by_cases hq : q = p
    · subst hq
      rw [if_pos rfl, htm]
    · rw [if_neg hq]
  | some ind =>
    have hBwf : BucketWF ind := hbk _ (lookup_mem hB)
    cases hpos : position (fun i => i == (SplitPointer.new p).small) ind.small_ptr_parts with
    | none =>
      have hchar : st.take_pointer p = (none, st) := by
        unfold Interpreter.take_pointer
        simp only [hB, hpos]
      have htm : tableMap st.pointers p = none := by
        unfold tableMap
        rw [hB]
        show bucketMap ind (SplitPointer.new p).small = none
        unfold bucketMap
        rw [hpos]
      rw [hchar]
      refine ⟨htm.symm, ⟨hnd, hbk⟩, ?_⟩
      intro q
      by_cases hq : q = p
      · subst hq
        rw [if_pos rfl, htm]
      · rw [if_neg hq]
    | some idx =>
      have hidx : idx < ind.small_ptr_parts.length := position_some_lt hpos
      obtain ⟨sv, hsv, hsvk⟩ := position_some_get hpos
      have hsmall : ind.small_ptr_parts[idx]? = some (SplitPointer.new p).small := by
        rw [hsv]
        congr 1
        simpa using hsvk
      have htm : tableMap st.pointers p = some (ind.allocation_indices.getD idx 0) := by
        unfold tableMap
        rw [hB]
        exact bucket_take_value ind hBwf hpos
      have hnewwf : BucketWF ⟨swapRemove ind.small_ptr_parts idx,
          swapRemove ind.allocation_indices idx⟩ := by
        refine ⟨nodup_swapRemove _ hBwf.1 idx, ?_⟩
        have h2 := hBwf.2
        simp only [length_swapRemove]
        omega
      have hnewmap := bucketMap_swapRemove ind hBwf hpos
      by_cases hemp : (swapRemove ind.allocation_indices idx).isEmpty = true
      · -- the bucket becomes empty and the outer key is erased
        have hchar : st.take_pointer p = (some (ind.allocation_indices.getD idx 0),
            { st with pointers := assocSwapRemove st.pointers (SplitPointer.new p).big }) := by
          unfold Interpreter.take_pointer
          simp only [hB, hpos, hemp]
          rw [if_pos trivial]
        -- the removed bucket contained only `p`
        have hone : ind.small_ptr_parts.length = 1 := by
          have hlen := length_swapRemove ind.allocation_indices idx
          have : (swapRemove ind.allocation_indices idx).length = 0 :=
            List.isEmpty_iff_length_eq_zero.mp hemp
          have h2 := hBwf.2
          omega
        have hidx0 : idx = 0 := by omega
        have honly : ∀ s, bucketMap ind s =
            if s = (SplitPointer.new p).small then bucketMap ind s else none := by
          intro s
          by_cases hs : s = (SplitPointer.new p).small
          · rw [if_pos hs]
          · rw [if_neg hs]
            unfold bucketMap
            cases hps : position (fun i => i == s) ind.small_ptr_parts with
            | none => rfl
            | some j =>
              exfalso
              have hj := position_some_lt hps
              obtain ⟨sj, hsj, hsjk⟩ := position_some_get hps
              have : j = 0 := by omega
              subst this
              rw [hidx0] at hsmall
              rw [hsmall] at hsj
              cases hsj
              have heq : (SplitPointer.new p).small = s := by simpa using hsjk
              exact hs heq.symm
        rw [hchar]
        refine ⟨htm.symm, ?_, ?_⟩
        · refine ⟨nodup_keys_assocSwapRemove _ hnd _, ?_⟩
          intro r hr
          exact hbk r (mem_assocSwapRemove hr)
        · intro q
          show tableMap (assocSwapRemove st.pointers (SplitPointer.new p).big) q = _
          unfold tableMap
          rw [lookup_assocSwapRemove st.pointers hnd hB]
          by_cases hbig : (SplitPointer.new q).big = (SplitPointer.new p).big
          · rw [if_pos hbig]
            by_cases hq : q = p
            · rw [if_pos hq]
            · rw [if_neg hq]
              show (none : Option Nat) = tableMap st.pointers q
              unfold tableMap
              rw [hbig, hB]
              have hqsmall : (SplitPointer.new q).small ≠ (SplitPointer.new p).small :=
                fun hs => hq (splitPointer_eq_of p q hbig hs)
              have := honly (SplitPointer.new q).small
              rw [if_neg hqsmall] at this
              exact this.symm
          · have hq : q ≠ p := fun h => hbig (by rw [h])
            rw [if_neg hbig, if_neg hq]
      · -- the bucket stays, with the entry swap-removed
        have hchar : st.take_pointer p = (some (ind.allocation_indices.getD idx 0),
            { st with pointers := st.pointers.map (fun r =>
                if r.1 == (SplitPointer.new p).big then
                  ((SplitPointer.new p).big,
                   (⟨swapRemove ind.small_ptr_parts idx,
                     swapRemove ind.allocation_indices idx⟩ : Indices))
                else r) }) := by
          unfold Interpreter.take_pointer
          simp only [hB, hpos, hemp]
          rw [if_neg Bool.false_ne_true]
        rw [hchar]
        refine ⟨htm.symm, ?_, ?_⟩
        · refine ⟨?_, ?_⟩
          · rw [keys_mapReplaceConst]
            exact hnd
          · intro r hr
            rcases mem_mapReplaceConst hr with h | h
            · exact hbk r h
            · rw [h]
              exact hnewwf
        · intro q
          show tableMap (st.pointers.map (fun r =>
              if r.1 == (SplitPointer.new p).big then
                ((SplitPointer.new p).big,
                 (⟨swapRemove ind.small_ptr_parts idx,
                   swapRemove ind.allocation_indices idx⟩ : Indices))
              else r)) q = _
          unfold tableMap
          rw [lookup_mapReplaceConst]
          by_cases hbig : (SplitPointer.new q).big = (SplitPointer.new p).big
          · rw [if_pos hbig, hB]
            show bucketMap ⟨swapRemove ind.small_ptr_parts idx,
              swapRemove ind.allocation_indices idx⟩ (SplitPointer.new q).small = _
            rw [hnewmap]
            by_cases hq : q = p
            · subst hq
              rw [if_pos rfl, if_pos rfl]
            · have hqsmall : (SplitPointer.new q).small ≠ (SplitPointer.new p).small :=
                fun hs => hq (splitPointer_eq_of p q hbig hs)
              rw [if_neg hqsmall, if_neg hq]
              show bucketMap ind (SplitPointer.new q).small = tableMap st.pointers q
              unfold tableMap
              rw [hbig, hB]
          · have hq : q ≠ p := fun h => hbig (by rw [h])
            rw [if_neg hbig, if_neg hq]

theorem take_pointer_frame (st : Interpreter) (p : Nat) :
    (st.take_pointer p).2 = { st with pointers := (st.take_pointer p).2.pointers } := by
  cases hB : st.pointers.lookup (SplitPointer.new p).big with
  | none =>
    have hchar : st.take_pointer p = (none, st) := by
      unfold Interpreter.take_pointer
      simp only [hB]
    rw [hchar]
  | some ind =>
    cases hpos : position (fun i => i == (SplitPointer.new p).small) ind.small_ptr_parts with
    | none =>
      have hchar : st.take_pointer p = (none, st) := by
        unfold Interpreter.take_pointer
        simp only [hB, hpos]
      rw [hchar]
    | some idx =>
      by_cases hemp : (swapRemove ind.allocation_indices idx).isEmpty = true
      · have hchar : st.take_pointer p = (some (ind.allocation_indices.getD idx 0),
            { st with pointers := assocSwapRemove st.pointers (SplitPointer.new p).big }) := by
          unfold Interpreter.take_pointer
          simp only [hB, hpos, hemp]
          rw [if_pos trivial]
        rw [hchar]
      · have hchar : st.take_pointer p = (some (ind.allocation_indices.getD idx 0),
            { st with pointers := st.pointers.map (fun r =>
                if r.1 == (SplitPointer.new p).big then
                  ((SplitPointer.new p).big,
                   (⟨swapRemove ind.small_ptr_parts idx,
                     swapRemove ind.allocation_indices idx⟩ : Indices))
                else r) }) := by
          unfold Interpreter.take_pointer
          simp only [hB, hpos, hemp]
          rw [if_neg Bool.false_ne_true]
        rw [hchar]

theorem take_pointer_notin (st : Interpreter) (p : Nat) (hwf : TableWF st.pointers)
    (h : tableMap st.pointers p = none) : st.take_pointer p = (none, st) := by
  cases hB : st.pointers.lookup (SplitPointer.new p).big with
  | none =>
    unfold Interpreter.take_pointer
    simp only [hB]
  | some ind =>
    have hBwf : BucketWF ind := hwf.2 _ (lookup_mem hB)
    cases hpos : position (fun i => i == (SplitPointer.new p).small) ind.small_ptr_parts with
    | none =>
      unfold Interpreter.take_pointer
      simp only [hB, hpos]
    | some idx =>
      exfalso
      unfold tableMap at h
      rw [hB] at h
      have h2 : bucketMap ind (SplitPointer.new p).small = none := h
      rw [bucket_take_value ind hBwf hpos] at h2
      cases h2

theorem runPtrOps_spec (ops : List PtrOp) (st : Interpreter) (hwf : TableWF st.pointers) :
    TableWF (runPtrOps st ops).pointers ∧
    ∀ q, tableMap (runPtrOps st ops).pointers q =
      ops.foldl specPtrStep (tableMap st.pointers) q := by
  induction ops generalizing st with
  | nil => exact ⟨hwf, fun q => rfl⟩
  | cons op ops ih =>
    cases op with
    | add p i =>
      have hwf' := add_pointer_wf st p i hwf
      obtain ⟨ih1, ih2⟩ := ih (st.add_pointer p i) hwf'
      refine ⟨ih1, fun q => ?_⟩
      show tableMap (runPtrOps (st.add_pointer p i) ops).pointers q = _
      rw [ih2 q, List.foldl_cons]
      have hstep : tableMap (st.add_pointer p i).pointers =
          specPtrStep (tableMap st.pointers) (PtrOp.add p i) :=
        funext (fun q' => add_pointer_tableMap st p i hwf q')
      rw [hstep]
    | take p =>
      obtain ⟨hfst, hwf', hmap⟩ := take_pointer_spec st p hwf
      obtain ⟨ih1, ih2⟩ := ih (st.take_pointer p).2 hwf'
      refine ⟨ih1, fun q => ?_⟩
      show tableMap (runPtrOps (st.take_pointer p).2 ops).pointers q = _
      rw [ih2 q, List.foldl_cons]
      have hstep : tableMap (st.take_pointer p).2.pointers =
          specPtrStep (tableMap st.pointers) (PtrOp.take p) :=
        funext (fun q' => hmap q')
      rw [hstep]

/-- **C6.** The split-pointer table behaves as a finite map over full 64-bit
pointers: after any sequence of `add_pointer`/`take_pointer` operations from
the empty table, for distinct pointers `p1 ≠ p2`, `take_pointer p1` returns
exactly the naive-map content of `p1` (the allocation index most recently
inserted for `p1`, or `none` if never inserted or already removed), and the
resulting table still maps `p2` to its naive-map content (its entry is left
intact). -/
theorem c6_split_pointer_table (ops : List PtrOp) (p1 p2 : Nat) (hne : p1 ≠ p2)
    (hb1 : p1 < U64) (hb2 : p2 < U64) :
    ((runPtrOps Interpreter.init ops).take_pointer p1).1 = specPtrMap ops p1 ∧
    tableMap ((runPtrOps Interpreter.init ops).take_pointer p1).2.pointers p2 =
      specPtrMap ops p2 := by
  obtain ⟨hwf, hmap⟩ := runPtrOps_spec ops Interpreter.init TableWF_empty
  obtain ⟨hfst, hwf', hmap'⟩ := take_pointer_spec _ p1 hwf
  constructor
  · rw [hfst, hmap p1]
    rfl
  · rw [hmap' p2, if_neg (Ne.symm hne), hmap p2]
    rfl

/-- Witness for C6 at a concrete input: two live pointers whose `small`
parts collide (they differ by exactly `PAGE_SIZE`), taking the first leaves
the second intact. -/
theorem c6_split_pointer_table_witness :
    (65536 : Nat) ≠ 81919 ∧ (65536 : Nat) < U64 ∧ (81919 : Nat) < U64 ∧
    (((runPtrOps Interpreter.init [PtrOp.add 65536 5, PtrOp.add 81919 7]).take_pointer
        65536).1 = specPtrMap [PtrOp.add 65536 5, PtrOp.add 81919 7] 65536 ∧
      tableMap ((runPtrOps Interpreter.init
          [PtrOp.add 65536 5, PtrOp.add 81919 7]).take_pointer 65536).2.pointers 81919 =
        specPtrMap [PtrOp.add 65536 5, PtrOp.add 81919 7] 81919) :=
  ⟨by decide, by decide, by decide,
   c6_split_pointer_table [PtrOp.add 65536 5, PtrOp.add 81919 7] 65536 81919
     (by decide) (by decide) (by decide)⟩

/-- **C9.** `Free` of a pointer absent from the (well-formed) pointer table:
the Interpreter emits no output line, leaves every statistic, interning
table, the resolver and the pointer table unchanged, sets `last_ptr` to 0,
and returns success — captured by the state equation below. -/
theorem c9_free_unknown (env : LoaderEnv) (st : Interpreter) (ptr : Nat)
    (hwf : TableWF st.pointers) (habs : tableMap st.pointers ptr = none) :
    st.handle_record env (Record.free ptr) = Except.ok { st with last_ptr := 0 } := by
  have hkey : ({ st with last_ptr := 0 } : Interpreter).take_pointer ptr =
      (none, { st with last_ptr := 0 }) :=
    take_pointer_notin _ ptr hwf habs
  unfold Interpreter.handle_record
  simp only [hkey]

/-- Witness for C9 at a concrete input. -/
theorem c9_free_unknown_witness :
    TableWF Interpreter.init.pointers ∧ tableMap Interpreter.init.pointers 7 = none ∧
    Interpreter.init.handle_record ⟨fun _ => true, fun _ _ => []⟩ (Record.free 7) =
      Except.ok { Interpreter.init with last_ptr := 0 } :=
  ⟨TableWF_empty, rfl,
   c9_free_unknown ⟨fun _ => true, fun _ _ => []⟩ Interpreter.init 7 TableWF_empty rfl⟩

theorem splitWs_cons_ws (b : Nat) (hb : isWsByte b = true) (l : Bytes) :
    splitWs (b :: l) = splitWs l := by
  unfold splitWs
  show splitWsAux (b :: l) [] = splitWsAux l []
  rw [splitWsAux]
  simp [hb]

theorem splitWs_flatten_space (toks : List Bytes) (h : ∀ t ∈ toks, CleanTok t) :
    splitWs (List.flatten (toks.map (fun t => 32 :: t))) = toks := by
  induction toks with
  | nil => rfl
  | cons t ts ih =>
    have hflat : List.flatten ((t :: ts).map (fun t => 32 :: t)) =
        32 :: (t ++ List.flatten (ts.map (fun t => 32 :: t))) := by simp
    rw [hflat, splitWs_cons_ws 32 (by decide)]
    cases ts with
    | nil =>
      simp only [List.map_nil, List.flatten_nil, List.append_nil]
      exact splitWs_tok_last t (h t (by simp))
    | cons t2 ts2 =>
      have hflat2 : List.flatten ((t2 :: ts2).map (fun t => 32 :: t)) =
          32 :: (t2 ++ List.flatten (ts2.map (fun t => 32 :: t))) := by simp
      rw [hflat2, splitWs_tok_space t (h t (by simp))]
      have ih2 := ih (fun x hx => h x (by simp [hx]))
      rw [hflat2, splitWs_cons_ws 32 (by decide)] at ih2
      rw [ih2]

theorem splitWs_tagLine (tag : Nat) (htag : isWsByte tag = false) (toks : List Bytes)
    (h : ∀ t ∈ toks, CleanTok t) : splitWs (tagLine tag toks) = [tag] :: toks := by
  cases toks with
  | nil =>
    show splitWs [tag] = [[tag]]
    exact splitWs_tok_last [tag] ⟨by simp, by simpa using htag⟩
  | cons t ts =>
    show splitWs (tag :: List.flatten ((t :: ts).map (fun t => 32 :: t))) = _
    have hflat : List.flatten ((t :: ts).map (fun t => 32 :: t)) =
        32 :: (t ++ List.flatten (ts.map (fun t => 32 :: t))) := by simp
    rw [hflat]
    have hjoin := splitWs_flatten_space (t :: ts) h
    rw [hflat, splitWs_cons_ws 32 (by decide)] at hjoin
    show splitWs ([tag] ++ 32 :: (t ++ List.flatten (ts.map (fun t => 32 :: t)))) = _
    rw [splitWs_tok_space [tag] ⟨by simp, by simpa using htag⟩, hjoin]

theorem frameToks_clean (f : Frame) : ∀ t ∈ frameToks f, CleanTok t := by
  cases f with
  | single fi =>
    intro t ht
    have h : t = toHex fi := by simpa [frameToks] using ht
    exact h ▸ toHex_cleanTok fi
  | multiple fi file ln =>
    intro t ht
    have h : t = toHex fi ∨ t = toHex file ∨ t = toHex ln := by simpa [frameToks] using ht
    rcases h with h | h | h <;> exact h ▸ toHex_cleanTok _

theorem parse_frames_roundtrip (frames : List Frame)
    (hb : ∀ f ∈ frames, FrameBounds f)
    (hshape : ∀ f ∈ frames.dropLast, f.isMultiple = true) :
    parse_frames (frames.flatMap frameToks) = Except.ok frames := by
  induction frames with
  | nil => rfl
  | cons f fs ih =>
    cases f with
    | single fi =>
      cases fs with
      | nil =>
        have hfi : fi < U64 := hb (Frame.single fi) (by simp)
        show parse_frames [toHex fi] = Except.ok [Frame.single fi]
        simp only [parse_frames, parseHex_toHex U64 fi hfi]
      | cons f2 fs2 =>
        exfalso
        have hmem : Frame.single fi ∈ ((Frame.single fi :: f2 :: fs2).dropLast) := by
          rw [List.dropLast_cons_of_ne_nil (by simp)]
          simp
        have := hshape _ hmem
        simp [Frame.isMultiple] at this
    | multiple fi file ln =>
      have hb1 := hb (Frame.multiple fi file ln) (by simp)
      obtain ⟨hfi, hfile, hln⟩ := hb1
      have hih : parse_frames (fs.flatMap frameToks) = Except.ok fs := by
        apply ih (fun x hx => hb x (by simp [hx]))
        intro x hx
        cases fs with
        | nil => simp at hx
        | cons f2 fs2 =>
          apply hshape
          rw [List.dropLast_cons_of_ne_nil (by simp)]
          exact List.mem_cons_of_mem _ hx
      show parse_frames (toHex fi :: toHex file :: toHex ln :: fs.flatMap frameToks) =
        Except.ok (Frame.multiple fi file ln :: fs)
      simp only [parse_frames, parseHex_toHex U64 fi hfi, parseHex_toHex U64 file hfile,
        parseHex_toHex U32 ln hln, hih]

/-- **C5 (amended).** Instruction-line round-trip holds exactly when every
frame except possibly the last is `Multiple`: for such a non-empty frame
sequence (with `usize`/`u32` value bounds), writing the `i` line with
`write_instruction` and parsing it back reconstructs the same `ip`, module
index, first frame, and inlined frame list.  (As stated over all frame
sequences the claim is false: the emitter does not self-delimit frame arity
and the parser commits any token following a `function_idx` to being a
`file_idx` — see the counterexample.) -/
theorem c5_instruction_roundtrip (st : Parser) (ip module_idx : Nat) (f : Frame)
    (fs : List Frame) (hip : ip < U64) (hmod : module_idx < U64)
    (hb : ∀ g ∈ f :: fs, FrameBounds g)
    (hshape : ∀ g ∈ (f :: fs).dropLast, g.isMultiple = true) :
    st.parse_line (instruction_line ip module_idx (f :: fs)) =
      Except.ok { st with data := { st.data with instruction_pointers :=
        st.data.instruction_pointers ++ [⟨ip, module_idx, f, fs⟩] } } := by
  have hclean : ∀ t ∈ [toHex ip, toHex module_idx] ++ (f :: fs).flatMap frameToks,
      CleanTok t := by
    intro t ht
    rcases List.mem_append.mp ht with h | h
    · have h2 : t = toHex ip ∨ t = toHex module_idx := by simpa using h
      rcases h2 with h2 | h2 <;> exact h2 ▸ toHex_cleanTok _
    · obtain ⟨g, _, hg⟩ := List.mem_flatMap.mp h
      exact frameToks_clean g t hg
  have hsplit : splitWs (instruction_line ip module_idx (f :: fs)) =
      [105] :: toHex ip :: toHex module_idx :: (f :: fs).flatMap frameToks := by
    show splitWs (tagLine 105 ([toHex ip, toHex module_idx] ++ (f :: fs).flatMap frameToks))
      = _
    rw [splitWs_tagLine 105 (by decide) _ hclean]
    rfl
  unfold Parser.parse_line
  rw [hsplit]
  simp only [parseHex_toHex U64 ip hip, parseHex_toHex U64 module_idx hmod,
    parse_frames_roundtrip (f :: fs) hb hshape]
  simp

/-- Witness for C5 (amended) at a concrete input. -/
theorem c5_instruction_roundtrip_witness :
    (2 : Nat) < U64 ∧ (1 : Nat) < U64 ∧
    (∀ g ∈ [Frame.multiple 3 4 5, Frame.single 6], FrameBounds g) ∧
    (∀ g ∈ ([Frame.multiple 3 4 5, Frame.single 6] : List Frame).dropLast,
      g.isMultiple = true) ∧
    Parser.init.parse_line (instruction_line 2 1 [Frame.multiple 3 4 5, Frame.single 6]) =
      Except.ok { Parser.init with data := { Parser.init.data with instruction_pointers :=
        Parser.init.data.instruction_pointers ++
          [⟨2, 1, Frame.multiple 3 4 5, [Frame.single 6]⟩] } } :=
  ⟨by decide, by decide, by decide, by decide,
   c5_instruction_roundtrip Parser.init 2 1 (Frame.multiple 3 4 5) [Frame.single 6]
     (by decide) (by decide) (by decide) (by decide)⟩

/-- **C5 (counterexample).** The claim as stated fails: the `i` line written
for the frame list `[Single 1, Single 2]` does not parse back at all — the
parser consumes the second `function_idx` token as a `file_idx` and then
fails with `InvalidFormat`. -/
theorem c5_counterexample :
    Parser.init.parse_line (instruction_line 1 1 [Frame.single 1, Frame.single 2]) =
      Except.error ParseErr.invalidFormat := rfl

/-- **C10 (amended).** In `PipeReader::read_record`, after reading the
little-endian u16 length prefix, the slice `self.buf[..len]` of the fixed
1024-byte buffer is in bounds iff the declared length is at most 1024;
declared lengths 1025..65535 hit an out-of-range slice (a Rust panic). -/
theorem c10_read_record_slice (b0 b1 : Nat) (rest : Bytes)
    (h0 : b0 < 256) (h1 : b1 < 256) :
    (read_record_frame (b0 :: b1 :: rest) = some (Except.error ReadErr.panicSliceOutOfRange)
      ↔ ¬(b0 + 256 * b1 ≤ PIPE_BUF_LEN)) := by
  show ((if b0 + 256 * b1 ≤ PIPE_BUF_LEN then
      (if rest.length < b0 + 256 * b1 then some (Except.error ReadErr.ioError)
       else some (Except.ok (rest.take (b0 + 256 * b1))))
    else some (Except.error ReadErr.panicSliceOutOfRange)) =
      some (Except.error ReadErr.panicSliceOutOfRange)) ↔ ¬(b0 + 256 * b1 ≤ PIPE_BUF_LEN)
  by_cases h : b0 + 256 * b1 ≤ PIPE_BUF_LEN
  · rw [if_pos h]
    by_cases hr : rest.length < b0 + 256 * b1
    · rw [if_pos hr]
      simp [h]
    · rw [if_neg hr]
      simp [h]
  · rw [if_neg h]
    simp [h]

/-- Witness for C10 (amended) at a concrete input. -/
theorem c10_read_record_slice_witness :
    (1 : Nat) < 256 ∧ (4 : Nat) < 256 ∧
    (read_record_frame (1 :: 4 :: [0, 0, 0]) =
        some (Except.error ReadErr.panicSliceOutOfRange)
      ↔ ¬((1 : Nat) + 256 * 4 ≤ PIPE_BUF_LEN)) :=
  ⟨by decide, by decide, c10_read_record_slice 1 4 [0, 0, 0] (by decide) (by decide)⟩

/-- **C10 (counterexample).** The claim as stated is false: a frame whose
u16 length prefix declares 1025 (bytes `01 04`, within 0..=65535) makes
`self.buf[..len]` out of range for the 1024-byte buffer. -/
theorem c10_counterexample :
    read_record_frame [1, 4] = some (Except.error ReadErr.panicSliceOutOfRange) := rfl

/-- **C8 (counterexample).** The claim as stated is false: a `+` line whose
INFO_IDX does not refer to an existing `allocation_infos` entry makes the
Parser panic with an out-of-bounds `Vec` index (`allocation_infos[idx]`),
not fail with `Internal("allocation not found")`. -/
theorem c8_counterexample :
    Parser.init.parse_line [43, 32, 48] = Except.error ParseErr.panicIndex ∧
    ParseErr.panicIndex ≠ ParseErr.internal "allocation not found" :=
  ⟨rfl, by decide⟩

/-- **C8 (amended).** For every `+` or `-` line whose INFO_IDX is outside
`allocation_infos`, the Parser hits the out-of-bounds index panic (before
touching any statistic — the error return carries no state update); the
`Internal("allocation not found")` error instead guards
`allocations[info.allocation_idx]` and cannot fire from a state in which
every stored `allocation_idx` is in range. -/
theorem c8_info_idx_out_of_range (st : Parser) (idx : Nat) (hlt : idx < U64)
    (hge : st.data.allocation_infos.length ≤ idx) :
    st.parse_line (tagLine 43 [toHex idx]) = Except.error ParseErr.panicIndex ∧
    st.parse_line (tagLine 45 [toHex idx]) = Except.error ParseErr.panicIndex := by
  have hnone : st.data.allocation_infos.get? idx = none := by
    rw [List.get?_eq_getElem?]
    exact List.getElem?_eq_none hge
  constructor
  · have hsplit : splitWs (tagLine 43 [toHex idx]) = [[43], toHex idx] := by
      rw [splitWs_tagLine 43 (by decide) [toHex idx]
        (fun t ht => by simp only [List.mem_singleton] at ht; exact ht ▸ toHex_cleanTok idx)]
    unfold Parser.parse_line
    rw [hsplit]
    simp only [parseHex_toHex U64 idx hlt, hnone]
    simp
  · have hsplit : splitWs (tagLine 45 [toHex idx]) = [[45], toHex idx] := by
      rw [splitWs_tagLine 45 (by decide) [toHex idx]
        (fun t ht => by simp only [List.mem_singleton] at ht; exact ht ▸ toHex_cleanTok idx)]
    unfold Parser.parse_line
    rw [hsplit]
    simp only [parseHex_toHex U64 idx hlt, hnone]
    simp

/-- Witness for C8 (amended) at a concrete input. -/
theorem c8_info_idx_out_of_range_witness :
    (3 : Nat) < U64 ∧ Parser.init.data.allocation_infos.length ≤ 3 ∧
    (Parser.init.parse_line (tagLine 43 [toHex 3]) = Except.error ParseErr.panicIndex ∧
     Parser.init.parse_line (tagLine 45 [toHex 3]) = Except.error ParseErr.panicIndex) :=
  ⟨by decide, by decide, c8_info_idx_out_of_range Parser.init 3 (by decide) (by decide)⟩

/-- **C3.** Handling `Image{name, start_address f= 0x1000, size = 0x1000}`
registers the module over the half-open range `[0x1000, 0x3000)` — end =
`2*start + size`, not `start + size` — because `handle_record` passes
`start + size` as the `size` argument of `Resolver::add_module`, which
itself computes `end = start + size_arg`.  Consequently the range query at
ip `0x2800`, which lies outside `[start, start+size)`, still finds the
module. -/
theorem c3_image_registration_bug :
    ((Interpreter.init.handle_record ⟨fun _ => true, fun _ _ => []⟩
        (Record.image [109] 4096 4096)).map
      (fun st => ((rangeGet st.resolver.modules 10240).map
        (fun m => (m.id, m.start_address, m.end_address))))) =
      Except.ok (some (1, 4096, 12288)) ∧
    ¬(10240 < 4096 + 4096) := by
  constructor
  · rfl
  · decide

theorem write_string_keeps (st : Interpreter) (v : Bytes) :
    (st.write_string v).2.pointers = st.pointers ∧
    (st.write_string v).2.stats = st.stats ∧
    (st.write_string v).2.last_ptr = st.last_ptr := by
  unfold Interpreter.write_string
  cases hp : position (fun s => s == v) st.strings with
  | none => exact ⟨rfl, rfl, rfl⟩
  | some id => exact ⟨rfl, rfl, rfl⟩

theorem add_alloc_keeps (st : Interpreter) (size parent : Nat) :
    (st.add_alloc size parent).2.pointers = st.pointers ∧
    (st.add_alloc size parent).2.stats = st.stats ∧
    (st.add_alloc size parent).2.last_ptr = st.last_ptr := by
  unfold Interpreter.add_alloc
  cases hp : position (fun p => p == (size, parent)) st.allocation_info with
  | none => exact ⟨rfl, rfl, rfl⟩
  | some idx => exact ⟨rfl, rfl, rfl⟩

theorem build_frames_keeps (locs : List Location) :
    ∀ (st : Interpreter) (r : List Frame × Interpreter),
    st.build_frames locs = Except.ok r →
    r.2.pointers = st.pointers ∧ r.2.stats = st.stats ∧ r.2.last_ptr = st.last_ptr := by
  induction locs with
  | nil =>
    intro st r h
    unfold Interpreter.build_frames at h
    simp only [Except.ok.injEq] at h
    subst h
    exact ⟨rfl, rfl, rfl⟩
  | cons loc rest ih =>
    intro st r h
    obtain ⟨fname, ofile, oline⟩ := loc
    unfold Interpreter.build_frames at h
    cases ofile with
    | some file =>
      cases oline with
      | none =>
        exact absurd
          (h : Except.error (InterpErr.custom "empty line number") = Except.ok r) (by simp)
      | some ln =>
        obtain ⟨hp1, hs1, hl1⟩ := write_string_keeps st fname
        obtain ⟨hp2, hs2, hl2⟩ := write_string_keeps (st.write_string fname).2 file
        have h3 : (match ((st.write_string fname).2.write_string file).2.build_frames rest with
            | Except.ok (more, st3) => Except.ok (Frame.multiple (st.write_string fname).1
                ((st.write_string fname).2.write_string file).1 ln :: more, st3)
            | Except.error e => Except.error e) = Except.ok r := h
        cases hbf : ((st.write_string fname).2.write_string file).2.build_frames rest with
        | error e =>
          rw [hbf] at h3
          exact absurd (h3 : (Except.error e : Except InterpErr (List Frame × Interpreter)) =
            Except.ok r) (by simp)
        | ok r3 =>
          obtain ⟨more, st3⟩ := r3
          rw [hbf] at h3
          have h4 : Except.ok (Frame.multiple (st.write_string fname).1
                ((st.write_string fname).2.write_string file).1 ln :: more, st3) =
              Except.ok r := h3
          simp only [Except.ok.injEq] at h4
          subst h4
          obtain ⟨hp3, hs3, hl3⟩ := ih _ _ hbf
          exact ⟨by show st3.pointers = _; rw [show (more, st3).2 = st3 from rfl] at hp3;
                    rw [hp3, hp2, hp1],
                 by show st3.stats = _; rw [show (more, st3).2 = st3 from rfl] at hs3;
                    rw [hs3, hs2, hs1],
                 by show st3.last_ptr = _; rw [show (more, st3).2 = st3 from rfl] at hl3;
                    rw [hl3, hl2, hl1]⟩
    | none =>
      obtain ⟨hp1, hs1, hl1⟩ := write_string_keeps st fname
      have h3 : (match (st.write_string fname).2.build_frames rest with
          | Except.ok (more, st2) =>
            Except.ok (Frame.single (st.write_string fname).1 :: more, st2)
          | Except.error e => Except.error e) = Except.ok r := h
      cases hbf : (st.write_string fname).2.build_frames rest with
      | error e =>
        rw [hbf] at h3
        exact absurd (h3 : (Except.error e : Except InterpErr (List Frame × Interpreter)) =
          Except.ok r) (by simp)
      | ok r3 =>
        obtain ⟨more, st3⟩ := r3
        rw [hbf] at h3
        have h4 : Except.ok (Frame.single (st.write_string fname).1 :: more, st3) =
            Except.ok r := h3
        simp only [Except.ok.injEq] at h4
        subst h4
        obtain ⟨hp3, hs3, hl3⟩ := ih _ _ hbf
        exact ⟨by show st3.pointers = _; rw [show (more, st3).2 = st3 from rfl] at hp3;
                  rw [hp3, hp1],
               by show st3.stats = _; rw [show (more, st3).2 = st3 from rfl] at hs3;
                  rw [hs3, hs1],
               by show st3.last_ptr = _; rw [show (more, st3).2 = st3 from rfl] at hl3;
                  rw [hl3, hl1]⟩

theorem add_frame_keeps (st : Interpreter) (env : LoaderEnv) (ip : Nat)
    (r : Nat × Interpreter) (h : st.add_frame env ip = Except.ok r) :
    r.2.pointers = st.pointers ∧ r.2.stats = st.stats ∧ r.2.last_ptr = st.last_ptr := by
  unfold Interpreter.add_frame at h
  cases hp : position (fun f => f == ip) st.frames with
  | some id =>
    rw [hp] at h
    simp only [Except.ok.injEq] at h
    subst h
    exact ⟨rfl, rfl, rfl⟩
  | none =>
    rw [hp] at h
    have h1 : (match ({ st with frames := st.frames ++ [ip] } : Interpreter).resolver.lookup env ip with
        | (res2, rv2) =>
          match res2 with
          | none => Except.error (InterpErr.custom "ip locations not found")
          | some result =>
            match ({ st with frames := st.frames ++ [ip], resolver := rv2 } : Interpreter).build_frames result.locations with
            | Except.error e => Except.error e
            | Except.ok (frames2, st2) => Except.ok (st.frames.length + 1,
                { st2 with output := st2.output ++
                  [instruction_line ip result.module_id frames2] })) = Except.ok r := h
    cases hres : ({ st with frames := st.frames ++ [ip] } :
        Interpreter).resolver.lookup env ip with
    | mk res resolver2 =>
      rw [hres] at h1
      cases res with
      | none =>
        exact absurd (h1 : (Except.error (InterpErr.custom "ip locations not found") :
          Except InterpErr (Nat × Interpreter)) = Except.ok r) (by simp)
      | some result =>
        have h3 : (match ({ st with frames := st.frames ++ [ip], resolver := resolver2 } : Interpreter).build_frames result.locations with
            | Except.error e => Except.error e
            | Except.ok (frames2, st2) => Except.ok (st.frames.length + 1,
                { st2 with output := st2.output ++
                  [instruction_line ip result.module_id frames2] })) = Except.ok r := h1
        cases hbf : ({ st with frames := st.frames ++ [ip], resolver := resolver2 } :
            Interpreter).build_frames result.locations with
        | error e =>
          rw [hbf] at h3
          exact absurd (h3 : (Except.error e : Except InterpErr (Nat × Interpreter)) =
            Except.ok r) (by simp)
        | ok r3 =>
          obtain ⟨frames2, st2⟩ := r3
          rw [hbf] at h3
          have h4 : Except.ok (st.frames.length + 1,
              { st2 with output := st2.output ++
                [instruction_line ip result.module_id frames2] }) = Except.ok r := h3
          simp only [Except.ok.injEq] at h4
          subst h4
          obtain ⟨hp3, hs3, hl3⟩ := build_frames_keeps result.locations _ _ hbf
          exact ⟨by show st2.pointers = _;
                    rw [show (frames2, st2).2 = st2 from rfl] at hp3; rw [hp3],
                 by show st2.stats = _;
                    rw [show (frames2, st2).2 = st2 from rfl] at hs3; rw [hs3],
                 by show st2.last_ptr = _;
                    rw [show (frames2, st2).2 = st2 from rfl] at hl3; rw [hl3]⟩

theorem handle_record_keeps (env : LoaderEnv) (r : Record) (st st2 : Interpreter)
    (hr : st.handle_record env r = Except.ok st2) (hnr : r.touchesPtr = false) :
    st2.pointers = st.pointers ∧ st2.stats = st.stats ∧ st2.last_ptr = st.last_ptr := by
  cases r with
  | version v =>
    have h : Except.ok ({ st with output := st.output ++ [tagLine 118 [toHex v, toHex 3]] } :
        Interpreter) = Except.ok st2 := hr
    simp only [Except.ok.injEq] at h
    subst h
    exact ⟨rfl, rfl, rfl⟩
  | exec cmd =>
    have h : Except.ok ({ st with output := st.output ++ [tagLine 88 [cmd]] } :
        Interpreter) = Except.ok st2 := hr
    simp only [Except.ok.injEq] at h
    subst h
    exact ⟨rfl, rfl, rfl⟩
  | pageInfo size pages =>
    have h : Except.ok ({ st with output := st.output ++ [tagLine 73 [toHex size, toHex pages]] } :
        Interpreter) = Except.ok st2 := hr
    simp only [Except.ok.injEq] at h
    subst h
    exact ⟨rfl, rfl, rfl⟩
  | duration d =>
    have h : Except.ok ({ st with output := st.output ++ [tagLine 99 [toHex d]] } :
        Interpreter) = Except.ok st2 := hr
    simp only [Except.ok.injEq] at h
    subst h
    exact ⟨rfl, rfl, rfl⟩
  | rss v =>
    have h : Except.ok ({ st with output := st.output ++ [tagLine 82 [toHex v]] } :
        Interpreter) = Except.ok st2 := hr
    simp only [Except.ok.injEq] at h
    subst h
    exact ⟨rfl, rfl, rfl⟩
  | alloc ptr size parent => exact absurd hnr (by simp [Record.touchesPtr])
  | free ptr => exact absurd hnr (by simp [Record.touchesPtr])
  | image name start size =>
    obtain ⟨hp1, hs1, hl1⟩ := write_string_keeps st name
    have h1 : (match (st.write_string name).2.resolver.add_module env (st.write_string name).1 name start (start + size) with
        | Except.ok r2 => Except.ok ({ (st.write_string name).2 with resolver := r2 } : Interpreter)
        | Except.error e => Except.ok (st.write_string name).2) = Except.ok st2 := hr
    cases hadd : (st.write_string name).2.resolver.add_module env
        (st.write_string name).1 name start (start + size) with
    | ok r2 =>
      rw [hadd] at h1
      have h2 : Except.ok ({ (st.write_string name).2 with resolver := r2 } : Interpreter) =
          Except.ok st2 := h1
      simp only [Except.ok.injEq] at h2
      subst h2
      exact ⟨hp1, hs1, hl1⟩
    | error e =>
      rw [hadd] at h1
      have h2 : Except.ok (st.write_string name).2 = Except.ok st2 := h1
      simp only [Except.ok.injEq] at h2
      subst h2
      exact ⟨hp1, hs1, hl1⟩
  | trace ip parent =>
    have h1 : (match st.add_frame env ip with
        | Except.error e => Except.error e
        | Except.ok (ip_id, st1) => Except.ok ({ st1 with
            output := st1.output ++ [tagLine 116 [toHex ip_id, toHex parent]] } :
            Interpreter)) = Except.ok st2 := hr
    cases haf : st.add_frame env ip with
    | error e =>
      rw [haf] at h1
      exact absurd (h1 : (Except.error e : Except InterpErr Interpreter) = Except.ok st2)
        (by simp)
    | ok r2 =>
      obtain ⟨ip_id, st1⟩ := r2
      rw [haf] at h1
      have h2 : Except.ok ({ st1 with
          output := st1.output ++ [tagLine 116 [toHex ip_id, toHex parent]] } :
          Interpreter) = Except.ok st2 := h1
      simp only [Except.ok.injEq] at h2
      subst h2
      obtain ⟨hp1, hs1, hl1⟩ := add_frame_keeps st env ip _ haf
      exact ⟨by show st1.pointers = _;
                rw [show (ip_id, st1).2 = st1 from rfl] at hp1; rw [hp1],
             by show st1.stats = _;
                rw [show (ip_id, st1).2 = st1 from rfl] at hs1; rw [hs1],
             by show st1.last_ptr = _;
                rw [show (ip_id, st1).2 = st1 from rfl] at hl1; rw [hl1]⟩

theorem handle_record_alloc (env : LoaderEnv) (st : Interpreter) (ptr size parent : Nat)
    (st2 : Interpreter)
    (hr : st.handle_record env (Record.alloc ptr size parent) = Except.ok st2)
    (hwf : TableWF st.pointers) :
    TableWF st2.pointers ∧
    (∃ idx, ∀ q, tableMap st2.pointers q = if q = ptr then some idx
      else tableMap st.pointers q) ∧
    st2.stats.tmp_allocations = st.stats.tmp_allocations ∧
    st2.last_ptr = ptr := by
  set stA : Interpreter := { st with stats := { st.stats with
    allocations := add64 st.stats.allocations 1,
    leaked_allocations := add64 st.stats.leaked_allocations 1 } } with hstA
  have h1 : Except.ok ({ (stA.add_alloc size parent).2.add_pointer ptr (stA.add_alloc size parent).1 with last_ptr := ptr, output := ((stA.add_alloc size parent).2.add_pointer ptr (stA.add_alloc size parent).1).output ++ [tagLine 43 [toHex (stA.add_alloc size parent).1]] } : Interpreter) = Except.ok st2 := hr
  simp only [Except.ok.injEq] at h1
  obtain ⟨hpA, hsA, hlA⟩ := add_alloc_keeps stA size parent
  have hwfA : TableWF (stA.add_alloc size parent).2.pointers := by
    rw [hpA]
    exact hwf
  subst h1
  refine ⟨?_, ⟨(stA.add_alloc size parent).1, fun q => ?_⟩, ?_, rfl⟩
  · show TableWF ((stA.add_alloc size parent).2.add_pointer ptr
      (stA.add_alloc size parent).1).pointers
    exact add_pointer_wf _ ptr _ hwfA
  · show tableMap ((stA.add_alloc size parent).2.add_pointer ptr
      (stA.add_alloc size parent).1).pointers q = _
    rw [add_pointer_tableMap _ ptr _ hwfA q]
    by_cases hq : q = ptr
    · rw [if_pos hq, if_pos hq]
    · rw [if_neg hq, if_neg hq, hpA]
  · show ((stA.add_alloc size parent).2.add_pointer ptr
      (stA.add_alloc size parent).1).stats.tmp_allocations = _
    rw [congrArg Interpreter.stats
      (add_pointer_frame (stA.add_alloc size parent).2 ptr (stA.add_alloc size parent).1)]
    show (stA.add_alloc size parent).2.stats.tmp_allocations = _
    rw [hsA]

theorem handle_record_free (env : LoaderEnv) (st : Interpreter) (ptr : Nat)
    (st2 : Interpreter) (hr : st.handle_record env (Record.free ptr) = Except.ok st2)
    (hwf : TableWF st.pointers) :
    TableWF st2.pointers ∧
    (∀ q, tableMap st2.pointers q = if q = ptr then none else tableMap st.pointers q) ∧
    st2.last_ptr = 0 ∧
    st2.stats.tmp_allocations =
      (if (tableMap st.pointers ptr).isSome = true ∧ st.last_ptr = ptr
       then add64 st.stats.tmp_allocations 1 else st.stats.tmp_allocations) := by
  have h1 : (match ({ st with last_ptr := 0 } : Interpreter).take_pointer ptr with
      | (none, stx) => Except.ok stx
      | (some allocation_idx, stx) => Except.ok ({ stx with
          output := stx.output ++ [tagLine 45 [toHex allocation_idx]],
          stats := { stx.stats with
            tmp_allocations := if (st.last_ptr == ptr) = true
              then add64 stx.stats.tmp_allocations 1 else stx.stats.tmp_allocations,
            leaked_allocations := sub64 stx.stats.leaked_allocations 1 } } :
          Interpreter)) = Except.ok st2 := hr
  have hwf1 : TableWF ({ st with last_ptr := 0 } : Interpreter).pointers := hwf
  obtain ⟨hfst, hwf2, hmap⟩ := take_pointer_spec ({ st with last_ptr := 0 } :
    Interpreter) ptr hwf1
  have hframe := take_pointer_frame ({ st with last_ptr := 0 } : Interpreter) ptr
  cases htp : ({ st with last_ptr := 0 } : Interpreter).take_pointer ptr with
  | mk ores stx =>
    rw [htp] at h1 hfst hwf2 hframe
    rw [htp] at hmap
    have hfst2 : ores = tableMap st.pointers ptr := hfst
    have hstats : stx.stats = st.stats := by
      have h4 := congrArg Interpreter.stats hframe
      exact h4
    have hlp : stx.last_ptr = 0 := by
      have h4 := congrArg Interpreter.last_ptr hframe
      exact h4
    cases ores with
    | none =>
      have h2 : Except.ok stx = Except.ok st2 := h1
      simp only [Except.ok.injEq] at h2
      subst h2
      refine ⟨hwf2, fun q => ?_, hlp, ?_⟩
      · have h3 := hmap q
        by_cases hq : q = ptr
        · subst hq
          rw [if_pos rfl] at h3 ⊢
          exact h3
        · rw [if_neg hq] at h3 ⊢
          exact h3
      · rw [hstats, ← hfst2]
        rw [if_neg (by simp)]
    | some aidx =>
      have h2 : Except.ok ({ stx with
          output := stx.output ++ [tagLine 45 [toHex aidx]],
          stats := { stx.stats with
            tmp_allocations := if (st.last_ptr == ptr) = true
              then add64 stx.stats.tmp_allocations 1 else stx.stats.tmp_allocations,
            leaked_allocations := sub64 stx.stats.leaked_allocations 1 } } :
          Interpreter) = Except.ok st2 := h1
      simp only [Except.ok.injEq] at h2
      subst h2
      refine ⟨hwf2, fun q => ?_, hlp, ?_⟩
      · have h3 := hmap q
        by_cases hq : q = ptr
        · subst hq
          rw [if_pos rfl] at h3 ⊢
          exact h3
        · rw [if_neg hq] at h3 ⊢
          exact h3
      · show (if (st.last_ptr == ptr) = true
            then add64 stx.stats.tmp_allocations 1 else stx.stats.tmp_allocations) = _
        rw [hstats]
        have hsome : (tableMap st.pointers ptr).isSome = true := by
          rw [← hfst2]
          rfl
        cases hb : st.last_ptr == ptr with
        | true =>
          have heq : st.last_ptr = ptr := by simpa using hb
          rw [if_pos rfl, if_pos ⟨hsome, heq⟩]
        | false =>
          have hne : ¬ st.last_ptr = ptr := by simpa using hb
          rw [if_neg (by simp), if_neg (fun hc => hne hc.2)]

theorem run_tmp_count (env : LoaderEnv) (rs : List Record) :
    ∀ (st : Interpreter) (live : List Nat) (st2 : Interpreter),
    TableWF st.pointers →
    (∀ p, (tableMap st.pointers p).isSome = true ↔ p ∈ live) →
    live.Nodup →
    st.run env rs = Except.ok st2 →
    st.stats.tmp_allocations + specTmpCount st.last_ptr live rs < U64 →
    st2.stats.tmp_allocations = st.stats.tmp_allocations + specTmpCount st.last_ptr live rs := by
  induction rs with
  | nil =>
    intro st live st2 hwf hlive hnd hrun hbound
    have h : Except.ok st = Except.ok st2 := hrun
    simp only [Except.ok.injEq] at h
    subst h
    show st.stats.tmp_allocations = st.stats.tmp_allocations + 0
    omega
  | cons r rs ih =>
    intro st live st2 hwf hlive hnd hrun hbound
    have h1 : (match st.handle_record env r with
        | Except.ok st3 => st3.run env rs
        | Except.error e => Except.error e) = Except.ok st2 := hrun
    cases r with
    | version v =>
      cases hh : st.handle_record env (Record.version v) with
      | error e =>
        rw [hh] at h1
        exact absurd (h1 : (Except.error e : Except InterpErr Interpreter) = Except.ok st2)
          (by simp)
      | ok st3 =>
        rw [hh] at h1
        have h2 : st3.run env rs = Except.ok st2 := h1
        obtain ⟨hp3, hs3, hl3⟩ := handle_record_keeps env _ st st3 hh rfl
        have hwf3 : TableWF st3.pointers := by rw [hp3]; exact hwf
        have hlive3 : ∀ q, (tableMap st3.pointers q).isSome = true ↔ q ∈ live := by
          intro q
          rw [hp3]
          exact hlive q
        have hb3 : st3.stats.tmp_allocations + specTmpCount st3.last_ptr live rs < U64 := by
          rw [hs3, hl3]
          exact hbound
        have hfin := ih st3 live st2 hwf3 hlive3 hnd h2 hb3
        rw [hfin, hs3, hl3]
        rfl
    | exec cmd =>
      cases hh : st.handle_record env (Record.exec cmd) with
      | error e =>
        rw [hh] at h1
        exact absurd (h1 : (Except.error e : Except InterpErr Interpreter) = Except.ok st2)
          (by simp)
      | ok st3 =>
        rw [hh] at h1
        have h2 : st3.run env rs = Except.ok st2 := h1
        obtain ⟨hp3, hs3, hl3⟩ := handle_record_keeps env _ st st3 hh rfl
        have hwf3 : TableWF st3.pointers := by rw [hp3]; exact hwf
        have hlive3 : ∀ q, (tableMap st3.pointers q).isSome = true ↔ q ∈ live := by
          intro q
          rw [hp3]
          exact hlive q
        have hb3 : st3.stats.tmp_allocations + specTmpCount st3.last_ptr live rs < U64 := by
          rw [hs3, hl3]
          exact hbound
        have hfin := ih st3 live st2 hwf3 hlive3 hnd h2 hb3
        rw [hfin, hs3, hl3]
        rfl
    | image name start size =>
      cases hh : st.handle_record env (Record.image name start size) with
      | error e =>
        rw [hh] at h1
        exact absurd (h1 : (Except.error e : Except InterpErr Interpreter) = Except.ok st2)
          (by simp)
      | ok st3 =>
        rw [hh] at h1
        have h2 : st3.run env rs = Except.ok st2 := h1
        obtain ⟨hp3, hs3, hl3⟩ := handle_record_keeps env _ st st3 hh rfl
        have hwf3 : TableWF st3.pointers := by rw [hp3]; exact hwf
        have hlive3 : ∀ q, (tableMap st3.pointers q).isSome = true ↔ q ∈ live := by
          intro q
          rw [hp3]
          exact hlive q
        have hb3 : st3.stats.tmp_allocations + specTmpCount st3.last_ptr live rs < U64 := by
          rw [hs3, hl3]
          exact hbound
        have hfin := ih st3 live st2 hwf3 hlive3 hnd h2 hb3
        rw [hfin, hs3, hl3]
        rfl
    | pageInfo size pages =>
      cases hh : st.handle_record env (Record.pageInfo size pages) with
      | error e =>
        rw [hh] at h1
        exact absurd (h1 : (Except.error e : Except InterpErr Interpreter) = Except.ok st2)
          (by simp)
      | ok st3 =>
        rw [hh] at h1
        have h2 : st3.run env rs = Except.ok st2 := h1
        obtain ⟨hp3, hs3, hl3⟩ := handle_record_keeps env _ st st3 hh rfl
        have hwf3 : TableWF st3.pointers := by rw [hp3]; exact hwf
        have hlive3 : ∀ q, (tableMap st3.pointers q).isSome = true ↔ q ∈ live := by
          intro q
          rw [hp3]
          exact hlive q
        have hb3 : st3.stats.tmp_allocations + specTmpCount st3.last_ptr live rs < U64 := by
          rw [hs3, hl3]
          exact hbound
        have hfin := ih st3 live st2 hwf3 hlive3 hnd h2 hb3
        rw [hfin, hs3, hl3]
        rfl
    | trace ip parent =>
      cases hh : st.handle_record env (Record.trace ip parent) with
      | error e =>
        rw [hh] at h1
        exact absurd (h1 : (Except.error e : Except InterpErr Interpreter) = Except.ok st2)
          (by simp)
      | ok st3 =>
        rw [hh] at h1
        have h2 : st3.run env rs = Except.ok st2 := h1
        obtain ⟨hp3, hs3, hl3⟩ := handle_record_keeps env _ st st3 hh rfl
        have hwf3 : TableWF st3.pointers := by rw [hp3]; exact hwf
        have hlive3 : ∀ q, (tableMap st3.pointers q).isSome = true ↔ q ∈ live := by
          intro q
          rw [hp3]
          exact hlive q
        have hb3 : st3.stats.tmp_allocations + specTmpCount st3.last_ptr live rs < U64 := by
          rw [hs3, hl3]
          exact hbound
        have hfin := ih st3 live st2 hwf3 hlive3 hnd h2 hb3
        rw [hfin, hs3, hl3]
        rfl
    | duration d =>
      cases hh : st.handle_record env (Record.duration d) with
      | error e =>
        rw [hh] at h1
        exact absurd (h1 : (Except.error e : Except InterpErr Interpreter) = Except.ok st2)
          (by simp)
      | ok st3 =>
        rw [hh] at h1
        have h2 : st3.run env rs = Except.ok st2 := h1
        obtain ⟨hp3, hs3, hl3⟩ := handle_record_keeps env _ st st3 hh rfl
        have hwf3 : TableWF st3.pointers := by rw [hp3]; exact hwf
        have hlive3 : ∀ q, (tableMap st3.pointers q).isSome = true ↔ q ∈ live := by
          intro q
          rw [hp3]
          exact hlive q
        have hb3 : st3.stats.tmp_allocations + specTmpCount st3.last_ptr live rs < U64 := by
          rw [hs3, hl3]
          exact hbound
        have hfin := ih st3 live st2 hwf3 hlive3 hnd h2 hb3
        rw [hfin, hs3, hl3]
        rfl
    | rss v =>
      cases hh : st.handle_record env (Record.rss v) with
      | error e =>
        rw [hh] at h1
        exact absurd (h1 : (Except.error e : Except InterpErr Interpreter) = Except.ok st2)
          (by simp)
      | ok st3 =>
        rw [hh] at h1
        have h2 : st3.run env rs = Except.ok st2 := h1
        obtain ⟨hp3, hs3, hl3⟩ := handle_record_keeps env _ st st3 hh rfl
        have hwf3 : TableWF st3.pointers := by rw [hp3]; exact hwf
        have hlive3 : ∀ q, (tableMap st3.pointers q).isSome = true ↔ q ∈ live := by
          intro q
          rw [hp3]
          exact hlive q
        have hb3 : st3.stats.tmp_allocations + specTmpCount st3.last_ptr live rs < U64 := by
          rw [hs3, hl3]
          exact hbound
        have hfin := ih st3 live st2 hwf3 hlive3 hnd h2 hb3
        rw [hfin, hs3, hl3]
        rfl
    | alloc ptr size parent =>
      cases hh : st.handle_record env (Record.alloc ptr size parent) with
      | error e =>
        rw [hh] at h1
        exact absurd (h1 : (Except.error e : Except InterpErr Interpreter) = Except.ok st2)
          (by simp)
      | ok st3 =>
        rw [hh] at h1
        have h2 : st3.run env rs = Except.ok st2 := h1
        obtain ⟨hwf3, ⟨idx, hmap3⟩, htmp3, hlp3⟩ :=
          handle_record_alloc env st ptr size parent st3 hh hwf
        have hlive3 : ∀ q, (tableMap st3.pointers q).isSome = true ↔
            q ∈ List.insert ptr live := by
          intro q
          rw [hmap3 q, List.mem_insert_iff]
          by_cases hq : q = ptr
          · rw [if_pos hq]
            simp [hq]
          · rw [if_neg hq]
            constructor
            · intro h
              exact Or.inr ((hlive q).mp h)
            · intro h
              exact (hlive q).mpr (h.resolve_left hq)
        have hnd3 : (List.insert ptr live).Nodup := hnd.insert
        have hb3 : st3.stats.tmp_allocations +
            specTmpCount st3.last_ptr (List.insert ptr live) rs < U64 := by
          rw [htmp3, hlp3]
          exact hbound
        have hfin := ih st3 (List.insert ptr live) st2 hwf3 hlive3 hnd3 h2 hb3
        rw [hfin, htmp3, hlp3]
        rfl
    | free ptr =>
      cases hh : st.handle_record env (Record.free ptr) with
      | error e =>
        rw [hh] at h1
        exact absurd (h1 : (Except.error e : Except InterpErr Interpreter) = Except.ok st2)
          (by simp)
      | ok st3 =>
        rw [hh] at h1
        have h2 : st3.run env rs = Except.ok st2 := h1
        obtain ⟨hwf3, hmap3, hlp3, htmp3⟩ := handle_record_free env st ptr st3 hh hwf
        have hlive3 : ∀ q, (tableMap st3.pointers q).isSome = true ↔
            q ∈ live.erase ptr := by
          intro q
          rw [hmap3 q, hnd.mem_erase_iff]
          by_cases hq : q = ptr
          · rw [if_pos hq]
            simp [hq]
          · rw [if_neg hq]
            constructor
            · intro h
              exact ⟨hq, (hlive q).mp h⟩
            · intro h
              exact (hlive q).mpr h.2
        have hnd3 : (live.erase ptr).Nodup := hnd.erase ptr
        have hcond : ((tableMap st.pointers ptr).isSome = true ∧ st.last_ptr = ptr) ↔
            (ptr ∈ live ∧ st.last_ptr = ptr) := by
          constructor
          · intro h
            exact ⟨(hlive ptr).mp h.1, h.2⟩
          · intro h
            exact ⟨(hlive ptr).mpr h.1, h.2⟩
        have hspec : specTmpCount st.last_ptr live (Record.free ptr :: rs) =
            (if ptr ∈ live ∧ st.last_ptr = ptr then 1 else 0) +
              specTmpCount 0 (live.erase ptr) rs := rfl
        rw [hspec] at hbound
        have hb3 : st3.stats.tmp_allocations +
            specTmpCount st3.last_ptr (live.erase ptr) rs < U64 := by
          rw [htmp3, hlp3]
          by_cases hc : (tableMap st.pointers ptr).isSome = true ∧ st.last_ptr = ptr
          · rw [if_pos hc]
            rw [if_pos (hcond.mp hc)] at hbound
            rw [add64_eq _ 1 (by omega)]
            omega
          · rw [if_neg hc]
            rw [if_neg (fun hm => hc (hcond.mpr hm))] at hbound
            omega
        have hfin := ih st3 (live.erase ptr) st2 hwf3 hlive3 hnd3 h2 hb3
        rw [hfin, htmp3, hlp3, hspec]
        by_cases hc : (tableMap st.pointers ptr).isSome = true ∧ st.last_ptr = ptr
        · rw [if_pos hc, if_pos (hcond.mp hc)]
          rw [if_pos (hcond.mp hc)] at hbound
          rw [add64_eq _ 1 (by omega)]
          omega
        · rw [if_neg hc, if_neg (fun hm => hc (hcond.mpr hm))]
          rw [if_neg (fun hm => hc (hcond.mpr hm))] at hbound
          omega

/-- **C2 (amended).** Temporary classification, as the Interpreter actually
implements it: `last_ptr` holds the pointer of the most recent `Alloc`; it is
reset to `0` by EVERY `Free` (matching or not) and is NOT touched by any
other event; a `Free` is counted in `stats.tmp_allocations` iff its pointer
is live in the split-pointer table and equals `last_ptr` at that moment
(`specTmpCount`).  The original claim is wrong on two points: non-alloc/free
events do not reset `last_ptr`, and the Parser end of the pipeline computes
`total.temporary` by a different (bucket-index-based) rule that diverges —
see `c2_counterexample`. -/
theorem c2_temporary_rule (env : LoaderEnv) (rs : List Record) (st2 : Interpreter)
    (hrun : Interpreter.init.run env rs = Except.ok st2)
    (hbound : specTmpCount 0 [] rs < U64) :
    st2.stats.tmp_allocations = specTmpCount 0 [] rs := by
  have h := run_tmp_count env rs Interpreter.init [] st2 TableWF_empty
    (fun p => by
      rw [show tableMap Interpreter.init.pointers p = none from rfl]
      simp)
    List.nodup_nil hrun
    (by
      show 0 + specTmpCount 0 [] rs < U64
      omega)
  rw [h]
  show 0 + specTmpCount 0 [] rs = specTmpCount 0 [] rs
  omega

/-- Witness for C2 (amended) at a concrete input: one alloc immediately
freed; the interpreter counts exactly one temporary allocation. -/
theorem c2_temporary_rule_witness :
    Interpreter.init.run envTrivial [Record.alloc 5 8 1, Record.free 5] =
      Except.ok (⟨[[97, 32, 56, 32, 49], [43, 32, 48], [45, 32, 48]], [], [], [], [(8, 1)],
        Resolver.new, ⟨1, 0, 1⟩, 0⟩ : Interpreter) ∧
    specTmpCount 0 [] [Record.alloc 5 8 1, Record.free 5] < U64 ∧
    (⟨[[97, 32, 56, 32, 49], [43, 32, 48], [45, 32, 48]], [], [], [], [(8, 1)],
        Resolver.new, ⟨1, 0, 1⟩, 0⟩ : Interpreter).stats.tmp_allocations =
      specTmpCount 0 [] [Record.alloc 5 8 1, Record.free 5] :=
  ⟨rfl, by decide,
   c2_temporary_rule envTrivial [Record.alloc 5 8 1, Record.free 5] _ rfl (by decide)⟩

/-- **C2 (counterexample to the original claim).** For the stream
`[Alloc 100 8 1, Alloc 200 8 1, Free 100]` the freed pointer does NOT match
the immediately preceding `Alloc` (an `Alloc 200` intervenes), so the
claimed rule classifies no free as temporary — and the Interpreter indeed
counts 0 — but the Parser end of the pipeline reports
`total.temporary = 1`, because both allocations share one
`(size, trace_idx)` signature and the Parser compares bucket indices, not
pointers.  The classification is therefore NOT consistent over the whole
pipeline as the claim asserts. -/
theorem c2_counterexample :
    (exec_records envTrivial c2recs).map (fun st => st.stats.tmp_allocations) =
      Except.ok 0 ∧
    (pipeline envTrivial c2recs).map (Except.map (fun d => d.total.temporary)) =
      Except.ok (Except.ok 1) ∧
    claimTemporaryCount none c2recs = 0 :=
  ⟨rfl, rfl, rfl⟩

theorem add64_lt (a b : Nat) : add64 a b < U64 := Nat.mod_lt _ (by decide)

theorem add_allocation_total (st : Parser) (t : Nat) :
    (st.add_allocation t).2.data.total = st.data.total := by
  unfold Parser.add_allocation
  cases h : st.data.allocation_indices.lookup t with
  | some idx => rfl
  | none => rfl

theorem parse_line_peak (st st2 : Parser) (line : Bytes)
    (hok : st.parse_line line = Except.ok st2)
    (hsafe : lineSafe st line = true)
    (hinv : st.data.total.leaked ≤ st.data.total.peak)
    (hleak : st.data.total.leaked < U64) :
    st2.data.total.peak = max st.data.total.peak st2.data.total.leaked ∧
    st2.data.total.leaked ≤ st2.data.total.peak ∧
    st2.data.total.leaked < U64 := by
  have hsame : ∀ (s3 : Parser), s3.data.total = st.data.total →
      s3.data.total.peak = max st.data.total.peak s3.data.total.leaked ∧
      s3.data.total.leaked ≤ s3.data.total.peak ∧ s3.data.total.leaked < U64 := by
    intro s3 h3
    rw [h3]
    exact ⟨(Nat.max_eq_left hinv).symm, hinv, hleak⟩
  unfold Parser.parse_line at hok
  unfold lineSafe at hsafe
  cases hsplit : splitWs line with
  | nil =>
    rw [hsplit] at hok
    have h2 : Except.ok st = Except.ok st2 := hok
    simp only [Except.ok.injEq] at h2
    subst h2
    exact hsame st rfl
  | cons first rest =>
    rw [hsplit] at hok hsafe
    by_cases h115 : first = [115]
    · subst h115
      cases rest with
      | nil =>
        exact absurd (hok : Except.error ParseErr.invalidFormat = Except.ok st2) (by simp)
      | cons lenTok tail =>
        have hok2 : (match parseHex U64 lenTok with
            | none => Except.error ParseErr.invalidFormat
            | some strLen =>
              if strLen ≤ line.length then
                Except.ok ({ st with data := { st.data with
                  strings := st.data.strings ++ [line.drop (line.length - strLen)] } } : Parser)
              else Except.error ParseErr.panicIndex) = Except.ok st2 := hok
        cases hph : parseHex U64 lenTok with
        | none =>
          rw [hph] at hok2
          exact absurd (hok2 : Except.error ParseErr.invalidFormat = Except.ok st2) (by simp)
        | some strLen =>
          rw [hph] at hok2
          have hok3 : (if strLen ≤ line.length then
              Except.ok ({ st with data := { st.data with
                strings := st.data.strings ++ [line.drop (line.length - strLen)] } } : Parser)
              else Except.error ParseErr.panicIndex) = Except.ok st2 := hok2
          by_cases hle : strLen ≤ line.length
          · rw [if_pos hle] at hok3
            simp only [Except.ok.injEq] at hok3
            subst hok3
            exact hsame _ rfl
          · rw [if_neg hle] at hok3
            exact absurd hok3 (by simp)
    · by_cases h116 : first = [116]
      · subst h116
        cases rest with
        | nil =>
          exact absurd (hok : Except.error ParseErr.invalidFormat = Except.ok st2) (by simp)
        | cons ipTok rest2 =>
          cases rest2 with
          | nil =>
            exact absurd (hok : Except.error ParseErr.invalidFormat = Except.ok st2) (by simp)
          | cons parentTok tail =>
            have hok2 : (match parseHex U64 ipTok, parseHex U64 parentTok with
                | some ip_idx, some parent_idx =>
                  Except.ok ({ st with data := { st.data with
                    traces := st.data.traces ++ [⟨ip_idx, parent_idx⟩] } } : Parser)
                | _, _ => Except.error ParseErr.invalidFormat) = Except.ok st2 := hok
            cases hp1 : parseHex U64 ipTok with
            | none =>
              rw [hp1] at hok2
              exact absurd (hok2 : Except.error ParseErr.invalidFormat = Except.ok st2)
                (by simp)
            | some ipIdx =>
              rw [hp1] at hok2
              cases hp2 : parseHex U64 parentTok with
              | none =>
                rw [hp2] at hok2
                exact absurd (hok2 : Except.error ParseErr.invalidFormat = Except.ok st2)
                  (by simp)
              | some parentIdx =>
                rw [hp2] at hok2
                have hok3 : Except.ok ({ st with data := { st.data with
                    traces := st.data.traces ++ [⟨ipIdx, parentIdx⟩] } } : Parser) =
                    Except.ok st2 := hok2
                simp only [Except.ok.injEq] at hok3
                subst hok3
                exact hsame _ rfl
      · by_cases h105 : first = [105]
        · subst h105
          cases rest with
          | nil =>
            exact absurd (hok : Except.error ParseErr.invalidFormat = Except.ok st2) (by simp)
          | cons ipTok rest2 =>
            cases rest2 with
            | nil =>
              exact absurd (hok : Except.error ParseErr.invalidFormat = Except.ok st2)
                (by simp)
            | cons modTok frameToks =>
              have hok2 : (match parseHex U64 ipTok, parseHex U64 modTok with
                  | some ip, some module_idx =>
                    (match parse_frames frameToks with
                    | Except.error e => Except.error e
                    | Except.ok [] => Except.error ParseErr.invalidFormat
                    | Except.ok (f :: inl) =>
                      Except.ok ({ st with data := { st.data with
                        instruction_pointers := st.data.instruction_pointers ++
                          [⟨ip, module_idx, f, inl⟩] } } : Parser))
                  | _, _ => Except.error ParseErr.invalidFormat) = Except.ok st2 := hok
              cases hp1 : parseHex U64 ipTok with
              | none =>
                rw [hp1] at hok2
                exact absurd (hok2 : Except.error ParseErr.invalidFormat = Except.ok st2)
                  (by simp)
              | some ip =>
                rw [hp1] at hok2
                cases hp2 : parseHex U64 modTok with
                | none =>
                  rw [hp2] at hok2
                  exact absurd (hok2 : Except.error ParseErr.invalidFormat = Except.ok st2)
                    (by simp)
                | some module_idx =>
                  rw [hp2] at hok2
                  have hok3 : (match parse_frames frameToks with
                      | Except.error e => Except.error e
                      | Except.ok [] => Except.error ParseErr.invalidFormat
                      | Except.ok (f :: inl) =>
                        Except.ok ({ st with data := { st.data with
                          instruction_pointers := st.data.instruction_pointers ++
                            [⟨ip, module_idx, f, inl⟩] } } : Parser)) = Except.ok st2 := hok2
                  cases hpf : parse_frames frameToks with
                  | error e =>
                    rw [hpf] at hok3
                    exact absurd (hok3 : (Except.error e : Except ParseErr Parser) =
                      Except.ok st2) (by simp)
                  | ok fr =>
                    rw [hpf] at hok3
                    cases fr with
                    | nil =>
                      exact absurd (hok3 : Except.error ParseErr.invalidFormat =
                        Except.ok st2) (by simp)
                    | cons f inl =>
                      have hok4 : Except.ok ({ st with data := { st.data with
                          instruction_pointers := st.data.instruction_pointers ++
                            [⟨ip, module_idx, f, inl⟩] } } : Parser) = Except.ok st2 := hok3
                      simp only [Except.ok.injEq] at hok4
                      subst hok4
                      exact hsame _ rfl
        · by_cases h97 : first = [97]
          · subst h97
            cases rest with
            | nil =>
              exact absurd (hok : Except.error ParseErr.invalidFormat = Except.ok st2)
                (by simp)
            | cons sizeTok rest2 =>
              cases rest2 with
              | nil =>
                exact absurd (hok : Except.error ParseErr.invalidFormat = Except.ok st2)
                  (by simp)
              | cons traceTok tail =>
                have hok2 : (match parseHex U64 sizeTok, parseHex U64 traceTok with
                    | some size, some trace_idx =>
                      Except.ok ({ (st.add_allocation trace_idx).2 with data :=
                        { (st.add_allocation trace_idx).2.data with
                          allocation_infos :=
                            (st.add_allocation trace_idx).2.data.allocation_infos ++
                              [⟨(st.add_allocation trace_idx).1, size⟩] } } : Parser)
                    | _, _ => Except.error ParseErr.invalidFormat) = Except.ok st2 := hok
                cases hp1 : parseHex U64 sizeTok with
                | none =>
                  rw [hp1] at hok2
                  exact absurd (hok2 : Except.error ParseErr.invalidFormat = Except.ok st2)
                    (by simp)
                | some size =>
                  rw [hp1] at hok2
                  cases hp2 : parseHex U64 traceTok with
                  | none =>
                    rw [hp2] at hok2
                    exact absurd (hok2 : Except.error ParseErr.invalidFormat =
                      Except.ok st2) (by simp)
                  | some traceIdx =>
                    rw [hp2] at hok2
                    have hok3 : Except.ok ({ (st.add_allocation traceIdx).2 with data :=
                        { (st.add_allocation traceIdx).2.data with
                          allocation_infos :=
                            (st.add_allocation traceIdx).2.data.allocation_infos ++
                              [⟨(st.add_allocation traceIdx).1, size⟩] } } : Parser) =
                        Except.ok st2 := hok2
                    simp only [Except.ok.injEq] at hok3
                    subst hok3
                    exact hsame _ (add_allocation_total st traceIdx)
          · by_cases h43 : first = [43]
            · subst h43
              cases rest with
              | nil =>
                exact absurd (hok : Except.error ParseErr.invalidFormat = Except.ok st2)
                  (by simp)
              | cons idxTok tail =>
                have hok2 : (match parseHex U64 idxTok with
                    | none => Except.error ParseErr.invalidFormat
                    | some infoIdx =>
                      match st.data.allocation_infos.get? infoIdx with
                      | none => Except.error ParseErr.panicIndex
                      | some info =>
                        match st.data.allocations.get? info.allocation_idx with
                        | none => Except.error (ParseErr.internal "allocation not found")
                        | some alloc =>
                          Except.ok ({ st with
                            last_ptr := info.allocation_idx,
                            data := { st.data with
                              allocations := st.data.allocations.set info.allocation_idx
                                { alloc with data := { alloc.data with
                                  leaked := add64 alloc.data.leaked info.size,
                                  peak := if add64 alloc.data.leaked info.size >
                                      alloc.data.peak
                                    then add64 alloc.data.leaked info.size
                                    else alloc.data.peak,
                                  allocations := add64 alloc.data.allocations 1 } },
                              total := { st.data.total with
                                leaked := add64 st.data.total.leaked info.size,
                                allocations := add64 st.data.total.allocations 1,
                                peak := if add64 st.data.total.leaked info.size >
                                    st.data.total.peak
                                  then add64 st.data.total.leaked info.size
                                  else st.data.total.peak } } } : Parser)) =
                    Except.ok st2 := hok
                cases hph : parseHex U64 idxTok with
                | none =>
                  rw [hph] at hok2
                  exact absurd (hok2 : Except.error ParseErr.invalidFormat = Except.ok st2)
                    (by simp)
                | some infoIdx =>
                  rw [hph] at hok2
                  have hok2b : (match st.data.allocation_infos.get? infoIdx with
                      | none => Except.error ParseErr.panicIndex
                      | some info =>
                        match st.data.allocations.get? info.allocation_idx with
                        | none => Except.error (ParseErr.internal "allocation not found")
                        | some alloc =>
                          Except.ok ({ st with
                            last_ptr := info.allocation_idx,
                            data := { st.data with
                              allocations := st.data.allocations.set info.allocation_idx
                                { alloc with data := { alloc.data with
                                  leaked := add64 alloc.data.leaked info.size,
                                  peak := if add64 alloc.data.leaked info.size >
                                      alloc.data.peak
                                    then add64 alloc.data.leaked info.size
                                    else alloc.data.peak,
                                  allocations := add64 alloc.data.allocations 1 } },
                              total := { st.data.total with
                                leaked := add64 st.data.total.leaked info.size,
                                allocations := add64 st.data.total.allocations 1,
                                peak := if add64 st.data.total.leaked info.size >
                                    st.data.total.peak
                                  then add64 st.data.total.leaked info.size
                                  else st.data.total.peak } } } : Parser)) =
                      Except.ok st2 := hok2
                  cases hinfo : st.data.allocation_infos.get? infoIdx with
                  | none =>
                    rw [hinfo] at hok2b
                    exact absurd (hok2b : Except.error ParseErr.panicIndex = Except.ok st2)
                      (by simp)
                  | some info =>
                    rw [hinfo] at hok2b
                    have hok2c : (match st.data.allocations.get? info.allocation_idx with
                        | none => Except.error (ParseErr.internal "allocation not found")
                        | some alloc =>
                          Except.ok ({ st with
                            last_ptr := info.allocation_idx,
                            data := { st.data with
                              allocations := st.data.allocations.set info.allocation_idx
                                { alloc with data := { alloc.data with
                                  leaked := add64 alloc.data.leaked info.size,
                                  peak := if add64 alloc.data.leaked info.size >
                                      alloc.data.peak
                                    then add64 alloc.data.leaked info.size
                                    else alloc.data.peak,
                                  allocations := add64 alloc.data.allocations 1 } },
                              total := { st.data.total with
                                leaked := add64 st.data.total.leaked info.size,
                                allocations := add64 st.data.total.allocations 1,
                                peak := if add64 st.data.total.leaked info.size >
                                    st.data.total.peak
                                  then add64 st.data.total.leaked info.size
                                  else st.data.total.peak } } } : Parser)) =
                        Except.ok st2 := hok2b
                    cases halloc : st.data.allocations.get? info.allocation_idx with
                    | none =>
                      rw [halloc] at hok2c
                      exact absurd (hok2c :
                        Except.error (ParseErr.internal "allocation not found") =
                          Except.ok st2) (by simp)
                    | some alloc =>
                      rw [halloc] at hok2c
                      have hok3 : Except.ok ({ st with
                          last_ptr := info.allocation_idx,
                          data := { st.data with
                            allocations := st.data.allocations.set info.allocation_idx
                              { alloc with data := { alloc.data with
                                leaked := add64 alloc.data.leaked info.size,
                                peak := if add64 alloc.data.leaked info.size >
                                    alloc.data.peak
                                  then add64 alloc.data.leaked info.size
                                  else alloc.data.peak,
                                allocations := add64 alloc.data.allocations 1 } },
                            total := { st.data.total with
                              leaked := add64 st.data.total.leaked info.size,
                              allocations := add64 st.data.total.allocations 1,
                              peak := if add64 st.data.total.leaked info.size >
                                  st.data.total.peak
                                then add64 st.data.total.leaked info.size
                                else st.data.total.peak } } } : Parser) =
                          Except.ok st2 := hok2c
                      simp only [Except.ok.injEq] at hok3
                      subst hok3
                      refine ⟨?_, ?_, ?_⟩
                      · show (if add64 st.data.total.leaked info.size > st.data.total.peak
                            then add64 st.data.total.leaked info.size
                            else st.data.total.peak) =
                          max st.data.total.peak (add64 st.data.total.leaked info.size)
                        split <;> omega
                      · show add64 st.data.total.leaked info.size ≤
                          (if add64 st.data.total.leaked info.size > st.data.total.peak
                            then add64 st.data.total.leaked info.size
                            else st.data.total.peak)
                        split <;> omega
                      · show add64 st.data.total.leaked info.size < U64
                        exact add64_lt _ _
            · by_cases h45 : first = [45]
              · subst h45
                cases rest with
                | nil =>
                  exact absurd (hok : Except.error ParseErr.invalidFormat = Except.ok st2)
                    (by simp)
                | cons idxTok tail =>
                  have hok2 : (match parseHex U64 idxTok with
                      | none => Except.error ParseErr.invalidFormat
                      | some infoIdx =>
                        match st.data.allocation_infos.get? infoIdx with
                        | none => Except.error ParseErr.panicIndex
                        | some info =>
                          match st.data.allocations.get? info.allocation_idx with
                          | none => Except.error (ParseErr.internal "allocation not found")
                          | some alloc =>
                            Except.ok ({ st with
                              last_ptr := 0,
                              data := { st.data with
                                allocations := st.data.allocations.set info.allocation_idx
                                  { alloc with data := { alloc.data with
                                    leaked := sub64 alloc.data.leaked info.size,
                                    temporary :=
                                      if (st.last_ptr == info.allocation_idx) = true
                                      then add64 alloc.data.temporary 1
                                      else alloc.data.temporary } },
                                total := { st.data.total with
                                  leaked := sub64 st.data.total.leaked info.size,
                                  temporary :=
                                    if (st.last_ptr == info.allocation_idx) = true
                                    then add64 st.data.total.temporary 1
                                    else st.data.total.temporary } } } : Parser)) =
                      Except.ok st2 := hok
                  have hs2 : (match parseHex U64 idxTok with
                      | some infoIdx =>
                        match st.data.allocation_infos.get? infoIdx with
                        | some info => decide (info.size ≤ st.data.total.leaked)
                        | none => true
                      | none => true) = true := hsafe
                  cases hph : parseHex U64 idxTok with
                  | none =>
                    rw [hph] at hok2
                    exact absurd (hok2 : Except.error ParseErr.invalidFormat =
                      Except.ok st2) (by simp)
                  | some infoIdx =>
                    rw [hph] at hok2
                    rw [hph] at hs2
                    have hok2b : (match st.data.allocation_infos.get? infoIdx with
                        | none => Except.error ParseErr.panicIndex
                        | some info =>
                          match st.data.allocations.get? info.allocation_idx with
                          | none => Except.error (ParseErr.internal "allocation not found")
                          | some alloc =>
                            Except.ok ({ st with
                              last_ptr := 0,
                              data := { st.data with
                                allocations := st.data.allocations.set info.allocation_idx
                                  { alloc with data := { alloc.data with
                                    leaked := sub64 alloc.data.leaked info.size,
                                    temporary :=
                                      if (st.last_ptr == info.allocation_idx) = true
                                      then add64 alloc.data.temporary 1
                                      else alloc.data.temporary } },
                                total := { st.data.total with
                                  leaked := sub64 st.data.total.leaked info.size,
                                  temporary :=
                                    if (st.last_ptr == info.allocation_idx) = true
                                    then add64 st.data.total.temporary 1
                                    else st.data.total.temporary } } } : Parser)) =
                        Except.ok st2 := hok2
                    have hs2b : (match st.data.allocation_infos.get? infoIdx with
                        | some info => decide (info.size ≤ st.data.total.leaked)
                        | none => true) = true := hs2
                    cases hinfo : st.data.allocation_infos.get? infoIdx with
                    | none =>
                      rw [hinfo] at hok2b
                      exact absurd (hok2b : Except.error ParseErr.panicIndex =
                        Except.ok st2) (by simp)
                    | some info =>
                      rw [hinfo] at hok2b
                      rw [hinfo] at hs2b
                      have hle : info.size ≤ st.data.total.leaked :=
                        of_decide_eq_true (hs2b : decide (info.size ≤ st.data.total.leaked) =
                          true)
                      have hok2c : (match st.data.allocations.get? info.allocation_idx with
                          | none => Except.error (ParseErr.internal "allocation not found")
                          | some alloc =>
                            Except.ok ({ st with
                              last_ptr := 0,
                              data := { st.data with
                                allocations := st.data.allocations.set info.allocation_idx
                                  { alloc with data := { alloc.data with
                                    leaked := sub64 alloc.data.leaked info.size,
                                    temporary :=
                                      if (st.last_ptr == info.allocation_idx) = true
                                      then add64 alloc.data.temporary 1
                                      else alloc.data.temporary } },
                                total := { st.data.total with
                                  leaked := sub64 st.data.total.leaked info.size,
                                  temporary :=
                                    if (st.last_ptr == info.allocation_idx) = true
                                    then add64 st.data.total.temporary 1
                                    else st.data.total.temporary } } } : Parser)) =
                          Except.ok st2 := hok2b
                      cases halloc : st.data.allocations.get? info.allocation_idx with
                      | none =>
                        rw [halloc] at hok2c
                        exact absurd (hok2c :
                          Except.error (ParseErr.internal "allocation not found") =
                            Except.ok st2) (by simp)
                      | some alloc =>
                        rw [halloc] at hok2c
                        have hok3 : Except.ok ({ st with
                            last_ptr := 0,
                            data := { st.data with
                              allocations := st.data.allocations.set info.allocation_idx
                                { alloc with data := { alloc.data with
                                  leaked := sub64 alloc.data.leaked info.size,
                                  temporary :=
                                    if (st.last_ptr == info.allocation_idx) = true
                                    then add64 alloc.data.temporary 1
                                    else alloc.data.temporary } },
                              total := { st.data.total with
                                leaked := sub64 st.data.total.leaked info.size,
                                temporary :=
                                  if (st.last_ptr == info.allocation_idx) = true
                                  then add64 st.data.total.temporary 1
                                  else st.data.total.temporary } } } : Parser) =
                            Except.ok st2 := hok2c
                        simp only [Except.ok.injEq] at hok3
                        subst hok3
                        have hsub : sub64 st.data.total.leaked info.size =
                            st.data.total.leaked - info.size := sub64_eq _ _ hle hleak
                        refine ⟨?_, ?_, ?_⟩
                        · show st.data.total.peak =
                            max st.data.total.peak (sub64 st.data.total.leaked info.size)
                          rw [hsub]
                          omega
                        · show sub64 st.data.total.leaked info.size ≤ st.data.total.peak
                          rw [hsub]
                          omega
                        · show sub64 st.data.total.leaked info.size < U64
                          rw [hsub]
                          omega
              · by_cases h99 : first = [99]
                · subst h99
                  cases rest with
                  | nil =>
                    exact absurd (hok : Except.error ParseErr.invalidFormat = Except.ok st2)
                      (by simp)
                  | cons tsTok tail =>
                    have hok2 : (match parseHex U64 tsTok with
                        | some ts => Except.ok ({ st with data :=
                            { st.data with duration := ts } } : Parser)
                        | none => Except.error ParseErr.invalidFormat) = Except.ok st2 := hok
                    cases hph : parseHex U64 tsTok with
                    | none =>
                      rw [hph] at hok2
                      exact absurd (hok2 : Except.error ParseErr.invalidFormat =
                        Except.ok st2) (by simp)
                    | some ts =>
                      rw [hph] at hok2
                      have hok3 : Except.ok ({ st with data :=
                          { st.data with duration := ts } } : Parser) = Except.ok st2 := hok2
                      simp only [Except.ok.injEq] at hok3
                      subst hok3
                      exact hsame _ rfl
                · by_cases h82 : first = [82]
                  · subst h82
                    cases rest with
                    | nil =>
                      exact absurd (hok : Except.error ParseErr.invalidFormat =
                        Except.ok st2) (by simp)
                    | cons rssTok tail =>
                      have hok2 : (match parseHex U64 rssTok with
                          | some rss => Except.ok ({ st with data := { st.data with
                              peak_rss := if rss > st.data.peak_rss then rss
                                else st.data.peak_rss } } : Parser)
                          | none => Except.error ParseErr.invalidFormat) =
                          Except.ok st2 := hok
                      cases hph : parseHex U64 rssTok with
                      | none =>
                        rw [hph] at hok2
                        exact absurd (hok2 : Except.error ParseErr.invalidFormat =
                          Except.ok st2) (by simp)
                      | some rss =>
                        rw [hph] at hok2
                        have hok3 : Except.ok ({ st with data := { st.data with
                            peak_rss := if rss > st.data.peak_rss then rss
                              else st.data.peak_rss } } : Parser) = Except.ok st2 := hok2
                        simp only [Except.ok.injEq] at hok3
                        subst hok3
                        exact hsame _ rfl
                  · by_cases h73 : first = [73]
                    · subst h73
                      cases rest with
                      | nil =>
                        exact absurd (hok : Except.error ParseErr.invalidFormat =
                          Except.ok st2) (by simp)
                      | cons sizeTok rest2 =>
                        cases rest2 with
                        | nil =>
                          exact absurd (hok : Except.error ParseErr.invalidFormat =
                            Except.ok st2) (by simp)
                        | cons pagesTok tail =>
                          have hok2 : (match parseHex U64 sizeTok, parseHex U64 pagesTok with
                              | some sz, some pg => Except.ok ({ st with data :=
                                  { st.data with page_size := sz, pages := pg } } : Parser)
                              | _, _ => Except.error ParseErr.invalidFormat) =
                              Except.ok st2 := hok
                          cases hp1 : parseHex U64 sizeTok with
                          | none =>
                            rw [hp1] at hok2
                            exact absurd (hok2 : Except.error ParseErr.invalidFormat =
                              Except.ok st2) (by simp)
                          | some sz =>
                            rw [hp1] at hok2
                            cases hp2 : parseHex U64 pagesTok with
                            | none =>
                              rw [hp2] at hok2
                              exact absurd (hok2 : Except.error ParseErr.invalidFormat =
                                Except.ok st2) (by simp)
                            | some pg =>
                              rw [hp2] at hok2
                              have hok3 : Except.ok ({ st with data := { st.data with
                                  page_size := sz, pages := pg } } : Parser) =
                                  Except.ok st2 := hok2
                              simp only [Except.ok.injEq] at hok3
                              subst hok3
                              exact hsame _ rfl
                    · simp only [h115, h116, h105, h97, h43, h45, h99, h82, h73,
                        if_false, Except.ok.injEq] at hok
                      subst hok
                      exact hsame st rfl

/-- **C4.** Peak monotonicity: after parsing any sequence of lines whose
`+`/`-` steps neither overflow nor underflow `total.leaked` (`linesSafe`),
`total.peak` equals the running maximum of the values `total.leaked` attained
after each parsed line (seeded with the starting peak, which is `0` from
`Parser.init`), and the invariant `total.leaked ≤ total.peak` — hence the
per-line preservation of the equality — holds after every parsed line. -/
theorem c4_peak_timeline (lines : List Bytes) :
    ∀ (st st2 : Parser),
    st.parse_lines lines = Except.ok st2 →
    linesSafe st lines = true →
    st.data.total.leaked ≤ st.data.total.peak →
    st.data.total.leaked < U64 →
    st2.data.total.peak = (leakedTimeline st lines).foldl max st.data.total.peak ∧
    st2.data.total.leaked ≤ st2.data.total.peak := by
  induction lines with
  | nil =>
    intro st st2 hok hsafe hinv hlt
    have h2 : Except.ok st = Except.ok st2 := hok
    simp only [Except.ok.injEq] at h2
    subst h2
    exact ⟨rfl, hinv⟩
  | cons l ls ih =>
    intro st st2 hok hsafe hinv hlt
    have hok1 : (match st.parse_line l with
        | Except.ok st3 => st3.parse_lines ls
        | Except.error e => Except.error e) = Except.ok st2 := hok
    have hsafe1 : (lineSafe st l && (match st.parse_line l with
        | Except.ok st3 => linesSafe st3 ls
        | Except.error e => true)) = true := hsafe
    cases hpl : st.parse_line l with
    | error e =>
      rw [hpl] at hok1
      exact absurd (hok1 : (Except.error e : Except ParseErr Parser) = Except.ok st2)
        (by simp)
    | ok st3 =>
      rw [hpl] at hok1
      rw [hpl] at hsafe1
      have hok2 : st3.parse_lines ls = Except.ok st2 := hok1
      have hsafe2 : (lineSafe st l && linesSafe st3 ls) = true := hsafe1
      rw [Bool.and_eq_true] at hsafe2
      obtain ⟨hsl, hss⟩ := hsafe2
      obtain ⟨hpk, hinv3, hlt3⟩ := parse_line_peak st st3 l hpl hsl hinv hlt
      obtain ⟨ihpk, ihinv⟩ := ih st3 st2 hok2 hss hinv3 hlt3
      refine ⟨?_, ihinv⟩
      rw [ihpk]
      have htl : leakedTimeline st (l :: ls) =
          st3.data.total.leaked :: leakedTimeline st3 ls := by
        show (match st.parse_line l with
            | Except.ok st4 => st4.data.total.leaked :: leakedTimeline st4 ls
            | Except.error e => []) = st3.data.total.leaked :: leakedTimeline st3 ls
        rw [hpl]
      rw [htl, List.foldl_cons, hpk]

/-- Witness for C4 at a concrete trace (`a 8 1`, `+ 0`, `- 0`, `+ 0`):
the timeline of `total.leaked` is `[0, 8, 0, 8]` and the final peak is `8`. -/
theorem c4_peak_timeline_witness :
    Parser.init.parse_lines c4lines = Except.ok
      (⟨⟨[], [], [], [(1, 0)], [⟨0, 8⟩], [⟨1, ⟨2, 1, 8, 8⟩⟩], ⟨2, 1, 8, 8⟩, 0, 0, 0, 0⟩,
        0⟩ : Parser) ∧
    linesSafe Parser.init c4lines = true ∧
    ((⟨⟨[], [], [], [(1, 0)], [⟨0, 8⟩], [⟨1, ⟨2, 1, 8, 8⟩⟩], ⟨2, 1, 8, 8⟩, 0, 0, 0, 0⟩,
        0⟩ : Parser).data.total.peak =
      (leakedTimeline Parser.init c4lines).foldl max Parser.init.data.total.peak ∧
     (⟨⟨[], [], [], [(1, 0)], [⟨0, 8⟩], [⟨1, ⟨2, 1, 8, 8⟩⟩], ⟨2, 1, 8, 8⟩, 0, 0, 0, 0⟩,
        0⟩ : Parser).data.total.leaked ≤
      (⟨⟨[], [], [], [(1, 0)], [⟨0, 8⟩], [⟨1, ⟨2, 1, 8, 8⟩⟩], ⟨2, 1, 8, 8⟩, 0, 0, 0, 0⟩,
        0⟩ : Parser).data.total.peak) :=
  ⟨rfl, rfl,
   c4_peak_timeline c4lines Parser.init _ rfl rfl (by decide) (by decide)⟩

/-- **C7.** String-table round-trip and interning: for a string value without
a newline (so it survives line splitting) whose length fits in u64:
(1) the first interning emits exactly one `s` line — `string_line value`,
whose LEN field is the value's byte length — and returns the 1-based index
`|strings| + 1`; (2) interning the same value again returns the same index
and leaves the state untouched; (3) the returned 1-based index always points
at exactly the original bytes in the table; (4) the Parser, fed the emitted
`s` line, recovers exactly the original bytes (embedded spaces included,
since it slices by byte-length suffix rather than splitting). -/
theorem c7_string_interning (st : Interpreter) (p : Parser) (value : Bytes)
    (hnl : ¬ 10 ∈ value) (hlen : value.length < U64) :
    (¬ value ∈ st.strings →
      st.write_string value =
        (st.strings.length + 1,
         { st with strings := st.strings ++ [value],
                   output := st.output ++ [string_line value] })) ∧
    (st.write_string value).2.write_string value =
      ((st.write_string value).1, (st.write_string value).2) ∧
    (st.write_string value).2.strings[(st.write_string value).1 - 1]? = some value ∧
    p.parse_line (string_line value) =
      Except.ok { p with data := { p.data with
        strings := p.data.strings ++ [value] } } := by
  have hnone : ¬ value ∈ st.strings →
      position (fun s => s == value) st.strings = none := by
    intro hmem
    refine (position_eq_none _ _).mpr (fun a ha => ?_)
    cases hb : a == value with
    | false => rfl
    | true =>
      rw [eq_of_beq hb] at ha
      exact absurd ha hmem
  refine ⟨?_, ?_, ?_, ?_⟩
  · intro hmem
    unfold Interpreter.write_string
    rw [hnone hmem]
  · cases hp0 : position (fun s => s == value) st.strings with
    | some id =>
      have h1 : st.write_string value = (id + 1, st) := by
        unfold Interpreter.write_string
        rw [hp0]
      rw [h1]
      exact h1
    | none =>
      have h1 : st.write_string value =
          (st.strings.length + 1, { st with
            strings := st.strings ++ [value],
            output := st.output ++ [string_line value] }) := by
        unfold Interpreter.write_string
        rw [hp0]
      rw [h1]
      have hp1 : position (fun s => s == value) (st.strings ++ [value]) =
          some st.strings.length := by
        refine position_eq_some_of (a := value) ?_ (by simp) ?_
        · rw [List.getElem?_append_right (le_refl _)]
          simp
        · intro k hk b hb
          rw [List.getElem?_append_left hk] at hb
          exact (position_eq_none _ _).mp hp0 b (List.mem_iff_getElem?.mpr ⟨k, hb⟩)
      have hp2 : position (fun s => s == value)
          ({ st with
            strings := st.strings ++ [value],
            output := st.output ++ [string_line value] } : Interpreter).strings =
          some st.strings.length := hp1
      show ({ st with
        strings := st.strings ++ [value],
        output := st.output ++ [string_line value] } : Interpreter).write_string value = _
      unfold Interpreter.write_string
      rw [hp2]
  · cases hp0 : position (fun s => s == value) st.strings with
    | some id =>
      have h1 : st.write_string value = (id + 1, st) := by
        unfold Interpreter.write_string
        rw [hp0]
      rw [h1]
      obtain ⟨a, ha, hpa⟩ := position_some_get hp0
      show st.strings[id]? = some value
      rw [ha, eq_of_beq hpa]
    | none =>
      have h1 : st.write_string value =
          (st.strings.length + 1, { st with
            strings := st.strings ++ [value],
            output := st.output ++ [string_line value] }) := by
        unfold Interpreter.write_string
        rw [hp0]
      rw [h1]
      show (st.strings ++ [value])[st.strings.length]? = some value
      rw [List.getElem?_append_right (le_refl _)]
      simp
  · have hline : string_line value = 115 :: 32 :: (toHex value.length ++ 32 :: value) := by
      simp [string_line, tagLine]
    have hsplit : splitWs (string_line value) =
        [115] :: toHex value.length :: splitWs value := by
      rw [hline]
      show splitWs ([115] ++ 32 :: (toHex value.length ++ 32 :: value)) = _
      rw [splitWs_tok_space [115] ⟨by simp, by decide⟩ _]
      rw [splitWs_tok_space (toHex value.length) (toHex_cleanTok _) _]
    have hlinelen : (string_line value).length =
        value.length + (toHex value.length).length + 3 := by
      rw [hline]
      simp
      omega
    have hle : value.length ≤ (string_line value).length := by
      rw [hlinelen]
      omega
    have hdrop : (string_line value).drop ((string_line value).length - value.length) =
        value := by
      have hpre : string_line value = (115 :: 32 :: (toHex value.length ++ [32])) ++ value := by
        rw [hline]
        simp
      rw [hpre, List.length_append, Nat.add_sub_cancel]
      exact List.drop_left _ _
    unfold Parser.parse_line
    rw [hsplit]
    show (match parseHex U64 (toHex value.length) with
        | none => Except.error ParseErr.invalidFormat
        | some strLen =>
          if strLen ≤ (string_line value).length then
            Except.ok ({ p with data := { p.data with
              strings := p.data.strings ++ [(string_line value).drop
                ((string_line value).length - strLen)] } } : Parser)
          else Except.error ParseErr.panicIndex) =
      Except.ok ({ p with data := { p.data with
        strings := p.data.strings ++ [value] } } : Parser)
    rw [parseHex_toHex U64 value.length hlen]
    show (if value.length ≤ (string_line value).length then
        Except.ok ({ p with data := { p.data with
          strings := p.data.strings ++ [(string_line value).drop
            ((string_line value).length - value.length)] } } : Parser)
      else Except.error ParseErr.panicIndex) = _
    rw [if_pos hle, hdrop]

/-- Witness for C7 at the concrete value `"hi"` (`[104, 105]`) from the empty
interpreter/parser states. -/
theorem c7_string_interning_witness :
    Interpreter.init.write_string [104, 105] =
      (1, { Interpreter.init with
        strings := [[104, 105]],
        output := [string_line [104, 105]] }) ∧
    Parser.init.parse_line (string_line [104, 105]) =
      Except.ok { Parser.init with data := { Parser.init.data with
        strings := [[104, 105]] } } :=
  ⟨(c7_string_interning Interpreter.init Parser.init [104, 105] (by decide)
      (by decide)).1 (by decide),
   (c7_string_interning Interpreter.init Parser.init [104, 105] (by decide)
      (by decide)).2.2.2⟩

theorem lookup_removeKey_ne (A : List (Nat × Nat)) (k q : Nat) (h : ¬ q = k) :
    (removeKey A k).lookup q = A.lookup q := by
  induction A with
  | nil => rfl
  | cons a t ih =>
    cases a with
    | mk a1 a2 =>
      by_cases hk : a1 = k
      · have hr : removeKey ((a1, a2) :: t) k = t := by
          show (if a1 = k then t else (a1, a2) :: removeKey t k) = t
          rw [if_pos hk]
        rw [hr, lookup_cons_ne a2 t (fun hq => h (hq.trans hk))]
      · have hr : removeKey ((a1, a2) :: t) k = (a1, a2) :: removeKey t k := by
          show (if a1 = k then t else (a1, a2) :: removeKey t k) = _
          rw [if_neg hk]
        rw [hr]
        by_cases hq : q = a1
        · rw [lookup_cons_eq a2 _ hq, lookup_cons_eq a2 _ hq]
        · rw [lookup_cons_ne a2 _ hq, lookup_cons_ne a2 _ hq, ih]

theorem lookup_removeKey_self (A : List (Nat × Nat)) (k : Nat)
    (hnd : (A.map Prod.fst).Nodup) : (removeKey A k).lookup k = none := by
  induction A with
  | nil => rfl
  | cons a t ih =>
    simp only [List.map_cons, List.nodup_cons] at hnd
    obtain ⟨hna, hnt⟩ := hnd
    unfold removeKey
    cases a with
    | mk a1 a2 =>
      by_cases hk : a1 = k
      · rw [if_pos hk]
        subst hk
        cases hl : t.lookup a1 with
        | none => rfl
        | some v =>
          exfalso
          exact hna (by simpa using List.mem_map_of_mem Prod.fst (lookup_mem hl))
      · rw [if_neg hk]
        rw [lookup_cons_ne a2 _ (fun h => hk h.symm), ih hnt]

theorem removeKey_keys_sublist (A : List (Nat × Nat)) (k : Nat) :
    ((removeKey A k).map Prod.fst).Sublist (A.map Prod.fst) := by
  induction A with
  | nil => exact List.Sublist.refl _
  | cons a t ih =>
    unfold removeKey
    by_cases hk : a.1 = k
    · rw [if_pos hk]
      simp only [List.map_cons]
      exact List.sublist_cons_of_sublist _ (List.Sublist.refl _)
    · rw [if_neg hk]
      simp only [List.map_cons]
      exact List.Sublist.cons₂ _ ih

theorem sumVals_removeKey (A : List (Nat × Nat)) (k s : Nat)
    (h : A.lookup k = some s) : sumVals (removeKey A k) + s = sumVals A := by
  induction A with
  | nil => simp at h
  | cons a t ih =>
    cases a with
    | mk a1 a2 =>
      by_cases hk : a1 = k
      · have hr : removeKey ((a1, a2) :: t) k = t := by
          show (if a1 = k then t else (a1, a2) :: removeKey t k) = t
          rw [if_pos hk]
        rw [hr]
        rw [lookup_cons_eq a2 t hk.symm] at h
        simp only [Option.some.injEq] at h
        subst h
        show sumVals t + a2 = a2 + sumVals t
        omega
      · have hr : removeKey ((a1, a2) :: t) k = (a1, a2) :: removeKey t k := by
          show (if a1 = k then t else (a1, a2) :: removeKey t k) = _
          rw [if_neg hk]
        rw [hr]
        rw [lookup_cons_ne a2 t (fun hq => hk hq.symm)] at h
        show a2 + sumVals (removeKey t k) + s = a2 + sumVals t
        have := ih h
        omega

theorem sumVals_lookup_le (A : List (Nat × Nat)) (k s : Nat)
    (h : A.lookup k = some s) : s ≤ sumVals A := by
  have := sumVals_removeKey A k s h
  omega

theorem cleanLine_tagLine (t : Nat) (ht : CleanByte t) (toks : List Bytes)
    (h : ∀ x ∈ toks, CleanLine x) : CleanLine (tagLine t toks) := by
  intro b hb
  unfold tagLine at hb
  rcases List.mem_cons.mp hb with hb1 | hb1
  · rw [hb1]
    exact ht
  · obtain ⟨l, hl, hbl⟩ := List.mem_flatten.mp hb1
    obtain ⟨x, hx, hxl⟩ := List.mem_map.mp hl
    subst hxl
    rcases List.mem_cons.mp hbl with hb2 | hb2
    · rw [hb2]
      exact ⟨by omega, by omega⟩
    · exact h x hx b hb2

theorem parse_line_nil (p : Parser) : p.parse_line [] = Except.ok p := rfl

theorem splitWs_tagLine_head (t : Nat) (ht : isWsByte t = false) (toks : List Bytes) :
    ∃ rest, splitWs (tagLine t toks) = [t] :: rest := by
  cases toks with
  | nil => exact ⟨[], splitWs_tok_last [t] ⟨by simp, by simpa using ht⟩⟩
  | cons tok more =>
    refine ⟨splitWs (tok ++ (more.map (fun x => 32 :: x)).flatten), ?_⟩
    show splitWs ([t] ++ 32 :: (tok ++ (more.map (fun x => 32 :: x)).flatten)) = _
    exact splitWs_tok_space [t] ⟨by simp, by simpa using ht⟩ _

theorem parse_line_ignored (p : Parser) (line : Bytes) (first : Bytes) (rest : List Bytes)
    (hsplit : splitWs line = first :: rest)
    (h : ¬ first ∈ [[115], [116], [105], [97], [43], [45], [99], [82], [73]]) :
    p.parse_line line = Except.ok p := by
  have h1 : ¬ first = [115] := fun he => h (by rw [he]; simp)
  have h2 : ¬ first = [116] := fun he => h (by rw [he]; simp)
  have h3 : ¬ first = [105] := fun he => h (by rw [he]; simp)
  have h4 : ¬ first = [97] := fun he => h (by rw [he]; simp)
  have h5 : ¬ first = [43] := fun he => h (by rw [he]; simp)
  have h6 : ¬ first = [45] := fun he => h (by rw [he]; simp)
  have h7 : ¬ first = [99] := fun he => h (by rw [he]; simp)
  have h8 : ¬ first = [82] := fun he => h (by rw [he]; simp)
  have h9 : ¬ first = [73] := fun he => h (by rw [he]; simp)
  unfold Parser.parse_line
  rw [hsplit]
  simp only [h1, h2, h3, h4, h5, h6, h7, h8, h9, if_false]

theorem parse_line_string_line (p : Parser) (value : Bytes)
    (hlen : value.length < U64) :
    p.parse_line (string_line value) =
      Except.ok { p with data := { p.data with
        strings := p.data.strings ++ [value] } } := by
  have hline : string_line value = 115 :: 32 :: (toHex value.length ++ 32 :: value) := by
    simp [string_line, tagLine]
  have hsplit : splitWs (string_line value) =
      [115] :: toHex value.length :: splitWs value := by
    rw [hline]
    show splitWs ([115] ++ 32 :: (toHex value.length ++ 32 :: value)) = _
    rw [splitWs_tok_space [115] ⟨by simp, by decide⟩ _]
    rw [splitWs_tok_space (toHex value.length) (toHex_cleanTok _) _]
  have hlinelen : (string_line value).length =
      value.length + (toHex value.length).length + 3 := by
    rw [hline]
    simp
    omega
  have hle : value.length ≤ (string_line value).length := by
    rw [hlinelen]
    omega
  have hdrop : (string_line value).drop ((string_line value).length - value.length) =
      value := by
    have hpre : string_line value = (115 :: 32 :: (toHex value.length ++ [32])) ++ value := by
      rw [hline]
      simp
    rw [hpre, List.length_append, Nat.add_sub_cancel]
    exact List.drop_left _ _
  unfold Parser.parse_line
  rw [hsplit]
  show (match parseHex U64 (toHex value.length) with
      | none => Except.error ParseErr.invalidFormat
      | some strLen =>
        if strLen ≤ (string_line value).length then
          Except.ok ({ p with data := { p.data with
            strings := p.data.strings ++ [(string_line value).drop
              ((string_line value).length - strLen)] } } : Parser)
        else Except.error ParseErr.panicIndex) =
    Except.ok ({ p with data := { p.data with
      strings := p.data.strings ++ [value] } } : Parser)
  rw [parseHex_toHex U64 value.length hlen]
  show (if value.length ≤ (string_line value).length then
      Except.ok ({ p with data := { p.data with
        strings := p.data.strings ++ [(string_line value).drop
          ((string_line value).length - value.length)] } } : Parser)
    else Except.error ParseErr.panicIndex) = _
  rw [if_pos hle, hdrop]

theorem parse_line_aline (p : Parser) (size parent : Nat)
    (hs : size < U64) (hp : parent < U64) :
    p.parse_line (tagLine 97 [toHex size, toHex parent]) =
      Except.ok { (p.add_allocation parent).2 with data :=
        { (p.add_allocation parent).2.data with
          allocation_infos := (p.add_allocation parent).2.data.allocation_infos ++
            [⟨(p.add_allocation parent).1, size⟩] } } := by
  have hsplit : splitWs (tagLine 97 [toHex size, toHex parent]) =
      [97] :: [toHex size, toHex parent] :=
    splitWs_tagLine 97 (by decide) _ (by
      intro x hx
      rcases List.mem_cons.mp hx with h | h
      · rw [h]; exact toHex_cleanTok _
      · rw [List.mem_singleton.mp h]; exact toHex_cleanTok _)
  unfold Parser.parse_line
  rw [hsplit]
  show (match parseHex U64 (toHex size), parseHex U64 (toHex parent) with
      | some size2, some trace_idx =>
        Except.ok ({ (p.add_allocation trace_idx).2 with data :=
          { (p.add_allocation trace_idx).2.data with
            allocation_infos := (p.add_allocation trace_idx).2.data.allocation_infos ++
              [(⟨(p.add_allocation trace_idx).1, size2⟩ : AllocationInfo)] } } : Parser)
      | _, _ => Except.error ParseErr.invalidFormat) = _
  rw [parseHex_toHex U64 size hs, parseHex_toHex U64 parent hp]

theorem parse_line_plus (p : Parser) (idx : Nat) (hidx : idx < U64)
    (info : AllocationInfo) (alloc : Allocation)
    (hinfo : p.data.allocation_infos.get? idx = some info)
    (halloc : p.data.allocations.get? info.allocation_idx = some alloc) :
    p.parse_line (tagLine 43 [toHex idx]) = Except.ok { p with
      last_ptr := info.allocation_idx,
      data := { p.data with
        allocations := p.data.allocations.set info.allocation_idx
          { alloc with data := { alloc.data with
            leaked := add64 alloc.data.leaked info.size,
            peak := if add64 alloc.data.leaked info.size > alloc.data.peak
              then add64 alloc.data.leaked info.size else alloc.data.peak,
            allocations := add64 alloc.data.allocations 1 } },
        total := { p.data.total with
          leaked := add64 p.data.total.leaked info.size,
          allocations := add64 p.data.total.allocations 1,
          peak := if add64 p.data.total.leaked info.size > p.data.total.peak
            then add64 p.data.total.leaked info.size else p.data.total.peak } } } := by
  have hsplit : splitWs (tagLine 43 [toHex idx]) = [43] :: [toHex idx] :=
    splitWs_tagLine 43 (by decide) _ (by
      intro x hx
      rw [List.mem_singleton.mp hx]
      exact toHex_cleanTok _)
  unfold Parser.parse_line
  rw [hsplit]
  show (match parseHex U64 (toHex idx) with
      | none => Except.error ParseErr.invalidFormat
      | some infoIdx =>
        match p.data.allocation_infos.get? infoIdx with
        | none => Except.error ParseErr.panicIndex
        | some info2 =>
          match p.data.allocations.get? info2.allocation_idx with
          | none => Except.error (ParseErr.internal "allocation not found")
          | some alloc2 =>
            Except.ok ({ p with
              last_ptr := info2.allocation_idx,
              data := { p.data with
                allocations := p.data.allocations.set info2.allocation_idx
                  { alloc2 with data := { alloc2.data with
                    leaked := add64 alloc2.data.leaked info2.size,
                    peak := if add64 alloc2.data.leaked info2.size > alloc2.data.peak
                      then add64 alloc2.data.leaked info2.size else alloc2.data.peak,
                    allocations := add64 alloc2.data.allocations 1 } },
                total := { p.data.total with
                  leaked := add64 p.data.total.leaked info2.size,
                  allocations := add64 p.data.total.allocations 1,
                  peak := if add64 p.data.total.leaked info2.size > p.data.total.peak
                    then add64 p.data.total.leaked info2.size
                    else p.data.total.peak } } } : Parser)) = _
  rw [parseHex_toHex U64 idx hidx]
  show (match p.data.allocation_infos.get? idx with
      | none => Except.error ParseErr.panicIndex
      | some info2 =>
        match p.data.allocations.get? info2.allocation_idx with
        | none => Except.error (ParseErr.internal "allocation not found")
        | some alloc2 =>
          Except.ok ({ p with
            last_ptr := info2.allocation_idx,
            data := { p.data with
              allocations := p.data.allocations.set info2.allocation_idx
                { alloc2 with data := { alloc2.data with
                  leaked := add64 alloc2.data.leaked info2.size,
                  peak := if add64 alloc2.data.leaked info2.size > alloc2.data.peak
                    then add64 alloc2.data.leaked info2.size else alloc2.data.peak,
                  allocations := add64 alloc2.data.allocations 1 } },
              total := { p.data.total with
                leaked := add64 p.data.total.leaked info2.size,
                allocations := add64 p.data.total.allocations 1,
                peak := if add64 p.data.total.leaked info2.size > p.data.total.peak
                  then add64 p.data.total.leaked info2.size
                  else p.data.total.peak } } } : Parser)) = _
  rw [hinfo]
  show (match p.data.allocations.get? info.allocation_idx with
      | none => Except.error (ParseErr.internal "allocation not found")
      | some alloc2 =>
        Except.ok ({ p with
          last_ptr := info.allocation_idx,
          data := { p.data with
            allocations := p.data.allocations.set info.allocation_idx
              { alloc2 with data := { alloc2.data with
                leaked := add64 alloc2.data.leaked info.size,
                peak := if add64 alloc2.data.leaked info.size > alloc2.data.peak
                  then add64 alloc2.data.leaked info.size else alloc2.data.peak,
                allocations := add64 alloc2.data.allocations 1 } },
            total := { p.data.total with
              leaked := add64 p.data.total.leaked info.size,
              allocations := add64 p.data.total.allocations 1,
              peak := if add64 p.data.total.leaked info.size > p.data.total.peak
                then add64 p.data.total.leaked info.size
                else p.data.total.peak } } } : Parser)) = _
  rw [halloc]

theorem parse_line_minus (p : Parser) (idx : Nat) (hidx : idx < U64)
    (info : AllocationInfo) (alloc : Allocation)
    (hinfo : p.data.allocation_infos.get? idx = some info)
    (halloc : p.data.allocations.get? info.allocation_idx = some alloc) :
    p.parse_line (tagLine 45 [toHex idx]) = Except.ok { p with
      last_ptr := 0,
      data := { p.data with
        allocations := p.data.allocations.set info.allocation_idx
          { alloc with data := { alloc.data with
            leaked := sub64 alloc.data.leaked info.size,
            temporary := if (p.last_ptr == info.allocation_idx) = true
              then add64 alloc.data.temporary 1 else alloc.data.temporary } },
        total := { p.data.total with
          leaked := sub64 p.data.total.leaked info.size,
          temporary := if (p.last_ptr == info.allocation_idx) = true
            then add64 p.data.total.temporary 1 else p.data.total.temporary } } } := by
  have hsplit : splitWs (tagLine 45 [toHex idx]) = [45] :: [toHex idx] :=
    splitWs_tagLine 45 (by decide) _ (by
      intro x hx
      rw [List.mem_singleton.mp hx]
      exact toHex_cleanTok _)
  unfold Parser.parse_line
  rw [hsplit]
  show (match parseHex U64 (toHex idx) with
      | none => Except.error ParseErr.invalidFormat
      | some infoIdx =>
        match p.data.allocation_infos.get? infoIdx with
        | none => Except.error ParseErr.panicIndex
        | some info2 =>
          match p.data.allocations.get? info2.allocation_idx with
          | none => Except.error (ParseErr.internal "allocation not found")
          | some alloc2 =>
            Except.ok ({ p with
              last_ptr := 0,
              data := { p.data with
                allocations := p.data.allocations.set info2.allocation_idx
                  { alloc2 with data := { alloc2.data with
                    leaked := sub64 alloc2.data.leaked info2.size,
                    temporary := if (p.last_ptr == info2.allocation_idx) = true
                      then add64 alloc2.data.temporary 1 else alloc2.data.temporary } },
                total := { p.data.total with
                  leaked := sub64 p.data.total.leaked info2.size,
                  temporary := if (p.last_ptr == info2.allocation_idx) = true
                    then add64 p.data.total.temporary 1
                    else p.data.total.temporary } } } : Parser)) = _
  rw [parseHex_toHex U64 idx hidx]
  show (match p.data.allocation_infos.get? idx with
      | none => Except.error ParseErr.panicIndex
      | some info2 =>
        match p.data.allocations.get? info2.allocation_idx with
        | none => Except.error (ParseErr.internal "allocation not found")
        | some alloc2 =>
          Except.ok ({ p with
            last_ptr := 0,
            data := { p.data with
              allocations := p.data.allocations.set info2.allocation_idx
                { alloc2 with data := { alloc2.data with
                  leaked := sub64 alloc2.data.leaked info2.size,
                  temporary := if (p.last_ptr == info2.allocation_idx) = true
                    then add64 alloc2.data.temporary 1 else alloc2.data.temporary } },
              total := { p.data.total with
                leaked := sub64 p.data.total.leaked info2.size,
                temporary := if (p.last_ptr == info2.allocation_idx) = true
                  then add64 p.data.total.temporary 1
                  else p.data.total.temporary } } } : Parser)) = _
  rw [hinfo]
  show (match p.data.allocations.get? info.allocation_idx with
      | none => Except.error (ParseErr.internal "allocation not found")
      | some alloc2 =>
        Except.ok ({ p with
          last_ptr := 0,
          data := { p.data with
            allocations := p.data.allocations.set info.allocation_idx
              { alloc2 with data := { alloc2.data with
                leaked := sub64 alloc2.data.leaked info.size,
                temporary := if (p.last_ptr == info.allocation_idx) = true
                  then add64 alloc2.data.temporary 1 else alloc2.data.temporary } },
            total := { p.data.total with
              leaked := sub64 p.data.total.leaked info.size,
              temporary := if (p.last_ptr == info.allocation_idx) = true
                then add64 p.data.total.temporary 1
                else p.data.total.temporary } } } : Parser)) = _
  rw [halloc]

theorem parse_line_Iline (p : Parser) (s g : Nat) (hs : s < U64) (hg : g < U64) :
    p.parse_line (tagLine 73 [toHex s, toHex g]) =
      Except.ok { p with data := { p.data with page_size := s, pages := g } } := by
  have hsplit : splitWs (tagLine 73 [toHex s, toHex g]) = [73] :: [toHex s, toHex g] :=
    splitWs_tagLine 73 (by decide) _ (by
      intro x hx
      rcases List.mem_cons.mp hx with h | h
      · rw [h]; exact toHex_cleanTok _
      · rw [List.mem_singleton.mp h]; exact toHex_cleanTok _)
  unfold Parser.parse_line
  rw [hsplit]
  show (match parseHex U64 (toHex s), parseHex U64 (toHex g) with
      | some sz, some pg => Except.ok ({ p with data :=
          { p.data with page_size := sz, pages := pg } } : Parser)
      | _, _ => Except.error ParseErr.invalidFormat) = _
  rw [parseHex_toHex U64 s hs, parseHex_toHex U64 g hg]

theorem parse_line_cline (p : Parser) (d : Nat) (hd : d < U64) :
    p.parse_line (tagLine 99 [toHex d]) =
      Except.ok { p with data := { p.data with duration := d } } := by
  have hsplit : splitWs (tagLine 99 [toHex d]) = [99] :: [toHex d] :=
    splitWs_tagLine 99 (by decide) _ (by
      intro x hx
      rw [List.mem_singleton.mp hx]
      exact toHex_cleanTok _)
  unfold Parser.parse_line
  rw [hsplit]
  show (match parseHex U64 (toHex d) with
      | some ts => Except.ok ({ p with data := { p.data with duration := ts } } : Parser)
      | none => Except.error ParseErr.invalidFormat) = _
  rw [parseHex_toHex U64 d hd]

theorem parse_line_Rline (p : Parser) (r : Nat) (hr : r < U64) :
    p.parse_line (tagLine 82 [toHex r]) =
      Except.ok { p with data := { p.data with
        peak_rss := if r > p.data.peak_rss then r else p.data.peak_rss } } := by
  have hsplit : splitWs (tagLine 82 [toHex r]) = [82] :: [toHex r] :=
    splitWs_tagLine 82 (by decide) _ (by
      intro x hx
      rw [List.mem_singleton.mp hx]
      exact toHex_cleanTok _)
  unfold Parser.parse_line
  rw [hsplit]
  show (match parseHex U64 (toHex r) with
      | some rss => Except.ok ({ p with data := { p.data with
          peak_rss := if rss > p.data.peak_rss then rss else p.data.peak_rss } } : Parser)
      | none => Except.error ParseErr.invalidFormat) = _
  rw [parseHex_toHex U64 r hr]

theorem lookup_none_not_mem (A : List (Nat × Nat)) (k : Nat) (h : A.lookup k = none) :
    ¬ k ∈ A.map Prod.fst := by
  induction A with
  | nil => simp
  | cons a t ih =>
    cases a with
    | mk a1 a2 =>
      by_cases hk : k = a1
      · rw [lookup_cons_eq a2 t hk] at h
        cases h
      · rw [lookup_cons_ne a2 t hk] at h
        simp only [List.map_cons, List.mem_cons]
        rintro (h1 | h1)
        · exact hk h1
        · exact ih h h1

theorem add_allocation_facts (p : Parser) (t : Nat) :
    (p.add_allocation t).2.data.allocation_infos = p.data.allocation_infos ∧
    (p.add_allocation t).2.data.total = p.data.total ∧
    p.data.allocations.length ≤ (p.add_allocation t).2.data.allocations.length ∧
    ((∀ q ∈ p.data.allocation_indices, q.2 < p.data.allocations.length) →
      (∀ q ∈ (p.add_allocation t).2.data.allocation_indices,
        q.2 < (p.add_allocation t).2.data.allocations.length) ∧
      (p.add_allocation t).1 < (p.add_allocation t).2.data.allocations.length) := by
  unfold Parser.add_allocation
  cases hl : p.data.allocation_indices.lookup t with
  | some idx =>
    refine ⟨rfl, rfl, le_refl _, fun h => ⟨h, ?_⟩⟩
    exact h (t, idx) (lookup_mem hl)
  | none =>
    refine ⟨rfl, rfl, by simp, fun h => ⟨?_, ?_⟩⟩
    · intro q hq
      show q.2 < (p.data.allocations ++ [(⟨t, AllocationData.default⟩ : Allocation)]).length
      rcases List.mem_append.mp hq with h1 | h1
      · have := h q h1
        rw [List.length_append]
        omega
      · rw [List.mem_singleton.mp h1]
        rw [List.length_append]
        simp
    · show p.data.allocations.length <
        (p.data.allocations ++ [(⟨t, AllocationData.default⟩ : Allocation)]).length
      rw [List.length_append]
      simp

theorem handle_alloc_char (env : LoaderEnv) (st : Interpreter) (ptr size parent : Nat)
    (st2 : Interpreter)
    (hr : st.handle_record env (Record.alloc ptr size parent) = Except.ok st2)
    (hwf : TableWF st.pointers) :
    ∃ idx,
      idx ≤ st.allocation_info.length ∧
      st2.allocation_info.get? idx = some (size, parent) ∧
      (st2.allocation_info = st.allocation_info ∧
         st2.output = st.output ++ [tagLine 43 [toHex idx]] ∨
       st2.allocation_info = st.allocation_info ++ [(size, parent)] ∧
         st2.output = st.output ++ [tagLine 97 [toHex size, toHex parent],
           tagLine 43 [toHex idx]]) ∧
      TableWF st2.pointers ∧
      (∀ q, tableMap st2.pointers q = if q = ptr then some idx
        else tableMap st.pointers q) := by
  set stA : Interpreter := { st with stats := { st.stats with
    allocations := add64 st.stats.allocations 1,
    leaked_allocations := add64 st.stats.leaked_allocations 1 } } with hstA
  have h1 : Except.ok ({ (stA.add_alloc size parent).2.add_pointer ptr (stA.add_alloc size parent).1 with last_ptr := ptr, output := ((stA.add_alloc size parent).2.add_pointer ptr (stA.add_alloc size parent).1).output ++ [tagLine 43 [toHex (stA.add_alloc size parent).1]] } : Interpreter) = Except.ok st2 := hr
  simp only [Except.ok.injEq] at h1
  cases hpos : position (fun q => q == (size, parent)) st.allocation_info with
  | some idx0 =>
    have haa : stA.add_alloc size parent = (idx0, stA) := by
      unfold Interpreter.add_alloc
      rw [hpos]
    rw [haa] at h1
    subst h1
    have hwfA : TableWF ((idx0, stA) : Nat × Interpreter).2.pointers := hwf
    refine ⟨idx0, le_of_lt (position_some_lt hpos), ?_, Or.inl ⟨?_, ?_⟩, ?_, ?_⟩
    · rw [List.get?_eq_getElem?]
      show (stA.add_pointer ptr idx0).allocation_info[idx0]? = some (size, parent)
      rw [congrArg Interpreter.allocation_info (add_pointer_frame stA ptr idx0)]
      show st.allocation_info[idx0]? = some (size, parent)
      obtain ⟨a, ha, hpa⟩ := position_some_get hpos
      rw [ha, eq_of_beq hpa]
    · show (stA.add_pointer ptr idx0).allocation_info = st.allocation_info
      rw [congrArg Interpreter.allocation_info (add_pointer_frame stA ptr idx0)]
    · show (stA.add_pointer ptr idx0).output ++ [tagLine 43 [toHex idx0]] = _
      rw [congrArg Interpreter.output (add_pointer_frame stA ptr idx0)]
    · show TableWF ((stA.add_pointer ptr idx0).pointers)
      exact add_pointer_wf stA ptr idx0 hwf
    · intro q
      show tableMap (stA.add_pointer ptr idx0).pointers q = _
      rw [add_pointer_tableMap stA ptr idx0 hwf q]
  | none =>
    have haa : stA.add_alloc size parent = (st.allocation_info.length,
        { stA with allocation_info := stA.allocation_info ++ [(size, parent)],
                   output := stA.output ++ [tagLine 97 [toHex size, toHex parent]] }) := by
      unfold Interpreter.add_alloc
      rw [hpos]
    rw [haa] at h1
    subst h1
    set stB : Interpreter := { stA with
      allocation_info := stA.allocation_info ++ [(size, parent)],
      output := stA.output ++ [tagLine 97 [toHex size, toHex parent]] } with hstB
    have hwfB : TableWF stB.pointers := hwf
    refine ⟨st.allocation_info.length, le_refl _, ?_, Or.inr ⟨?_, ?_⟩, ?_, ?_⟩
    · rw [List.get?_eq_getElem?]
      show (stB.add_pointer ptr st.allocation_info.length).allocation_info[st.allocation_info.length]? = some (size, parent)
      rw [congrArg Interpreter.allocation_info
        (add_pointer_frame stB ptr st.allocation_info.length)]
      show (st.allocation_info ++ [(size, parent)])[st.allocation_info.length]? = _
      rw [List.getElem?_append_right (le_refl _)]
      simp
    · show (stB.add_pointer ptr st.allocation_info.length).allocation_info = _
      rw [congrArg Interpreter.allocation_info
        (add_pointer_frame stB ptr st.allocation_info.length)]
    · show (stB.add_pointer ptr st.allocation_info.length).output ++
        [tagLine 43 [toHex st.allocation_info.length]] = _
      rw [congrArg Interpreter.output (add_pointer_frame stB ptr st.allocation_info.length)]
      show (st.output ++ [tagLine 97 [toHex size, toHex parent]]) ++
        [tagLine 43 [toHex st.allocation_info.length]] = _
      rw [List.append_assoc]
      rfl
    · show TableWF ((stB.add_pointer ptr st.allocation_info.length).pointers)
      exact add_pointer_wf stB ptr _ hwfB
    · intro q
      show tableMap (stB.add_pointer ptr st.allocation_info.length).pointers q = _
      rw [add_pointer_tableMap stB ptr _ hwfB q]

theorem handle_free_char (env : LoaderEnv) (st : Interpreter) (ptr idx : Nat)
    (st2 : Interpreter) (hr : st.handle_record env (Record.free ptr) = Except.ok st2)
    (hwf : TableWF st.pointers) (hsome : tableMap st.pointers ptr = some idx) :
    st2.output = st.output ++ [tagLine 45 [toHex idx]] ∧
    st2.allocation_info = st.allocation_info ∧
    TableWF st2.pointers ∧
    (∀ q, tableMap st2.pointers q = if q = ptr then none else tableMap st.pointers q) := by
  have h1 : (match ({ st with last_ptr := 0 } : Interpreter).take_pointer ptr with
      | (none, stx) => Except.ok stx
      | (some allocation_idx, stx) => Except.ok ({ stx with
          output := stx.output ++ [tagLine 45 [toHex allocation_idx]],
          stats := { stx.stats with
            tmp_allocations := if (st.last_ptr == ptr) = true
              then add64 stx.stats.tmp_allocations 1 else stx.stats.tmp_allocations,
            leaked_allocations := sub64 stx.stats.leaked_allocations 1 } } :
          Interpreter)) = Except.ok st2 := hr
  have hwf1 : TableWF ({ st with last_ptr := 0 } : Interpreter).pointers := hwf
  obtain ⟨hfst, hwf2, hmap⟩ := take_pointer_spec ({ st with last_ptr := 0 } :
    Interpreter) ptr hwf1
  have hframe := take_pointer_frame ({ st with last_ptr := 0 } : Interpreter) ptr
  cases htp : ({ st with last_ptr := 0 } : Interpreter).take_pointer ptr with
  | mk ores stx =>
    rw [htp] at h1 hfst hwf2 hframe
    rw [htp] at hmap
    have hfst2 : ores = some idx := by
      have h5 : ores = tableMap st.pointers ptr := hfst
      rw [hsome] at h5
      exact h5
    subst hfst2
    have hout : stx.output = st.output := by
      have h4 := congrArg Interpreter.output hframe
      exact h4
    have hinfo : stx.allocation_info = st.allocation_info := by
      have h4 := congrArg Interpreter.allocation_info hframe
      exact h4
    have h2 : Except.ok ({ stx with
        output := stx.output ++ [tagLine 45 [toHex idx]],
        stats := { stx.stats with
          tmp_allocations := if (st.last_ptr == ptr) = true
            then add64 stx.stats.tmp_allocations 1 else stx.stats.tmp_allocations,
          leaked_allocations := sub64 stx.stats.leaked_allocations 1 } } :
        Interpreter) = Except.ok st2 := h1
    simp only [Except.ok.injEq] at h2
    subst h2
    refine ⟨?_, ?_, hwf2, ?_⟩
    · show stx.output ++ [tagLine 45 [toHex idx]] = _
      rw [hout]
    · show stx.allocation_info = _
      rw [hinfo]
    · intro q
      have h3 := hmap q
      by_cases hq : q = ptr
      · subst hq
        rw [if_pos rfl] at h3 ⊢
        exact h3
      · rw [if_neg hq] at h3 ⊢
        exact h3

theorem handle_image_char (env : LoaderEnv) (st : Interpreter) (name : Bytes)
    (sa sz : Nat) (st2 : Interpreter)
    (hr : st.handle_record env (Record.image name sa sz) = Except.ok st2) :
    (st2.output = st.output ∨ st2.output = st.output ++ [string_line name]) ∧
    st2.allocation_info = st.allocation_info ∧
    st2.pointers = st.pointers := by
  have h0 : (match (st.write_string name).2.resolver.add_module env
      (st.write_string name).1 name sa (sa + sz) with
    | Except.ok r2 => Except.ok ({ (st.write_string name).2 with resolver := r2 } :
        Interpreter)
    | Except.error e => Except.ok (st.write_string name).2) = Except.ok st2 := hr
  cases hp : position (fun s => s == name) st.strings with
  | some id =>
    have hws : st.write_string name = (id + 1, st) := by
      unfold Interpreter.write_string
      rw [hp]
    rw [hws] at h0
    cases hadd : st.resolver.add_module env (id + 1) name sa (sa + sz) with
    | ok r2 =>
      have h1 : (Except.ok ({ st with resolver := r2 } : Interpreter) :
          Except InterpErr Interpreter) = Except.ok st2 := by
        rw [show ((id + 1, st) : Nat × Interpreter).2.resolver.add_module env
          ((id + 1, st) : Nat × Interpreter).1 name sa (sa + sz) =
            Except.ok r2 from hadd] at h0
        exact h0
      simp only [Except.ok.injEq] at h1
      subst h1
      exact ⟨Or.inl rfl, rfl, rfl⟩
    | error e =>
      have h1 : (Except.ok st : Except InterpErr Interpreter) = Except.ok st2 := by
        rw [show ((id + 1, st) : Nat × Interpreter).2.resolver.add_module env
          ((id + 1, st) : Nat × Interpreter).1 name sa (sa + sz) =
            Except.error e from hadd] at h0
        exact h0
      simp only [Except.ok.injEq] at h1
      subst h1
      exact ⟨Or.inl rfl, rfl, rfl⟩
  | none =>
    have hws : st.write_string name = (st.strings.length + 1, { st with
      strings := st.strings ++ [name],
      output := st.output ++ [string_line name] }) := by
      unfold Interpreter.write_string
      rw [hp]
    rw [hws] at h0
    set stW : Interpreter := { st with
      strings := st.strings ++ [name],
      output := st.output ++ [string_line name] } with hstW
    cases hadd : stW.resolver.add_module env (st.strings.length + 1) name sa (sa + sz) with
    | ok r2 =>
      have h1 : (Except.ok ({ stW with resolver := r2 } : Interpreter) :
          Except InterpErr Interpreter) = Except.ok st2 := by
        rw [show ((st.strings.length + 1, stW) : Nat × Interpreter).2.resolver.add_module
          env ((st.strings.length + 1, stW) : Nat × Interpreter).1 name sa (sa + sz) =
            Except.ok r2 from hadd] at h0
        exact h0
      simp only [Except.ok.injEq] at h1
      subst h1
      exact ⟨Or.inr rfl, rfl, rfl⟩
    | error e =>
      have h1 : (Except.ok stW : Except InterpErr Interpreter) = Except.ok st2 := by
        rw [show ((st.strings.length + 1, stW) : Nat × Interpreter).2.resolver.add_module
          env ((st.strings.length + 1, stW) : Nat × Interpreter).1 name sa (sa + sz) =
            Except.error e from hadd] at h0
        exact h0
      simp only [Except.ok.injEq] at h1
      subst h1
      exact ⟨Or.inr rfl, rfl, rfl⟩

theorem cleanLine_tagLine2 (t n m : Nat) (ht : CleanByte t) :
    CleanLine (tagLine t [toHex n, toHex m]) :=
  cleanLine_tagLine t ht _ (by
    intro x hx
    rcases List.mem_cons.mp hx with h | h
    · rw [h]; exact toHex_cleanLine _
    · rw [List.mem_singleton.mp h]; exact toHex_cleanLine _)

theorem cleanLine_tagLine1 (t n : Nat) (ht : CleanByte t) :
    CleanLine (tagLine t [toHex n]) :=
  cleanLine_tagLine t ht _ (by
    intro x hx
    rw [List.mem_singleton.mp hx]
    exact toHex_cleanLine _)

theorem cleanLine_of_not_mem (value : Bytes) (h10 : ¬ 10 ∈ value) (h13 : ¬ 13 ∈ value) :
    CleanLine value :=
  fun b hb => ⟨fun he => h10 (he ▸ hb), fun he => h13 (he ▸ hb)⟩

theorem cleanLine_string_line (value : Bytes) (h10 : ¬ 10 ∈ value) (h13 : ¬ 13 ∈ value) :
    CleanLine (string_line value) :=
  cleanLine_tagLine 115 ⟨by omega, by omega⟩ _ (by
    intro x hx
    rcases List.mem_cons.mp hx with h | h
    · rw [h]; exact toHex_cleanLine _
    · rw [List.mem_singleton.mp h]
      exact cleanLine_of_not_mem value h10 h13)

theorem plus_step (st3 : Interpreter) (q0 : Parser) (idx size parent : Nat)
    (hidx64 : idx < U64)
    (hget3 : st3.allocation_info.get? idx = some (size, parent))
    (k2 : ∀ i, (q0.data.allocation_infos.get? i).map AllocationInfo.size =
      (st3.allocation_info.get? i).map Prod.fst)
    (k3 : ∀ info ∈ q0.data.allocation_infos,
      info.allocation_idx < q0.data.allocations.length) :
    ∃ p3 : Parser,
      q0.parse_line (tagLine 43 [toHex idx]) = Except.ok p3 ∧
      p3.data.allocation_infos = q0.data.allocation_infos ∧
      p3.data.allocation_indices = q0.data.allocation_indices ∧
      p3.data.allocations.length = q0.data.allocations.length ∧
      p3.data.total.leaked = add64 q0.data.total.leaked size ∧
      p3.data.total.allocations = add64 q0.data.total.allocations 1 := by
  have hst := k2 idx
  rw [hget3] at hst
  cases hpi : q0.data.allocation_infos.get? idx with
  | none =>
    rw [hpi] at hst
    cases hst
  | some info =>
    rw [hpi] at hst
    simp only [Option.map_some'] at hst
    have hsz : info.size = size := by
      simpa using hst
    have hmem : info ∈ q0.data.allocation_infos :=
      List.mem_iff_getElem?.mpr ⟨idx, by rw [← List.get?_eq_getElem?]; exact hpi⟩
    have hlt := k3 info hmem
    cases hpa : q0.data.allocations.get? info.allocation_idx with
    | none =>
      exfalso
      rw [List.get?_eq_getElem?, List.getElem?_eq_none_iff] at hpa
      omega
    | some alloc =>
      refine ⟨_, parse_line_plus q0 idx hidx64 info alloc hpi hpa, rfl, rfl, ?_, ?_, ?_⟩
      · show (q0.data.allocations.set info.allocation_idx _).length = _
        rw [List.length_set]
      · show add64 q0.data.total.leaked info.size = _
        rw [hsz]
      · rfl

theorem sim_run (env : LoaderEnv) (rs : List Record) :
    ∀ (st : Interpreter) (p : Parser) (A : List (Nat × Nat)) (st2 : Interpreter),
    st.run env rs = Except.ok st2 →
    recsOk A rs = true →
    SimRel st p A →
    (A.map Prod.fst).Nodup →
    sumVals A + sizeSum rs < U64 →
    p.data.total.allocations + countAllocs rs < U64 →
    st.allocation_info.length + countAllocs rs < U64 →
    ∃ (delta : List Bytes) (p2 : Parser),
      st2.output = st.output ++ delta ∧
      (∀ l ∈ delta, CleanLine l) ∧
      p.parse_lines delta = Except.ok p2 ∧
      SimRel st2 p2 (liveAfter A rs) ∧
      p2.data.total.allocations = p.data.total.allocations + countAllocs rs := by
  induction rs with
  | nil =>
    intro st p A st2 hrun hok hrel hnd hsum hcntb hinfob
    have h : Except.ok st = Except.ok st2 := hrun
    simp only [Except.ok.injEq] at h
    subst h
    refine ⟨[], p, by simp, by simp, rfl, hrel, ?_⟩
    show p.data.total.allocations = p.data.total.allocations + 0
    omega
  | cons r rest ih =>
    intro st p A st2 hrun hok hrel hnd hsum hcntb hinfob
    have h1 : (match st.handle_record env r with
        | Except.ok st3 => st3.run env rest
        | Except.error e => Except.error e) = Except.ok st2 := hrun
    cases r with
    | trace ip parent =>
      have hfalse : recsOk A (Record.trace ip parent :: rest) = false := rfl
      rw [hfalse] at hok
      exact absurd hok (by simp)
    | free ptr =>
      have hok1 : ((A.lookup ptr).isSome && recsOk (removeKey A ptr) rest) = true := hok
      rw [Bool.and_eq_true] at hok1
      obtain ⟨hlive, hok2⟩ := hok1
      have hcc : countAllocs (Record.free ptr :: rest) = countAllocs rest := rfl
      have hss : sizeSum (Record.free ptr :: rest) = sizeSum rest := rfl
      rw [hcc] at hcntb hinfob
      rw [hss] at hsum
      cases hAl : A.lookup ptr with
      | none =>
        rw [hAl] at hlive
        exact absurd hlive (by simp)
      | some s =>
        obtain ⟨i1, i2, i3, i3x, i4, i5, i6⟩ := hrel
        have h5 := i5 ptr
        rw [hAl] at h5
        cases htm : tableMap st.pointers ptr with
        | none =>
          rw [htm] at h5
          cases h5
        | some idx =>
          rw [htm] at h5
          have h5b : (st.allocation_info.get? idx).map Prod.fst = some s := h5
          cases hh : st.handle_record env (Record.free ptr) with
          | error e =>
            rw [hh] at h1
            exact absurd (h1 : (Except.error e : Except InterpErr Interpreter) =
              Except.ok st2) (by simp)
          | ok st3 =>
            rw [hh] at h1
            have h2 : st3.run env rest = Except.ok st2 := h1
            obtain ⟨ho, hinfo3, hwf3, hmap3⟩ := handle_free_char env st ptr idx st3 hh i4 htm
            have hidxlt : idx < st.allocation_info.length := by
              cases hg : st.allocation_info.get? idx with
              | none =>
                rw [hg] at h5b
                cases h5b
              | some v =>
                rw [List.get?_eq_getElem?] at hg
                obtain ⟨h7, _⟩ := List.getElem?_eq_some_iff.mp hg
                exact h7
            have hidx64 : idx < U64 := by omega
            have hst := i2 idx
            cases hpi : p.data.allocation_infos.get? idx with
            | none =>
              rw [hpi, h5b] at hst
              cases hst
            | some info =>
              rw [hpi, h5b] at hst
              have hsz : info.size = s := by simpa using hst
              have hmem : info ∈ p.data.allocation_infos :=
                List.mem_iff_getElem?.mpr ⟨idx, by rw [← List.get?_eq_getElem?]; exact hpi⟩
              have hlt := i3 info hmem
              cases hpa : p.data.allocations.get? info.allocation_idx with
              | none =>
                exfalso
                rw [List.get?_eq_getElem?, List.getElem?_eq_none_iff] at hpa
                omega
              | some alloc =>
                have hpl := parse_line_minus p idx hidx64 info alloc hpi hpa
                have hsle : s ≤ sumVals A := sumVals_lookup_le A ptr s hAl
                have hrm := sumVals_removeKey A ptr s hAl
                have hnd2 : ((removeKey A ptr).map Prod.fst).Nodup :=
                  hnd.sublist (removeKey_keys_sublist A ptr)
                have hrel3 : SimRel st3 ({ p with
                    last_ptr := 0,
                    data := { p.data with
                      allocations := p.data.allocations.set info.allocation_idx
                        { alloc with data := { alloc.data with
                          leaked := sub64 alloc.data.leaked info.size,
                          temporary := if (p.last_ptr == info.allocation_idx) = true
                            then add64 alloc.data.temporary 1 else alloc.data.temporary } },
                      total := { p.data.total with
                        leaked := sub64 p.data.total.leaked info.size,
                        temporary := if (p.last_ptr == info.allocation_idx) = true
                          then add64 p.data.total.temporary 1
                          else p.data.total.temporary } } } : Parser)
                    (removeKey A ptr) := by
                  refine ⟨?_, ?_, ?_, ?_, hwf3, ?_, ?_⟩
                  · show p.data.allocation_infos.length = st3.allocation_info.length
                    rw [hinfo3]
                    exact i1
                  · intro i
                    show (p.data.allocation_infos.get? i).map AllocationInfo.size = _
                    rw [hinfo3]
                    exact i2 i
                  · intro info2 hmem2
                    show info2.allocation_idx <
                      (p.data.allocations.set info.allocation_idx _).length
                    rw [List.length_set]
                    exact i3 info2 hmem2
                  · intro q hq
                    show q.2 < (p.data.allocations.set info.allocation_idx _).length
                    rw [List.length_set]
                    exact i3x q hq
                  · intro q
                    rw [hmap3 q, hinfo3]
                    by_cases hq : q = ptr
                    · subst hq
                      rw [if_pos rfl, lookup_removeKey_self A q hnd]
                      trivial
                    · rw [if_neg hq, lookup_removeKey_ne A ptr q hq]
                      exact i5 q
                  · show sub64 p.data.total.leaked info.size = sumVals (removeKey A ptr)
                    rw [hsz, i6, sub64_eq _ _ hsle (by omega)]
                    omega
                obtain ⟨delta2, p2, hout, hclean, hparse, hrel2, hcnt2⟩ :=
                  ih st3 _ (removeKey A ptr) st2 h2 hok2 hrel3 hnd2
                    (by omega) hcntb (by rw [hinfo3]; exact hinfob)
                refine ⟨tagLine 45 [toHex idx] :: delta2, p2, ?_, ?_, ?_, hrel2, hcnt2⟩
                · rw [hout, ho, List.append_assoc]
                  rfl
                · intro l hl
                  rcases List.mem_cons.mp hl with h | h
                  · rw [h]
                    exact cleanLine_tagLine1 45 idx ⟨by omega, by omega⟩
                  · exact hclean l h
                · show (match p.parse_line (tagLine 45 [toHex idx]) with
                    | Except.ok p4 => p4.parse_lines delta2
                    | Except.error e => Except.error e) = Except.ok p2
                  rw [hpl]
                  exact hparse
    | alloc ptr size parent =>
      have hok1 : (decide (size < U64) && decide (parent < U64) &&
          (A.lookup ptr == none) && recsOk ((ptr, size) :: A) rest) = true := hok
      rw [Bool.and_eq_true, Bool.and_eq_true, Bool.and_eq_true] at hok1
      obtain ⟨⟨⟨hs, hpz⟩, hfresh⟩, hok2⟩ := hok1
      have hsb : size < U64 := of_decide_eq_true hs
      have hpb : parent < U64 := of_decide_eq_true hpz
      have hfreshb : A.lookup ptr = none := by simpa using hfresh
      have hcc : countAllocs (Record.alloc ptr size parent :: rest) =
          1 + countAllocs rest := rfl
      have hss : sizeSum (Record.alloc ptr size parent :: rest) =
          size + sizeSum rest := rfl
      rw [hcc] at hcntb hinfob
      rw [hss] at hsum
      cases hh : st.handle_record env (Record.alloc ptr size parent) with
      | error e =>
        rw [hh] at h1
        exact absurd (h1 : (Except.error e : Except InterpErr Interpreter) = Except.ok st2)
          (by simp)
      | ok st3 =>
        rw [hh] at h1
        have h2 : st3.run env rest = Except.ok st2 := h1
        obtain ⟨i1, i2, i3, i3x, i4, i5, i6⟩ := hrel
        obtain ⟨idx, hidxle, hget3, hdisj, hwf3, hmap3⟩ :=
          handle_alloc_char env st ptr size parent st3 hh i4
        have hidx64 : idx < U64 := lt_of_le_of_lt hidxle (by omega)
        have hnd2 : (((ptr, size) :: A).map Prod.fst).Nodup := by
          rw [List.map_cons]
          exact List.nodup_cons.mpr ⟨lookup_none_not_mem A ptr hfreshb, hnd⟩
        have hsum2 : sumVals ((ptr, size) :: A) + sizeSum rest < U64 := by
          show size + sumVals A + sizeSum rest < U64
          omega
      -- the live-map step for i5 of the new relation, shared by both branches
        have hlive5 : ∀ (p3 : Parser), p3.data.allocation_infos.length =
            st3.allocation_info.length →
            (∀ q, match tableMap st3.pointers q, (((ptr, size) :: A).lookup q) with
              | some idx2, some s => (st3.allocation_info.get? idx2).map Prod.fst = some s
              | none, none => True
              | _, _ => False) := by
          intro p3 hlen q
          rw [hmap3 q]
          by_cases hq : q = ptr
          · subst hq
            rw [if_pos rfl, lookup_cons_eq size A rfl]
            show (st3.allocation_info.get? idx).map Prod.fst = some size
            rw [hget3]
            rfl
          · rw [if_neg hq, lookup_cons_ne size A hq]
            have h5 := i5 q
            rcases hdisj with ⟨hinfo3, _⟩ | ⟨hinfo3, _⟩
            · rw [hinfo3]
              exact h5
            · rw [hinfo3]
              cases h1t : tableMap st.pointers q with
              | none =>
                rw [h1t] at h5
                cases h2t : A.lookup q with
                | none => trivial
                | some s =>
                  rw [h2t] at h5
                  exact h5
              | some idx2 =>
                rw [h1t] at h5
                cases h2t : A.lookup q with
                | none =>
                  rw [h2t] at h5
                  exact h5
                | some s =>
                  rw [h2t] at h5
                  have h5b : (st.allocation_info.get? idx2).map Prod.fst = some s := h5
                  show ((st.allocation_info ++ [(size, parent)]).get? idx2).map
                    Prod.fst = some s
                  have hlt2 : idx2 < st.allocation_info.length := by
                    cases hg : st.allocation_info.get? idx2 with
                    | none =>
                      rw [hg] at h5b
                      cases h5b
                    | some v =>
                      rw [List.get?_eq_getElem?] at hg
                      obtain ⟨h7, _⟩ := List.getElem?_eq_some_iff.mp hg
                      exact h7
                  rw [List.get?_eq_getElem?,
                    List.getElem?_append_left hlt2, ← List.get?_eq_getElem?]
                  exact h5b
        rcases hdisj with ⟨hinfo3, ho⟩ | ⟨hinfo3, ho⟩
        · -- signature already interned: one `+` line
          have k2 : ∀ i, (p.data.allocation_infos.get? i).map AllocationInfo.size =
              (st3.allocation_info.get? i).map Prod.fst := by
            intro i
            rw [hinfo3]
            exact i2 i
          obtain ⟨p3, hpl, e1, e2, e3, e4, e5⟩ :=
            plus_step st3 p idx size parent hidx64 hget3 k2 i3
          have hrel3 : SimRel st3 p3 ((ptr, size) :: A) := by
            refine ⟨?_, ?_, ?_, ?_, hwf3, hlive5 p3 (by rw [e1, hinfo3]; exact i1), ?_⟩
            · rw [e1, hinfo3]
              exact i1
            · intro i
              rw [e1]
              exact k2 i
            · intro info hmem
              rw [e3]
              exact i3 info (by rw [e1] at hmem; exact hmem)
            · intro q hq
              rw [e3]
              exact i3x q (by rw [e2] at hq; exact hq)
            · rw [e4, add64_eq _ _ (by rw [i6]; omega), i6]
              show sumVals A + size = size + sumVals A
              omega
          have hc3 : p3.data.total.allocations = p.data.total.allocations + 1 := by
            rw [e5]
            exact add64_eq _ 1 (by omega)
          obtain ⟨delta2, p2, hout, hclean, hparse, hrel2, hcnt2⟩ :=
            ih st3 p3 ((ptr, size) :: A) st2 h2 hok2 hrel3 hnd2 hsum2
              (by rw [hc3]; omega) (by rw [hinfo3]; omega)
          refine ⟨tagLine 43 [toHex idx] :: delta2, p2, ?_, ?_, ?_, hrel2, ?_⟩
          · rw [hout, ho, List.append_assoc]
            rfl
          · intro l hl
            rcases List.mem_cons.mp hl with h | h
            · rw [h]
              exact cleanLine_tagLine1 43 idx ⟨by omega, by omega⟩
            · exact hclean l h
          · show (match p.parse_line (tagLine 43 [toHex idx]) with
              | Except.ok p4 => p4.parse_lines delta2
              | Except.error e => Except.error e) = Except.ok p2
            rw [hpl]
            exact hparse
          · rw [hcnt2, hc3, hcc]
            omega
        · -- fresh signature: an `a` line, then a `+` line
          have hplA := parse_line_aline p size parent hsb hpb
          obtain ⟨f1, f2, f3, f4⟩ := add_allocation_facts p parent
          obtain ⟨f4a, f4b⟩ := f4 i3x
          set pA : Parser := { (p.add_allocation parent).2 with data :=
            { (p.add_allocation parent).2.data with
              allocation_infos := (p.add_allocation parent).2.data.allocation_infos ++
                [(⟨(p.add_allocation parent).1, size⟩ : AllocationInfo)] } } with hpA
          have hpAinfos : pA.data.allocation_infos = p.data.allocation_infos ++
              [(⟨(p.add_allocation parent).1, size⟩ : AllocationInfo)] := by
            show (p.add_allocation parent).2.data.allocation_infos ++ _ = _
            rw [f1]
          have k2 : ∀ i, (pA.data.allocation_infos.get? i).map AllocationInfo.size =
              (st3.allocation_info.get? i).map Prod.fst := by
            intro i
            rw [hpAinfos, hinfo3]
            rw [List.get?_eq_getElem?, List.get?_eq_getElem?]
            by_cases hi : i < p.data.allocation_infos.length
            · rw [List.getElem?_append_left hi,
                List.getElem?_append_left (by rw [← i1]; exact hi)]
              have h6 := i2 i
              rw [List.get?_eq_getElem?, List.get?_eq_getElem?] at h6
              exact h6
            · have hi2 : p.data.allocation_infos.length ≤ i := le_of_not_lt hi
              rw [List.getElem?_append_right hi2,
                List.getElem?_append_right (by rw [← i1]; exact hi2), ← i1]
              cases hdiff : i - p.data.allocation_infos.length with
              | zero => simp
              | succ n => simp
          have k3 : ∀ info ∈ pA.data.allocation_infos,
              info.allocation_idx < pA.data.allocations.length := by
            intro info hmem
            rw [hpAinfos] at hmem
            show info.allocation_idx < (p.add_allocation parent).2.data.allocations.length
            rcases List.mem_append.mp hmem with h | h
            · have := i3 info h
              omega
            · rw [List.mem_singleton.mp h]
              exact f4b
          obtain ⟨p3, hpl, e1, e2, e3, e4, e5⟩ :=
            plus_step st3 pA idx size parent hidx64 hget3 k2 k3
          have hrel3 : SimRel st3 p3 ((ptr, size) :: A) := by
            refine ⟨?_, ?_, ?_, ?_, hwf3, hlive5 p3 ?_, ?_⟩
            · rw [e1, hpAinfos, hinfo3, List.length_append, List.length_append, i1]
              rfl
            · intro i
              rw [e1]
              exact k2 i
            · intro info hmem
              rw [e3]
              exact k3 info (by rw [e1] at hmem; exact hmem)
            · intro q hq
              rw [e3]
              show q.2 < pA.data.allocations.length
              exact f4a q (by rw [e2] at hq; exact hq)
            · rw [e1, hpAinfos, hinfo3, List.length_append, List.length_append, i1]
              rfl
            · have hleakA : pA.data.total.leaked = p.data.total.leaked := by
                show (p.add_allocation parent).2.data.total.leaked = _
                rw [f2]
              rw [e4, hleakA, add64_eq _ _ (by rw [i6]; omega), i6]
              show sumVals A + size = size + sumVals A
              omega
          have hcA : pA.data.total.allocations = p.data.total.allocations := by
            show (p.add_allocation parent).2.data.total.allocations = _
            rw [f2]
          have hc3 : p3.data.total.allocations = p.data.total.allocations + 1 := by
            rw [e5, hcA]
            exact add64_eq _ 1 (by omega)
          obtain ⟨delta2, p2, hout, hclean, hparse, hrel2, hcnt2⟩ :=
            ih st3 p3 ((ptr, size) :: A) st2 h2 hok2 hrel3 hnd2 hsum2
              (by rw [hc3]; omega)
              (by rw [hinfo3, List.length_append]; simp; omega)
          refine ⟨tagLine 97 [toHex size, toHex parent] :: tagLine 43 [toHex idx] ::
            delta2, p2, ?_, ?_, ?_, hrel2, ?_⟩
          · rw [hout, ho, List.append_assoc]
            rfl
          · intro l hl
            rcases List.mem_cons.mp hl with h | h
            · rw [h]
              exact cleanLine_tagLine2 97 size parent ⟨by omega, by omega⟩
            · rcases List.mem_cons.mp h with h3 | h3
              · rw [h3]
                exact cleanLine_tagLine1 43 idx ⟨by omega, by omega⟩
              · exact hclean l h3
          · show (match p.parse_line (tagLine 97 [toHex size, toHex parent]) with
              | Except.ok p4 => p4.parse_lines (tagLine 43 [toHex idx] :: delta2)
              | Except.error e => Except.error e) = Except.ok p2
            rw [hplA]
            show (match pA.parse_line (tagLine 43 [toHex idx]) with
              | Except.ok p4 => p4.parse_lines delta2
              | Except.error e => Except.error e) = Except.ok p2
            rw [hpl]
            exact hparse
          · rw [hcnt2, hc3, hcc]
            omega
    | image name sa sz =>
      have hok1 : (decide (¬ 10 ∈ name) && decide (¬ 13 ∈ name) &&
          decide (name.length < U64) && recsOk A rest) = true := hok
      rw [Bool.and_eq_true, Bool.and_eq_true, Bool.and_eq_true] at hok1
      obtain ⟨⟨⟨h10, h13⟩, hlen⟩, hok2⟩ := hok1
      have h10b : ¬ 10 ∈ name := of_decide_eq_true h10
      have h13b : ¬ 13 ∈ name := of_decide_eq_true h13
      have hlenb : name.length < U64 := of_decide_eq_true hlen
      cases hh : st.handle_record env (Record.image name sa sz) with
      | error e =>
        rw [hh] at h1
        exact absurd (h1 : (Except.error e : Except InterpErr Interpreter) = Except.ok st2)
          (by simp)
      | ok st3 =>
        rw [hh] at h1
        have h2 : st3.run env rest = Except.ok st2 := h1
        obtain ⟨hodisj, hinfo, hptr⟩ := handle_image_char env st name sa sz st3 hh
        have hrel3 : SimRel st3 p A := by
          obtain ⟨i1, i2, i3, i3x, i4, i5, i6⟩ := hrel
          refine ⟨by rw [hinfo]; exact i1, ?_, i3, i3x, by rw [hptr]; exact i4, ?_, i6⟩
          · intro i
            rw [hinfo]
            exact i2 i
          · intro q
            rw [hptr, hinfo]
            exact i5 q
        have hinfob3 : st3.allocation_info.length + countAllocs rest < U64 := by
          rw [hinfo]
          exact hinfob
        rcases hodisj with ho | ho
        · obtain ⟨delta2, p2, hout, hclean, hparse, hrel2, hcnt2⟩ :=
            ih st3 p A st2 h2 hok2 hrel3 hnd hsum hcntb hinfob3
          refine ⟨delta2, p2, ?_, hclean, hparse, hrel2, hcnt2⟩
          rw [hout, ho]
        · have hpl : p.parse_line (string_line name) = Except.ok
              ({ p with data := { p.data with
                strings := p.data.strings ++ [name] } } : Parser) :=
            parse_line_string_line p name hlenb
          obtain ⟨delta2, p2, hout, hclean, hparse, hrel2, hcnt2⟩ :=
            ih st3 ({ p with data := { p.data with
              strings := p.data.strings ++ [name] } } : Parser) A st2 h2 hok2 hrel3
              hnd hsum hcntb hinfob3
          refine ⟨string_line name :: delta2, p2, ?_, ?_, ?_, hrel2, hcnt2⟩
          · rw [hout, ho, List.append_assoc]
            rfl
          · intro l hl
            rcases List.mem_cons.mp hl with h | h
            · rw [h]
              exact cleanLine_string_line name h10b h13b
            · exact hclean l h
          · show (match p.parse_line (string_line name) with
              | Except.ok p4 => p4.parse_lines delta2
              | Except.error e => Except.error e) = Except.ok p2
            rw [hpl]
            exact hparse
    | version v =>
      have h3 : ({ st with output := st.output ++ [tagLine 118 [toHex v, toHex 3]] } :
          Interpreter).run env rest = Except.ok st2 := h1
      have hok1 : (decide (v < U64) && recsOk A rest) = true := hok
      rw [Bool.and_eq_true] at hok1
      obtain ⟨hv, hok2⟩ := hok1
      obtain ⟨delta2, p2, hout, hclean, hparse, hrel2, hcnt2⟩ :=
        ih _ p A st2 h3 hok2 hrel hnd hsum hcntb hinfob
      refine ⟨tagLine 118 [toHex v, toHex 3] :: delta2, p2, ?_, ?_, ?_, hrel2, hcnt2⟩
      · rw [hout]
        show (st.output ++ [tagLine 118 [toHex v, toHex 3]]) ++ delta2 = _
        rw [List.append_assoc]
        rfl
      · intro l hl
        rcases List.mem_cons.mp hl with h | h
        · rw [h]
          exact cleanLine_tagLine2 118 v 3 ⟨by omega, by omega⟩
        · exact hclean l h
      · show (match p.parse_line (tagLine 118 [toHex v, toHex 3]) with
          | Except.ok p4 => p4.parse_lines delta2
          | Except.error e => Except.error e) = Except.ok p2
        rw [show p.parse_line (tagLine 118 [toHex v, toHex 3]) = Except.ok p from by
          obtain ⟨tailr, hsp⟩ := splitWs_tagLine_head 118 (by decide) [toHex v, toHex 3]
          exact parse_line_ignored p _ [118] tailr hsp (by decide)]
        exact hparse
    | exec cmd =>
      have h3 : ({ st with output := st.output ++ [tagLine 88 [cmd]] } :
          Interpreter).run env rest = Except.ok st2 := h1
      have hok1 : (decide (¬ 10 ∈ cmd) && decide (¬ 13 ∈ cmd) && recsOk A rest) = true := hok
      rw [Bool.and_eq_true, Bool.and_eq_true] at hok1
      obtain ⟨⟨h10, h13⟩, hok2⟩ := hok1
      have h10b : ¬ 10 ∈ cmd := of_decide_eq_true h10
      have h13b : ¬ 13 ∈ cmd := of_decide_eq_true h13
      obtain ⟨delta2, p2, hout, hclean, hparse, hrel2, hcnt2⟩ :=
        ih _ p A st2 h3 hok2 hrel hnd hsum hcntb hinfob
      refine ⟨tagLine 88 [cmd] :: delta2, p2, ?_, ?_, ?_, hrel2, hcnt2⟩
      · rw [hout]
        show (st.output ++ [tagLine 88 [cmd]]) ++ delta2 = _
        rw [List.append_assoc]
        rfl
      · intro l hl
        rcases List.mem_cons.mp hl with h | h
        · rw [h]
          exact cleanLine_tagLine 88 ⟨by omega, by omega⟩ _ (by
            intro x hx
            rw [List.mem_singleton.mp hx]
            exact cleanLine_of_not_mem cmd h10b h13b)
        · exact hclean l h
      · show (match p.parse_line (tagLine 88 [cmd]) with
          | Except.ok p4 => p4.parse_lines delta2
          | Except.error e => Except.error e) = Except.ok p2
        rw [show p.parse_line (tagLine 88 [cmd]) = Except.ok p from by
          obtain ⟨tailr, hsp⟩ := splitWs_tagLine_head 88 (by decide) [cmd]
          exact parse_line_ignored p _ [88] tailr hsp (by decide)]
        exact hparse
    | pageInfo s g =>
      have h3 : ({ st with output := st.output ++ [tagLine 73 [toHex s, toHex g]] } :
          Interpreter).run env rest = Except.ok st2 := h1
      have hok1 : (decide (s < U64) && decide (g < U64) && recsOk A rest) = true := hok
      rw [Bool.and_eq_true, Bool.and_eq_true] at hok1
      obtain ⟨⟨hs, hg⟩, hok2⟩ := hok1
      have hsb : s < U64 := of_decide_eq_true hs
      have hgb : g < U64 := of_decide_eq_true hg
      obtain ⟨delta2, p2, hout, hclean, hparse, hrel2, hcnt2⟩ :=
        ih _ ({ p with data := { p.data with page_size := s, pages := g } } : Parser) A st2 h3 hok2 hrel hnd hsum hcntb hinfob
      refine ⟨tagLine 73 [toHex s, toHex g] :: delta2, p2, ?_, ?_, ?_, hrel2, hcnt2⟩
      · rw [hout]
        show (st.output ++ [tagLine 73 [toHex s, toHex g]]) ++ delta2 = _
        rw [List.append_assoc]
        rfl
      · intro l hl
        rcases List.mem_cons.mp hl with h | h
        · rw [h]
          exact cleanLine_tagLine2 73 s g ⟨by omega, by omega⟩
        · exact hclean l h
      · show (match p.parse_line (tagLine 73 [toHex s, toHex g]) with
          | Except.ok p4 => p4.parse_lines delta2
          | Except.error e => Except.error e) = Except.ok p2
        rw [parse_line_Iline p s g hsb hgb]
        exact hparse
    | duration d =>
      have h3 : ({ st with output := st.output ++ [tagLine 99 [toHex d]] } :
          Interpreter).run env rest = Except.ok st2 := h1
      have hok1 : (decide (d < U64) && recsOk A rest) = true := hok
      rw [Bool.and_eq_true] at hok1
      obtain ⟨hd, hok2⟩ := hok1
      have hdb : d < U64 := of_decide_eq_true hd
      obtain ⟨delta2, p2, hout, hclean, hparse, hrel2, hcnt2⟩ :=
        ih _ ({ p with data := { p.data with duration := d } } : Parser) A st2 h3 hok2 hrel hnd hsum hcntb hinfob
      refine ⟨tagLine 99 [toHex d] :: delta2, p2, ?_, ?_, ?_, hrel2, hcnt2⟩
      · rw [hout]
        show (st.output ++ [tagLine 99 [toHex d]]) ++ delta2 = _
        rw [List.append_assoc]
        rfl
      · intro l hl
        rcases List.mem_cons.mp hl with h | h
        · rw [h]
          exact cleanLine_tagLine1 99 d ⟨by omega, by omega⟩
        · exact hclean l h
      · show (match p.parse_line (tagLine 99 [toHex d]) with
          | Except.ok p4 => p4.parse_lines delta2
          | Except.error e => Except.error e) = Except.ok p2
        rw [parse_line_cline p d hdb]
        exact hparse
    | rss r =>
      have h3 : ({ st with output := st.output ++ [tagLine 82 [toHex r]] } :
          Interpreter).run env rest = Except.ok st2 := h1
      have hok1 : (decide (r < U64) && recsOk A rest) = true := hok
      rw [Bool.and_eq_true] at hok1
      obtain ⟨hrr, hok2⟩ := hok1
      have hrb : r < U64 := of_decide_eq_true hrr
      obtain ⟨delta2, p2, hout, hclean, hparse, hrel2, hcnt2⟩ :=
        ih _ ({ p with data := { p.data with
        peak_rss := if r > p.data.peak_rss then r else p.data.peak_rss } } : Parser) A st2 h3 hok2 hrel hnd hsum hcntb hinfob
      refine ⟨tagLine 82 [toHex r] :: delta2, p2, ?_, ?_, ?_, hrel2, hcnt2⟩
      · rw [hout]
        show (st.output ++ [tagLine 82 [toHex r]]) ++ delta2 = _
        rw [List.append_assoc]
        rfl
      · intro l hl
        rcases List.mem_cons.mp hl with h | h
        · rw [h]
          exact cleanLine_tagLine1 82 r ⟨by omega, by omega⟩
        · exact hclean l h
      · show (match p.parse_line (tagLine 82 [toHex r]) with
          | Except.ok p4 => p4.parse_lines delta2
          | Except.error e => Except.error e) = Except.ok p2
        rw [parse_line_Rline p r hrb]
        exact hparse

theorem cleanLine_comment (pre : Bytes) (hpre : ∀ b ∈ pre, CleanByte b) (n : Nat) :
    CleanLine (tagLine 35 [pre ++ toDec n]) :=
  cleanLine_tagLine 35 ⟨by omega, by omega⟩ _ (by
    intro x hx
    rw [List.mem_singleton.mp hx]
    intro b hb
    rcases List.mem_append.mp hb with h | h
    · exact hpre b h
    · have := toDec_mem n b h
      exact ⟨by omega, by omega⟩)

/-- **C1 (amended).** Balanced-allocation conservation over the pipeline for
trace-free record streams: if every `Alloc` is fresh and every `Free` hits a
live pointer (`recsOk`), numeric fields stay below `2^64`, record strings
are newline-free, the total of allocated sizes and the number of `Alloc`
records stay below `2^64`, then re-parsing the Interpreter's textual output
succeeds, `total.leaked` equals the sum of the sizes of the allocations
never freed, and `total.allocations` equals the number of `Alloc` records
(one `+` line each).  The original claim's unrestricted form is false: with
`Trace` records the emitted `i` line can be unparseable even when every IP
resolves — see `c1_counterexample` and C5. -/
theorem c1_balanced_roundtrip (env : LoaderEnv) (rs : List Record) (st2 : Interpreter)
    (hrec : recsOk [] rs = true)
    (hrun : exec_records env rs = Except.ok st2)
    (hsum : sizeSum rs < U64)
    (hcnt : countAllocs rs < U64) :
    ∃ d, parse_file (fileBytes st2) = Except.ok d ∧
      d.total.leaked = sumVals (liveAfter [] rs) ∧
      d.total.allocations = countAllocs rs := by
  have h1 : (match Interpreter.init.run env rs with
      | Except.ok stR => Except.ok stR.write_comments
      | Except.error e => Except.error e) = Except.ok st2 := hrun
  cases hR : Interpreter.init.run env rs with
  | error e =>
    rw [hR] at h1
    exact absurd (h1 : (Except.error e : Except InterpErr Interpreter) = Except.ok st2)
      (by simp)
  | ok stR =>
    rw [hR] at h1
    have h2 : Except.ok stR.write_comments = Except.ok st2 := h1
    simp only [Except.ok.injEq] at h2
    subst h2
    have hrel0 : SimRel Interpreter.init Parser.init [] := by
      refine ⟨rfl, fun i => rfl, fun info hmem => absurd hmem (List.not_mem_nil info),
        fun q hq => absurd hq (List.not_mem_nil q), TableWF_empty, fun q => ?_, rfl⟩
      rw [show tableMap Interpreter.init.pointers q = none from rfl]
      rw [show (([] : List (Nat × Nat)).lookup q) = none from rfl]
      trivial
    obtain ⟨delta, p2, hout, hclean, hparse, hrel2, hcnt2⟩ :=
      sim_run env rs Interpreter.init Parser.init [] stR hR hrec hrel0 (by simp)
        (by show 0 + sizeSum rs < U64; omega)
        (by show 0 + countAllocs rs < U64; omega)
        (by show 0 + countAllocs rs < U64; omega)
    have houtR : stR.output = delta := by
      rw [hout]
      rfl
    set L2 : Bytes := tagLine 35 [[115, 116, 114, 105, 110, 103, 115, 58, 32] ++
      toDec stR.strings.length] with hL2
    set L3 : Bytes := tagLine 35 [[105, 112, 115, 58, 32] ++
      toDec stR.frames.length] with hL3
    have hwcout : stR.write_comments.output = delta ++ [[], L2, L3] := by
      show stR.output ++ [[], L2, L3] = _
      rw [houtR]
    have hcleanAll : ∀ l ∈ delta ++ [[], L2, L3], CleanLine l := by
      intro l hl
      rcases List.mem_append.mp hl with h | h
      · exact hclean l h
      · rcases List.mem_cons.mp h with h2 | h2
        · rw [h2]
          intro b hb
          cases hb
        · rcases List.mem_cons.mp h2 with h3 | h3
          · rw [h3, hL2]
            exact cleanLine_comment _ (by decide) _
          · rw [List.mem_singleton.mp h3, hL3]
            exact cleanLine_comment _ (by decide) _
    have hrust : rustLines (fileBytes stR.write_comments) = delta ++ [[], L2, L3] := by
      show rustLines ((stR.write_comments.output.map (· ++ [10])).flatten) = _
      rw [hwcout]
      exact rustLines_flatten _ hcleanAll
    have ha : p2.parse_line [] = Except.ok p2 := parse_line_nil p2
    obtain ⟨t2, hs2⟩ := splitWs_tagLine_head 35 (by decide)
      [[115, 116, 114, 105, 110, 103, 115, 58, 32] ++ toDec stR.strings.length]
    have hb : p2.parse_line L2 = Except.ok p2 :=
      parse_line_ignored p2 L2 [35] t2 hs2 (by decide)
    obtain ⟨t3, hs3⟩ := splitWs_tagLine_head 35 (by decide)
      [[105, 112, 115, 58, 32] ++ toDec stR.frames.length]
    have hc : p2.parse_line L3 = Except.ok p2 :=
      parse_line_ignored p2 L3 [35] t3 hs3 (by decide)
    have hplast : p2.parse_lines [[], L2, L3] = Except.ok p2 := by
      show (match p2.parse_line [] with
        | Except.ok q => q.parse_lines [L2, L3]
        | Except.error e => Except.error e) = Except.ok p2
      rw [ha]
      show (match p2.parse_line L2 with
        | Except.ok q => q.parse_lines [L3]
        | Except.error e => Except.error e) = Except.ok p2
      rw [hb]
      show (match p2.parse_line L3 with
        | Except.ok q => q.parse_lines []
        | Except.error e => Except.error e) = Except.ok p2
      rw [hc]
      rfl
    have hfull : Parser.init.parse_lines (delta ++ [[], L2, L3]) = Except.ok p2 := by
      rw [parse_lines_append, hparse]
      exact hplast
    refine ⟨p2.data, ?_, hrel2.2.2.2.2.2.2, ?_⟩
    · unfold parse_file
      rw [hrust, hfull]
    · rw [hcnt2]
      show 0 + countAllocs rs = countAllocs rs
      omega

/-- **C1 (counterexample to the original claim).** A balanced stream
(`Alloc 7` then `Free 7`) in which every traced IP resolves (the
interpreter run succeeds end to end), yet feeding the emitted text back to
the Parser fails with `InvalidFormat`, because the resolved locations
produce an `i` line with two function-only frames, which `parse_frame`
cannot re-read (C5).  `total.leaked`/`total.allocations` are therefore not
recovered at all. -/
theorem c1_counterexample :
    pipeline env2 c1recs = Except.ok (Except.error ParseErr.invalidFormat) ∧
    liveAfter [] c1recs = [] :=
  ⟨rfl, rfl⟩

/-- Witness for C1 (amended) at a concrete stream: two allocations (8 and 16
bytes), the first freed; the re-parsed totals are `leaked = 16` and
`allocations = 2`. -/
theorem c1_balanced_roundtrip_witness :
    ∃ d, parse_file (fileBytes (⟨[[118, 32, 49, 32, 51], [97, 32, 56, 32, 49],
        [43, 32, 48], [97, 32, 49, 48, 32, 50], [43, 32, 49], [45, 32, 48], [],
        [35, 32, 115, 116, 114, 105, 110, 103, 115, 58, 32, 48],
        [35, 32, 105, 112, 115, 58, 32, 48]],
        [], [], [(0, (⟨[9], [1]⟩ : Indices))], [(8, 1), (16, 2)], Resolver.new,
        (⟨2, 1, 0⟩ : MemStats), 0⟩ : Interpreter)) = Except.ok d ∧
      d.total.leaked = sumVals (liveAfter []
        [Record.version 1, Record.alloc 5 8 1, Record.alloc 9 16 2, Record.free 5]) ∧
      d.total.allocations = countAllocs
        [Record.version 1, Record.alloc 5 8 1, Record.alloc 9 16 2, Record.free 5] :=
  c1_balanced_roundtrip envTrivial
    [Record.version 1, Record.alloc 5 8 1, Record.alloc 9 16 2, Record.free 5] _
    (by decide) rfl (by decide) (by decide)

end Memtrack
